import Mathlib

/-!
License lifecycle engine of golicensemanager.

A shallow embedding of `internal/service/license_service.go`, of the records of
`internal/models/models.go` it works on and of the license repository of
`internal/repository/postgres/repositories.go` it calls, together with the deletion of a
client of `internal/service/client_service.go` and the repository methods it calls.

The repository is an external collaborator of the engine.  It is embedded as an
in-memory table per record kind, together with a schedule of faults for each
repository method: a call whose next scheduled fault is `true` fails with the
database error and leaves the tables as they were.  The clock is a sequence of
readings, one consumed by every `time.Now()`.

Bookkeeping columns kept by the persistence layer (`Base.CreatedAt`,
`Base.UpdatedAt`) and the preloaded associations of a record are not part of the
embedding.  Instants are read in UTC, where a day has 24 hours; the arithmetic of
`AddDate` is that of the machine integers of 64 bits, and the two `date` columns of a
license hold the day of the instant that `Create` writes.
-/

namespace GoLicenseManager

/-! ## Values of the Go types used by the engine -/

/-- A `uuid.UUID`, as a number. -/
abbrev UUID := Nat

namespace uuid

/-- The value `uuid.Nil`. -/
def Nil : UUID := 0

end uuid

/-- A `time.Time` instant, in nanoseconds since the Unix epoch. -/
abbrev Time := Int

namespace Time

/-- The zero `time.Time` (January 1, year 1, 00:00 UTC), in nanoseconds since the Unix epoch. -/
def zero : Time := -62135596800 * 1000000000

/-- Go `t.IsZero()`. -/
def IsZero (t : Time) : Bool := decide (t = zero)

/-- Go `t.After(u)`: `t` is strictly later than `u`. -/
def After (t u : Time) : Bool := decide (u < t)

/-- Nanoseconds in a day of 24 hours. -/
def nanosPerDay : Int := 86400 * 1000000000

/-- Go `int64(x)` of a number computed without bound: a machine integer of 64 bits wraps
around. -/
def wrap64 (x : Int) : Int := (x + 2 ^ 63) % 2 ^ 64 - 2 ^ 63

/-- The seconds from January 1 of year 1, from which a `time.Time` counts its seconds, to
the Unix epoch (`unixToInternal`). -/
def unixToInternal : Int := 62135596800

/-- Go `t.AddDate(0, 0, days)` for an instant in UTC, `days` being a Go `int` of 64 bits.
Go adds `days` to the day of the month and rebuilds the instant with `Date`, which counts
the days and then the seconds in machine integers: the seconds of the result are those of
`t` plus `86400 * days`, wrapped around, and the nanoseconds within the second are kept. -/
def AddDate (t : Time) (days : Int) : Time :=
  (wrap64 (t / 1000000000 + unixToInternal + days * 86400) - unixToInternal) * 1000000000 +
    t % 1000000000

/-- The seconds of `t.AddDate(0, 0, days)` do not wrap around. -/
def NoWrap (t : Time) (days : Int) : Prop :=
  -(2 ^ 63) ≤ t / 1000000000 + unixToInternal + days * 86400 ∧
    t / 1000000000 + unixToInternal + days * 86400 < 2 ^ 63

instance (t : Time) (days : Int) : Decidable (NoWrap t days) := by
  unfold NoWrap
  infer_instance

/-- The instant as a column of type `date` holds it and hands it back: midnight (UTC) of
its day. -/
def dateOnly (t : Time) : Time := t - t % nanosPerDay

/-- Go `t.UnixNano()`: the nanoseconds since the Unix epoch as an `int64`, wrapping around
for an instant they cannot hold. -/
def UnixNano (t : Time) : Int := (t + 2 ^ 63) % 2 ^ 64 - 2 ^ 63

end Time

/-- A Go `float64`.  A finite value is a multiple of a common unit, and `fin k` is the
`k`-th multiple; the engine only compares these values. -/
inductive Float64 where
  | nan
  | negInf
  | fin (k : Int)
  | posInf
  deriving DecidableEq, Repr

namespace Float64

/-- Go `a > b` on `float64`: false as soon as one side is NaN. -/
def gt : Float64 → Float64 → Bool
  | nan, _ => false
  | _, nan => false
  | negInf, _ => false
  | fin _, negInf => true
  | fin a, fin b => decide (b < a)
  | fin _, posInf => false
  | posInf, posInf => false
  | posInf, _ => true

end Float64

/-- A value held in a Go `interface{}` of a JSON-like map.  A JSON number is a `float64`;
`other` stands for every remaining dynamic type (arrays, nested objects, Go integers). -/
inductive Value where
  | null
  | bool (b : Bool)
  | num (f : Float64)
  | str (s : String)
  | other (tag : String)
  deriving DecidableEq, Repr

namespace Value

/-- Go type assertion `v.(float64)`. -/
def asFloat64 : Value → Option Float64
  | num f => some f
  | _ => none

end Value

/-- The entries of a non-nil Go map, in some order. -/
abbrev Entries := List (String × Value)

namespace Entries

/-- Go `m[k] = v` on a non-nil map: the entry of `k` is replaced, or added when absent. -/
def set (es : Entries) (k : String) (v : Value) : Entries :=
  if es.any (fun e => e.1 == k) then
    es.map (fun e => if e.1 == k then (k, v) else e)
  else
    es ++ [(k, v)]

end Entries

/-- A Go `map[string]interface{}`: `none` is the nil map. -/
abbrev GoMap := Option Entries

namespace GoMap

/-- Go `make(map[string]interface{})`. -/
def make : GoMap := some []

/-- Go `v, ok := m[k]`; reading the nil map finds nothing. -/
def get (m : GoMap) (k : String) : Option Value :=
  match m with
  | none => none
  | some es => es.lookup k

end GoMap

/-! ## Errors -/

/-- Go error values met by the engine.  `RepoErrNotFound` is `repository.ErrNotFound`; the
other sentinels are those of `internal/service/errors.go`.  `driver` is the error of the
database, and `wrap before inner after` is `fmt.Errorf` with one `%w`. -/
inductive GoError where
  | RepoErrNotFound
  | ErrNotFound
  | ErrInvalidInput
  | ErrLicenseInvalid
  | ErrLicenseExpired
  | ErrLicenseRevoked
  | ErrLicenseUsageLimitExceeded
  | ErrClientHasActiveLicenses
  | driver
  | wrap (before : String) (inner : GoError) (after : String)
  deriving DecidableEq, Repr

namespace GoError

/-- Go `errors.Is(err, target)` over the chain of wrapped errors. -/
def Is : GoError → GoError → Bool
  | wrap b e a, target => decide (wrap b e a = target) || Is e target
  | e, target => decide (e = target)

end GoError

/-! ## Records (`internal/models/models.go`) -/

/-- The record `models.LicenseType`.  `DurationDays` is a Go `int`, a number of 64 bits: the
arithmetic on it (`Time.AddDate`) is done modulo `2 ^ 64`. -/
structure LicenseType where
  ID : UUID
  ApplicationID : UUID
  Name : String
  Description : String
  DurationDays : Int
  Price : Float64
  IsActive : Bool
  Features : GoMap
  deriving DecidableEq, Repr

/-- The record `models.License`. -/
structure License where
  ID : UUID
  ApplicationID : UUID
  LicenseTypeID : UUID
  ClientID : UUID
  LicenseKey : String
  StartDate : Time
  ExpiryDate : Time
  UsageLimits : GoMap
  CurrentUsage : GoMap
  IsActive : Bool
  IsRevoked : Bool
  RevocationReason : Option String
  LastCheck : Option Time
  deriving DecidableEq, Repr

/-- The record `models.LicenseActivity`. -/
structure LicenseActivity where
  ID : UUID
  LicenseID : UUID
  ActivityType : String
  Description : String
  Metadata : GoMap
  IPAddress : String
  UserAgent : String
  CreatedAt : Time
  deriving DecidableEq, Repr

/-- The struct `service.ValidationResult`. -/
structure ValidationResult where
  Valid : Bool
  Message : String
  ExpiresAt : Time
  Features : GoMap
  deriving DecidableEq, Repr

/-! ## The store, its faults and the clock -/

/-- The tables of the store, the pending faults of each repository method and the clock. -/
structure World where
  licenses : List License
  licenseTypes : List LicenseType
  activities : List LicenseActivity
  now : Time
  later : List Time
  getByIDFaults : List Bool
  getByKeyFaults : List Bool
  typeFaults : List Bool
  createFaults : List Bool
  updateFaults : List Bool
  activityFaults : List Bool
  deriving DecidableEq, Repr

/-- No pending fault of a schedule strikes. -/
def noFault (fs : List Bool) : Prop := ∀ b ∈ fs, b = false

instance (fs : List Bool) : Decidable (noFault fs) := by
  unfold noFault
  infer_instance

/-- The row of the license table with the given key (`First` on `license_key = ?`). -/
def findByKey (ls : List License) (licenseKey : String) : Option License :=
  ls.find? (fun l => l.LicenseKey == licenseKey)

/-- The row of the license table with the given identifier (`First` on `id = ?`). -/
def findByID (ls : List License) (id : UUID) : Option License :=
  ls.find? (fun l => l.ID == id)

/-- The row of the license type table with the given identifier. -/
def findType (ts : List LicenseType) (id : UUID) : Option LicenseType :=
  ts.find? (fun t => t.ID == id)

/-- The license table after `Save` of `license`: the row with its identifier is replaced;
when there is none the record is inserted. -/
def saved (ls : List License) (license : License) : List License :=
  if ls.any (fun l => l.ID == license.ID) then
    ls.map (fun l => if l.ID == license.ID then license else l)
  else
    ls ++ [license]

/-- An identifier none of `used` has, for a column with `default:uuid_generate_v4()`. -/
def freshID (used : List UUID) : UUID := used.foldr max 0 + 1

namespace World

/-- Go `time.Now()`: the current reading, the clock moving on to its next reading. -/
def timeNow (w : World) : Time × World :=
  match w.later with
  | [] => (w.now, w)
  | t :: ts => (w.now, { w with now := t, later := ts })

end World

/-! ## The repositories (`internal/repository/postgres/repositories.go`) -/

namespace licenseTypeRepo

/-- `licenseTypeRepo.GetByID`. -/
def GetByID (w : World) (id : UUID) : Except GoError LicenseType × World :=
  let w1 := { w with typeFaults := w.typeFaults.tail }
  if w.typeFaults.headD false then
    (.error (.wrap "failed to get license type: " .driver ""), w1)
  else
    match findType w.licenseTypes id with
    | none => (.error .RepoErrNotFound, w1)
    | some t => (.ok t, w1)

end licenseTypeRepo

namespace licenseRepo

/-- The record as `Create` inserts it and hands it back. A column that `models.License`
declares with a `default` tag takes its default when the field has its zero value: a nil
identifier becomes a fresh one (`uuid_generate_v4()`), a nil usage map becomes the empty map
(`'{}'`) and `IsActive = false` becomes `true` (`default:true`); `default:false` leaves
`IsRevoked` as it is. -/
def withDefaults (ls : List License) (license : License) : License :=
  { license with
    ID := if license.ID = uuid.Nil then freshID (ls.map (fun l => l.ID)) else license.ID
    UsageLimits := if license.UsageLimits = none then GoMap.make else license.UsageLimits
    CurrentUsage := if license.CurrentUsage = none then GoMap.make else license.CurrentUsage
    IsActive := if license.IsActive = false then true else license.IsActive }

/-- The row the license table holds for an inserted record: `models.License` declares
`StartDate` and `ExpiryDate` as columns of type `date`, which keep the day of an instant and
not its time of day. -/
def tableRow (license : License) : License :=
  { license with
    StartDate := Time.dateOnly license.StartDate
    ExpiryDate := Time.dateOnly license.ExpiryDate }

/-- `licenseRepo.Create`: the row is inserted unless its identifier or its key is taken. The
record handed back is the caller's with the defaults of the columns filled in; its dates
are the instants the caller set, the table holding their days. -/
def Create (w : World) (license : License) : Except GoError License × World :=
  let w1 := { w with createFaults := w.createFaults.tail }
  let row : License := withDefaults w.licenses license
  if w.createFaults.headD false then
    (.error (.wrap "failed to create license: " .driver ""), w1)
  else if w.licenses.any (fun l => l.ID == row.ID || l.LicenseKey == row.LicenseKey) then
    (.error (.wrap "failed to create license: " .driver ""), w1)
  else
    (.ok row, { w1 with licenses := w.licenses ++ [tableRow row] })

/-- `licenseRepo.GetByID`. -/
def GetByID (w : World) (id : UUID) : Except GoError License × World :=
  let w1 := { w with getByIDFaults := w.getByIDFaults.tail }
  if w.getByIDFaults.headD false then
    (.error (.wrap "failed to get license: " .driver ""), w1)
  else
    match findByID w.licenses id with
    | none => (.error .RepoErrNotFound, w1)
    | some l => (.ok l, w1)

/-- `licenseRepo.GetByKey`. -/
def GetByKey (w : World) (licenseKey : String) : Except GoError License × World :=
  let w1 := { w with getByKeyFaults := w.getByKeyFaults.tail }
  if w.getByKeyFaults.headD false then
    (.error (.wrap "failed to get license by key: " .driver ""), w1)
  else
    match findByKey w.licenses licenseKey with
    | none => (.error .RepoErrNotFound, w1)
    | some l => (.ok l, w1)

/-- `licenseRepo.Update` (`Save`). Every caller in the license service saves a record it
loaded from the table, or one that `licenseService.Update` has given the dates of the loaded
row, so the dates written are dates the table handed out and are stored as they are. -/
def Update (w : World) (license : License) : Except GoError License × World :=
  let w1 := { w with updateFaults := w.updateFaults.tail }
  if w.updateFaults.headD false then
    (.error (.wrap "failed to update license: " .driver ""), w1)
  else
    (.ok license, { w1 with licenses := saved w.licenses license })

/-- `licenseRepo.CreateActivity`: the activity is appended to the activity table, a nil
identifier and a nil metadata map taking the defaults of their columns. -/
def CreateActivity (w : World) (activity : LicenseActivity) : Option GoError × World :=
  let w1 := { w with activityFaults := w.activityFaults.tail }
  let row : LicenseActivity :=
    { activity with
      ID := if activity.ID = uuid.Nil then freshID (w.activities.map (fun a => a.ID))
            else activity.ID
      Metadata := if activity.Metadata = none then GoMap.make else activity.Metadata }
  if w.activityFaults.headD false then
    (some (.wrap "failed to create license activity: " .driver ""), w1)
  else
    (none, { w1 with activities := w.activities ++ [row] })

end licenseRepo

/-! ## The license service (`internal/service/license_service.go`) -/

/-- Library functions the key generator calls: the hexadecimal SHA-256 digest of a string
(`crypto/sha256` with `hex.EncodeToString`) and `uuid.UUID.String`. -/
structure Lib where
  sha256Hex : String → String
  uuidString : UUID → String

/-- The outcome of a call that returns an `error`: it returned (nil or an error), or it did
not return because the Go runtime panicked. -/
inductive Outcome where
  | returned (err : Option GoError)
  | panicked
  deriving DecidableEq, Repr

/-- The state of the loop of `CheckUsage` over the submitted metrics: it ran to its end with
the current-usage map `cur`, it returned `err`, or it panicked. -/
inductive LoopResult where
  | done (cur : GoMap)
  | failed (err : GoError)
  | panicked
  deriving DecidableEq, Repr

namespace service

/-- `validateLicense`. -/
def validateLicense (license : License) : Option GoError :=
  if license.ApplicationID = uuid.Nil then
    some (.wrap "" .ErrInvalidInput ": application ID is required")
  else if license.LicenseTypeID = uuid.Nil then
    some (.wrap "" .ErrInvalidInput ": license type ID is required")
  else if license.ClientID = uuid.Nil then
    some (.wrap "" .ErrInvalidInput ": client ID is required")
  else
    none

/-- `generateLicenseKey`, at the clock reading `t` of its `time.Now()`. -/
def generateLicenseKey (lib : Lib) (license : License) (t : Time) : String × Option GoError :=
  let unique :=
    lib.uuidString license.ApplicationID ++ "-" ++ lib.uuidString license.ClientID ++ "-" ++
      lib.uuidString license.LicenseTypeID ++ "-" ++ toString t.UnixNano
  ((lib.sha256Hex unique).take 32, none)

/-- The string `generateLicenseKey` hashes (its variable `unique`), at the clock reading
`t`. -/
def unique (lib : Lib) (license : License) (t : Time) : String :=
  lib.uuidString license.ApplicationID ++ "-" ++ lib.uuidString license.ClientID ++ "-" ++
    lib.uuidString license.LicenseTypeID ++ "-" ++ toString t.UnixNano

/-- `licenseService.Create`. -/
def Create (lib : Lib) (w : World) (license : License) : Except GoError License × World :=
  match validateLicense license with
  | some err => (.error err, w)
  | none =>
    match licenseTypeRepo.GetByID w license.LicenseTypeID with
    | (.error err, w1) => (.error (.wrap "failed to get license type: " err ""), w1)
    | (.ok licenseType, w1) =>
      let (start, w2) := w1.timeNow
      let license := { license with
        StartDate := start, ExpiryDate := start.AddDate licenseType.DurationDays }
      let (t, w3) := w2.timeNow
      match generateLicenseKey lib license t with
      | (_, some err) => (.error (.wrap "failed to generate license key: " err ""), w3)
      | (licenseKey, none) =>
        let license := { license with LicenseKey := licenseKey }
        let license :=
          if license.UsageLimits = none then
            { license with UsageLimits := licenseType.Features }
          else license
        let license := { license with CurrentUsage := GoMap.make }
        licenseRepo.Create w3 license

/-- `licenseService.GetByID`. -/
def GetByID (w : World) (id : UUID) : Except GoError License × World :=
  match licenseRepo.GetByID w id with
  | (.error err, w1) =>
    if err = .RepoErrNotFound then (.error .ErrNotFound, w1) else (.error err, w1)
  | (.ok license, w1) => (.ok license, w1)

/-- `licenseService.Update`. -/
def Update (w : World) (license : License) : Except GoError License × World :=
  match validateLicense license with
  | some err => (.error err, w)
  | none =>
    match licenseRepo.GetByID w license.ID with
    | (.error err, w1) =>
      if err = .RepoErrNotFound then (.error .ErrNotFound, w1) else (.error err, w1)
    | (.ok existing, w1) =>
      let license := { license with
        LicenseKey := existing.LicenseKey
        StartDate := existing.StartDate
        ExpiryDate := existing.ExpiryDate
        CurrentUsage := existing.CurrentUsage }
      licenseRepo.Update w1 license

/-- `licenseService.RecordActivity`. -/
def RecordActivity (w : World) (activity : LicenseActivity) : Option GoError × World :=
  if activity.CreatedAt.IsZero then
    let (t, w1) := w.timeNow
    licenseRepo.CreateActivity w1 { activity with CreatedAt := t }
  else
    licenseRepo.CreateActivity w activity

/-- `licenseService.Revoke`. -/
def Revoke (w : World) (id : UUID) (reason : String) : Option GoError × World :=
  match licenseRepo.GetByID w id with
  | (.error err, w1) =>
    if err = .RepoErrNotFound then (some .ErrNotFound, w1) else (some err, w1)
  | (.ok license, w1) =>
    let license := { license with
      IsRevoked := true
      RevocationReason := some reason
      IsActive := false }
    match licenseRepo.Update w1 license with
    | (.error err, w2) => (some err, w2)
    | (.ok _, w2) =>
      let activity : LicenseActivity :=
        { ID := uuid.Nil
          LicenseID := id
          ActivityType := "revocation"
          Description := "License revoked: " ++ reason
          Metadata := some [("reason", .str reason)]
          IPAddress := ""
          UserAgent := ""
          CreatedAt := Time.zero }
      RecordActivity w2 activity

/-- `licenseService.Validate`: the returned `*ValidationResult` (`none` is nil) and error. -/
def Validate (w : World) (licenseKey : String) :
    (Option ValidationResult × Option GoError) × World :=
  match licenseRepo.GetByKey w licenseKey with
  | (.error err, w1) =>
    if err = .RepoErrNotFound then ((none, some .ErrLicenseInvalid), w1)
    else ((none, some err), w1)
  | (.ok license, w1) =>
    let result : ValidationResult :=
      { Valid := true, Message := "", ExpiresAt := license.ExpiryDate, Features := GoMap.make }
    if license.IsRevoked then
      ((some { result with Valid := false, Message := "License has been revoked" },
        some .ErrLicenseRevoked), w1)
    else
      let (t, w2) := w1.timeNow
      if t.After license.ExpiryDate then
        ((some { result with Valid := false, Message := "License has expired" },
          some .ErrLicenseExpired), w2)
      else if !license.IsActive then
        ((some { result with Valid := false, Message := "License is not active" },
          some .ErrLicenseInvalid), w2)
      else
        match licenseTypeRepo.GetByID w2 license.LicenseTypeID with
        | (.error err, w3) =>
          ((none, some (.wrap "failed to get license type: " err "")), w3)
        | (.ok licenseType, w3) =>
          let result := { result with Features := licenseType.Features }
          let (now, w4) := w3.timeNow
          let license := { license with LastCheck := some now }
          let w5 := (licenseRepo.Update w4 license).2
          let activity : LicenseActivity :=
            { ID := uuid.Nil
              LicenseID := license.ID
              ActivityType := "validation"
              Description := "License validated successfully"
              Metadata := none
              IPAddress := ""
              UserAgent := ""
              CreatedAt := Time.zero }
          let w6 := (RecordActivity w5 activity).2
          ((some result, none), w6)

/-- `licenseService.GetByKey`. -/
def GetByKey (w : World) (licenseKey : String) : Except GoError License × World :=
  match licenseRepo.GetByKey w licenseKey with
  | (.error err, w1) =>
    if err = .RepoErrNotFound then (.error .ErrNotFound, w1) else (.error err, w1)
  | (.ok license, w1) => (.ok license, w1)

/-- The error of `CheckUsage` for a submitted value that is not a `float64`. -/
def invalidUsageValue (metric : String) : GoError :=
  .wrap "" .ErrInvalidInput (": invalid usage value type for metric " ++ metric)

/-- The error of `CheckUsage` for a limit that is not a `float64`. -/
def invalidLimitValue (metric : String) : GoError :=
  .wrap "" .ErrInvalidInput (": invalid limit value type for metric " ++ metric)

/-- The error of `CheckUsage` for a metric over its limit. -/
def usageLimitExceeded (metric : String) : GoError :=
  .wrap "" .ErrLicenseUsageLimitExceeded (": " ++ metric ++ " exceeds allowed limit")

/-- The loop of `licenseService.CheckUsage` over the submitted metrics, in the order the
iteration visits them; `cur` is `license.CurrentUsage`. -/
def usageLoop (limits : GoMap) (cur : GoMap) : List (String × Value) → LoopResult
  | [] => .done cur
  | (metric, value) :: rest =>
    match limits.get metric with
    | none => usageLoop limits cur rest
    | some limit =>
      match value.asFloat64 with
      | none => .failed (invalidUsageValue metric)
      | some currentValue =>
        match limit.asFloat64 with
        | none => .failed (invalidLimitValue metric)
        | some limitValue =>
          if currentValue.gt limitValue then
            .failed (usageLimitExceeded metric)
          else
            match cur with
            | none => .panicked
            | some es => usageLoop limits (some (es.set metric (.num currentValue))) rest

/-- `licenseService.CheckUsage`; `usage` lists the submitted map in iteration order. -/
def CheckUsage (w : World) (licenseKey : String) (usage : List (String × Value)) :
    Outcome × World :=
  match GetByKey w licenseKey with
  | (.error err, w1) => (.returned (some err), w1)
  | (.ok license, w1) =>
    match Validate w1 licenseKey with
    | ((_, some err), w2) => (.returned (some err), w2)
    | ((_, none), w2) =>
      match usageLoop license.UsageLimits license.CurrentUsage usage with
      | .failed err => (.returned (some err), w2)
      | .panicked => (.panicked, w2)
      | .done cur =>
        match licenseRepo.Update w2 { license with CurrentUsage := cur } with
        | (.error err, w3) => (.returned (some err), w3)
        | (.ok _, w3) => (.returned none, w3)

end service

/-! ## Notions used to state the properties -/

/-- The world after a read of the license table by key. -/
def afterRead (w : World) : World := { w with getByKeyFaults := w.getByKeyFaults.tail }

/-- The store holds `lic` under `key`, and reads of the license table by key do not fail. -/
def Stored (w : World) (key : String) (lic : License) : Prop :=
  noFault w.getByKeyFaults ∧ findByKey w.licenses key = some lic

instance (w : World) (key : String) (lic : License) : Decidable (Stored w key lic) := by
  unfold Stored
  infer_instance

/-- The invariant of the data model: a revoked license is inactive. -/
def RevokedInactive (l : License) : Prop := l.IsRevoked = true → l.IsActive = false

instance (l : License) : Decidable (RevokedInactive l) := by
  unfold RevokedInactive
  infer_instance

/-! ## A small store, for concrete runs -/

/-- A license type of thirty days with ten seats. -/
def sampleType : LicenseType :=
  { ID := 7, ApplicationID := 1, Name := "pro", Description := "", DurationDays := 30,
    Price := .fin 0, IsActive := true, Features := some [("seats", .num (.fin 10))] }

/-- An active license of `sampleType`, limited in seats and in API calls. -/
def sampleLicense : License :=
  { ID := 3, ApplicationID := 1, LicenseTypeID := 7, ClientID := 2, LicenseKey := "k1",
    StartDate := 1000, ExpiryDate := 2000,
    UsageLimits := some [("seats", .num (.fin 10)), ("api_calls", .num (.fin 100))],
    CurrentUsage := some [], IsActive := true, IsRevoked := false,
    RevocationReason := none, LastCheck := none }

/-- A store holding `sampleLicense` and its type, read at time 1500, with no pending fault. -/
def sampleWorld : World :=
  { licenses := [sampleLicense], licenseTypes := [sampleType], activities := [],
    now := 1500, later := [], getByIDFaults := [], getByKeyFaults := [], typeFaults := [],
    createFaults := [], updateFaults := [], activityFaults := [] }

/-! ## The library functions of the key generator, written out -/

namespace sha256

/-- A number cut to a word of 32 bits. -/
def w32 (x : Nat) : Nat := x % 4294967296

/-- The first 64 prime numbers. -/
def primes : List Nat :=
  [2, 3, 5, 7, 11, 13, 17, 19, 23, 29, 31, 37, 41, 43, 47, 53, 59, 61, 67, 71, 73, 79, 83,
   89, 97, 101, 103, 107, 109, 113, 127, 131, 137, 139, 149, 151, 157, 163, 167, 173, 179,
   181, 191, 193, 197, 199, 211, 223, 227, 229, 233, 239, 241, 251, 257, 263, 269, 271, 277,
   281, 283, 293, 307, 311]

/-- The integer `k`-th root of `n` by a search over the bits below `2 ^ b`, from the highest
down: the largest `r + x` with `x < 2 ^ b` whose `k`-th power is at most `n`. -/
def rootBits (k n : Nat) : Nat → Nat → Nat
  | 0, r => r
  | b + 1, r => if (r + 2 ^ b) ^ k ≤ n then rootBits k n b (r + 2 ^ b) else rootBits k n b r

/-- The first 32 bits of the fractional part of the `k`-th root of `p`, for `p < 16 ^ k`:
the low word of the integer `k`-th root of `p * 2 ^ (32 * k)`, which is below `2 ^ 36`. -/
def fracRoot (k p : Nat) : Nat := w32 (rootBits k (p * 2 ^ (32 * k)) 36 0)

/-- The round constants of SHA-256 (FIPS 180-4, 4.2.2): the first 32 bits of the fractional
parts of the cube roots of the first 64 primes. -/
def K : List Nat := primes.map (fracRoot 3)

/-- Rotation of a word of 32 bits to the right. -/
def rotr (x n : Nat) : Nat := w32 ((x >>> n) ||| (x <<< (32 - n)))

/-- The eight words of the hash value. -/
structure State where
  a : Nat
  b : Nat
  c : Nat
  d : Nat
  e : Nat
  f : Nat
  g : Nat
  h : Nat
  deriving DecidableEq, Repr

/-- The initial hash value (FIPS 180-4, 5.3.3): the first 32 bits of the fractional parts
of the square roots of the first 8 primes. -/
def init : State :=
  { a := fracRoot 2 2, b := fracRoot 2 3, c := fracRoot 2 5, d := fracRoot 2 7,
    e := fracRoot 2 11, f := fracRoot 2 13, g := fracRoot 2 17, h := fracRoot 2 19 }

/-- The padded message: the byte `0x80`, zero bytes, and the length in bits on eight bytes. -/
def pad (msg : List Nat) : List Nat :=
  let bits := 8 * msg.length
  msg ++ [0x80] ++ List.replicate ((64 - (msg.length + 9) % 64) % 64) 0 ++
    (List.range 8).map (fun i => (bits >>> (8 * (7 - i))) % 256)

/-- The big-endian words of a list of bytes. -/
def toWords : List Nat → List Nat
  | b0 :: b1 :: b2 :: b3 :: rest =>
    (b0 * 16777216 + b1 * 65536 + b2 * 256 + b3) :: toWords rest
  | _ => []

/-- The message schedule of a block of sixteen words. -/
def schedule (block : List Nat) : List Nat :=
  (List.range 48).foldl
    (fun w i =>
      let t := i + 16
      let w15 := w.getD (t - 15) 0
      let w2 := w.getD (t - 2) 0
      let s0 := rotr w15 7 ^^^ rotr w15 18 ^^^ (w15 >>> 3)
      let s1 := rotr w2 17 ^^^ rotr w2 19 ^^^ (w2 >>> 10)
      w ++ [w32 (w.getD (t - 16) 0 + s0 + w.getD (t - 7) 0 + s1)])
    block

/-- One round of the compression function, on a round constant and a schedule word. -/
def round (s : State) (kw : Nat × Nat) : State :=
  let s1 := rotr s.e 6 ^^^ rotr s.e 11 ^^^ rotr s.e 25
  let ch := (s.e &&& s.f) ^^^ ((4294967295 - s.e) &&& s.g)
  let t1 := w32 (s.h + s1 + ch + kw.1 + kw.2)
  let s0 := rotr s.a 2 ^^^ rotr s.a 13 ^^^ rotr s.a 22
  let maj := (s.a &&& s.b) ^^^ (s.a &&& s.c) ^^^ (s.b &&& s.c)
  let t2 := w32 (s0 + maj)
  { a := w32 (t1 + t2), b := s.a, c := s.b, d := s.c,
    e := w32 (s.d + t1), f := s.e, g := s.f, h := s.g }

/-- The compression of one block into the hash value. -/
def compress (s : State) (block : List Nat) : State :=
  let r := (K.zip (schedule block)).foldl round s
  { a := w32 (s.a + r.a), b := w32 (s.b + r.b), c := w32 (s.c + r.c), d := w32 (s.d + r.d),
    e := w32 (s.e + r.e), f := w32 (s.f + r.f), g := w32 (s.g + r.g), h := w32 (s.h + r.h) }

/-- The blocks of sixteen words of a list of words. -/
def blocks (ws : List Nat) : List (List Nat) :=
  (List.range (ws.length / 16)).map (fun i => (ws.drop (16 * i)).take 16)

/-- The hash value of a message of bytes. -/
def digest (msg : List Nat) : State :=
  (blocks (toWords (pad msg))).foldl compress init

/-- The lowercase hexadecimal digit of the four low bits of a number. -/
def hexDigit (n : Nat) : Char :=
  if n % 16 < 10 then Char.ofNat (48 + n % 16) else Char.ofNat (87 + n % 16)

/-- The eight hexadecimal digits of a word of 32 bits. -/
def hexWord (x : Nat) : List Char :=
  [hexDigit (x >>> 28), hexDigit (x >>> 24), hexDigit (x >>> 20), hexDigit (x >>> 16),
   hexDigit (x >>> 12), hexDigit (x >>> 8), hexDigit (x >>> 4), hexDigit x]

/-- Go `hex.EncodeToString` of the 32 bytes of a hash value. -/
def hex (s : State) : String :=
  String.mk (hexWord s.a ++ hexWord s.b ++ hexWord s.c ++ hexWord s.d ++
    hexWord s.e ++ hexWord s.f ++ hexWord s.g ++ hexWord s.h)

/-- The bytes of a Go string (UTF-8). -/
def bytes (s : String) : List Nat :=
  (s.data.flatMap String.utf8EncodeChar).map UInt8.toNat

/-- The hexadecimal SHA-256 digest of a string. -/
def sum (s : String) : String := hex (digest (bytes s))

end sha256

namespace uuid

/-- Go `uuid.UUID.String`: the 32 hexadecimal digits of the 16 bytes, in groups of 8, 4, 4,
4 and 12 digits. -/
def String (u : UUID) : String :=
  let d := (List.range 32).map (fun i => sha256.hexDigit (u >>> (4 * (31 - i))))
  String.mk (d.take 8 ++ ['-'] ++ (d.drop 8).take 4 ++ ['-'] ++ (d.drop 12).take 4 ++ ['-'] ++
    (d.drop 16).take 4 ++ ['-'] ++ d.drop 20)

end uuid

/-- The library functions of Go. -/
def goLib : Lib := { sha256Hex := sha256.sum, uuidString := uuid.String }

/-- A lowercase hexadecimal digit. -/
def isLowerHex (c : Char) : Bool :=
  ('0' ≤ c && c ≤ '9') || ('a' ≤ c && c ≤ 'f')

/-- What the key generator expects of the digest function: 64 lowercase hexadecimal digits. -/
def HexDigest (sha256Hex : String → String) : Prop :=
  ∀ s, (sha256Hex s).length = 64 ∧ ∀ c ∈ (sha256Hex s).data, isLowerHex c = true

/-! ## The steps of `Create` -/

/-- The second reading of the clock. -/
def secondReading (w : World) : Time := w.timeNow.2.now

/-- The record `licenseService.Create` hands to the repository once it has fetched the
license type `lt`: its dates come from the first reading of the clock, its key is generated
at the second. -/
def createdRecord (lib : Lib) (w : World) (input : License) (lt : LicenseType) : License :=
  let dated : License := { input with
    StartDate := w.now, ExpiryDate := Time.AddDate w.now lt.DurationDays }
  { dated with
    LicenseKey := (service.generateLicenseKey lib dated (secondReading w)).1
    UsageLimits := if input.UsageLimits = none then lt.Features else input.UsageLimits
    CurrentUsage := GoMap.make }

/-- The world in which `licenseService.Create` calls the repository: the license type has
been fetched and the clock has been read twice. -/
def beforeInsert (w : World) : World :=
  ({ w with typeFaults := w.typeFaults.tail } : World).timeNow.2.timeNow.2

/-- The input of `Create(A, T, C)`: the three references, every other field at its zero
value. -/
def triadInput (application licenseType client : UUID) : License :=
  { ID := uuid.Nil, ApplicationID := application, LicenseTypeID := licenseType,
    ClientID := client, LicenseKey := "", StartDate := Time.zero, ExpiryDate := Time.zero,
    UsageLimits := none, CurrentUsage := none, IsActive := false, IsRevoked := false,
    RevocationReason := none, LastCheck := none }

/-- A store with `sampleType` and no license, whose clock reads 1500 and then 1600, 1700. -/
def emptyWorld : World :=
  { sampleWorld with licenses := [], later := [1600, 1700] }

/-- The license `Create` returns in `emptyWorld` for the triad (1, 7, 2). -/
def createdSample : License :=
  { ID := 1, ApplicationID := 1, LicenseTypeID := 7, ClientID := 2,
    LicenseKey := "1421910d9e4dcd8f48a6f59135d92c28", StartDate := 1500,
    ExpiryDate := 2592000000001500, UsageLimits := some [("seats", .num (.fin 10))],
    CurrentUsage := some [], IsActive := true, IsRevoked := false,
    RevocationReason := none, LastCheck := none }

/-- A store that already holds a license under the key `Create` generates for the triad
(1, 7, 2) at the reading 1600; inserts do not fail otherwise. -/
def collidingWorld : World :=
  { emptyWorld with
    licenses := [{ sampleLicense with LicenseKey := "1421910d9e4dcd8f48a6f59135d92c28" }]
    createFaults := [false, false] }

/-! ## Sequences of operations -/

/-- A call of an operation of the engine, with its arguments. -/
inductive Op where
  | create (input : License)
  | update (input : License)
  | revoke (id : UUID) (reason : String)
  | validate (licenseKey : String)
  | checkUsage (licenseKey : String) (usage : List (String × Value))

namespace Op

/-- The world a call leaves. -/
def step (lib : Lib) (w : World) : Op → World
  | create input => (service.Create lib w input).2
  | update input => (service.Update w input).2
  | revoke id reason => (service.Revoke w id reason).2
  | validate licenseKey => (service.Validate w licenseKey).2
  | checkUsage licenseKey usage => (service.CheckUsage w licenseKey usage).2

/-- The call is not an `Update` that hands in a record of the license `id` flagged as not
revoked. -/
def keepsRevoked (id : UUID) : Op → Prop
  | update input => input.ID = id → input.IsRevoked = true
  | _ => True

end Op

/-- The world a sequence of calls leaves, each call running in the world the one before it
left. -/
def run (lib : Lib) (w : World) (ops : List Op) : World := ops.foldl (Op.step lib) w

/-- The identifiers of the license table are pairwise different (`primary_key`). -/
def UniqueIDs (ls : List License) : Prop := (ls.map (fun l => l.ID)).Nodup

instance (ls : List License) : Decidable (UniqueIDs ls) := by
  unfold UniqueIDs
  infer_instance

/-- The license table holds a license under `id`, and that license is revoked. -/
def RevokedAt (ls : List License) (id : UUID) : Prop :=
  ∃ l, findByID ls id = some l ∧ l.IsRevoked = true

instance (ls : List License) (id : UUID) : Decidable (RevokedAt ls id) :=
  match h : findByID ls id with
  | none => isFalse (by unfold RevokedAt; simp [h])
  | some l =>
    if hr : l.IsRevoked = true then isTrue ⟨l, h, hr⟩
    else isFalse (by unfold RevokedAt; simp [h, hr])

/-- A store holding `sampleLicense` revoked for fraud. -/
def revokedWorld : World :=
  { sampleWorld with
    licenses := [{ sampleLicense with IsRevoked := true, IsActive := false,
                                      RevocationReason := some "fraud" }] }

/-- Every key of the map `cur` is a key of the map `limits`. -/
def KeysSubset (cur limits : GoMap) : Prop :=
  ∀ k, cur.get k ≠ none → limits.get k ≠ none

/-! ## The client service (`internal/service/client_service.go`) -/

/-- The record `models.Client`. -/
structure Client where
  ID : UUID
  ApplicationID : UUID
  Name : String
  Email : String
  Company : String
  ContactPerson : String
  Phone : String
  Metadata : GoMap
  IsActive : Bool
  deriving DecidableEq, Repr

/-- The tables the deletion of a client works on, and the pending faults of the three
repository methods it calls. -/
structure ClientWorld where
  clients : List Client
  licenses : List License
  hasActiveFaults : List Bool
  getFaults : List Bool
  updateFaults : List Bool
  deriving DecidableEq, Repr

/-- The row of the client table of the given application and identifier (`First` on
`application_id = ? AND id = ?`). -/
def findClient (cs : List Client) (applicationID id : UUID) : Option Client :=
  cs.find? (fun c => c.ApplicationID == applicationID && c.ID == id)

/-- The client table after `Save` of `client`: the row with its identifier is replaced;
when there is none the record is inserted. -/
def savedClient (cs : List Client) (client : Client) : List Client :=
  if cs.any (fun c => c.ID == client.ID) then
    cs.map (fun c => if c.ID == client.ID then client else c)
  else
    cs ++ [client]

/-- The licenses that the query of `HasActiveClientLicenses` counts: those of the
application and the client that are flagged active and not revoked. -/
def activeClientLicenses (ls : List License) (applicationID clientID : UUID) : List License :=
  ls.filter (fun l => l.ApplicationID == applicationID && l.ClientID == clientID &&
    l.IsActive == true && l.IsRevoked == false)

namespace licenseRepo

/-- `licenseRepo.HasActiveClientLicenses`. -/
def HasActiveClientLicenses (w : ClientWorld) (applicationID clientID : UUID) :
    Except GoError Bool × ClientWorld :=
  let w1 := { w with hasActiveFaults := w.hasActiveFaults.tail }
  if w.hasActiveFaults.headD false then
    (.error (.wrap "failed to check active licenses: " .driver ""), w1)
  else
    let count := (activeClientLicenses w.licenses applicationID clientID).length
    (.ok (decide (count > 0)), w1)

end licenseRepo

namespace clientRepo

/-- `clientRepo.GetByID`. -/
def GetByID (w : ClientWorld) (applicationID id : UUID) : Except GoError Client × ClientWorld :=
  let w1 := { w with getFaults := w.getFaults.tail }
  if w.getFaults.headD false then
    (.error (.wrap "failed to get client: " .driver ""), w1)
  else
    match findClient w.clients applicationID id with
    | none => (.error .RepoErrNotFound, w1)
    | some c => (.ok c, w1)

/-- `clientRepo.Update` (`Save`). -/
def Update (w : ClientWorld) (client : Client) : Except GoError Client × ClientWorld :=
  let w1 := { w with updateFaults := w.updateFaults.tail }
  if w.updateFaults.headD false then
    (.error (.wrap "failed to update client: " .driver ""), w1)
  else
    (.ok client, { w1 with clients := savedClient w.clients client })

end clientRepo

namespace clientService

/-- `clientService.Delete`. -/
def Delete (w : ClientWorld) (applicationID id : UUID) : Option GoError × ClientWorld :=
  match licenseRepo.HasActiveClientLicenses w applicationID id with
  | (.error err, w1) => (some err, w1)
  | (.ok hasActiveLicenses, w1) =>
    if hasActiveLicenses then (some .ErrClientHasActiveLicenses, w1)
    else
      match clientRepo.GetByID w1 applicationID id with
      | (.error err, w2) =>
        if err = .RepoErrNotFound then (some .ErrNotFound, w2) else (some err, w2)
      | (.ok client, w2) =>
        let client := { client with IsActive := false }
        match clientRepo.Update w2 client with
        | (.error err, w3) => (some err, w3)
        | (.ok _, w3) => (none, w3)

end clientService

/-- A client of application 1. -/
def sampleClient : Client :=
  { ID := 2, ApplicationID := 1, Name := "Acme", Email := "ops@acme.example",
    Company := "Acme", ContactPerson := "", Phone := "", Metadata := some [],
    IsActive := true }

/-- A store holding `sampleClient`, another client and the license `sampleLicense` of
`sampleClient`, with no pending fault. -/
def clientWorld : ClientWorld :=
  { clients := [{ sampleClient with ID := 5, Name := "Other" }, sampleClient],
    licenses := [sampleLicense],
    hasActiveFaults := [], getFaults := [], updateFaults := [] }

namespace World

@[simp] theorem timeNow_fst (w : World) : w.timeNow.1 = w.now := by
  unfold timeNow; split <;> rfl

@[simp] theorem timeNow_licenses (w : World) : w.timeNow.2.licenses = w.licenses := by
  unfold timeNow; split <;> rfl

@[simp] theorem timeNow_licenseTypes (w : World) :
    w.timeNow.2.licenseTypes = w.licenseTypes := by
  unfold timeNow; split <;> rfl

@[simp] theorem timeNow_activities (w : World) : w.timeNow.2.activities = w.activities := by
  unfold timeNow; split <;> rfl

@[simp] theorem timeNow_getByIDFaults (w : World) :
    w.timeNow.2.getByIDFaults = w.getByIDFaults := by
  unfold timeNow; split <;> rfl

@[simp] theorem timeNow_getByKeyFaults (w : World) :
    w.timeNow.2.getByKeyFaults = w.getByKeyFaults := by
  unfold timeNow; split <;> rfl

@[simp] theorem timeNow_typeFaults (w : World) : w.timeNow.2.typeFaults = w.typeFaults := by
  unfold timeNow; split <;> rfl

@[simp] theorem timeNow_createFaults (w : World) :
    w.timeNow.2.createFaults = w.createFaults := by
  unfold timeNow; split <;> rfl

@[simp] theorem timeNow_updateFaults (w : World) :
    w.timeNow.2.updateFaults = w.updateFaults := by
  unfold timeNow; split <;> rfl

@[simp] theorem timeNow_activityFaults (w : World) :
    w.timeNow.2.activityFaults = w.activityFaults := by
  unfold timeNow; split <;> rfl

end World

@[simp] theorem afterRead_licenses (w : World) : (afterRead w).licenses = w.licenses := rfl

@[simp] theorem afterRead_activities (w : World) : (afterRead w).activities = w.activities := rfl

@[simp] theorem afterRead_licenseTypes (w : World) :
    (afterRead w).licenseTypes = w.licenseTypes := rfl

@[simp] theorem afterRead_now (w : World) : (afterRead w).now = w.now := rfl

@[simp] theorem afterRead_typeFaults (w : World) : (afterRead w).typeFaults = w.typeFaults := rfl

@[simp] theorem afterRead_updateFaults (w : World) :
    (afterRead w).updateFaults = w.updateFaults := rfl

@[simp] theorem afterRead_getByKeyFaults (w : World) :
    (afterRead w).getByKeyFaults = w.getByKeyFaults.tail := rfl

theorem noFault_head (fs : List Bool) (h : noFault fs) : fs.headD false = false := by
  cases fs with
  | nil => rfl
  | cons b t => exact h b (List.mem_cons_self _ _)

theorem noFault_tail (fs : List Bool) (h : noFault fs) : noFault fs.tail := by
  cases fs with
  | nil => exact h
  | cons b t => exact fun x hx => h x (List.mem_cons_of_mem _ hx)

theorem GetByKey_ok_iff (w : World) (key : String) (lic : License) :
    (licenseRepo.GetByKey w key).1 = .ok lic ↔
      w.getByKeyFaults.headD false = false ∧ findByKey w.licenses key = some lic := by
  unfold licenseRepo.GetByKey
  cases hf : w.getByKeyFaults.headD false <;> cases hk : findByKey w.licenses key <;> simp

theorem GetByKey_eq_of_ok (w : World) (key : String) (lic : License)
    (h : (licenseRepo.GetByKey w key).1 = .ok lic) :
    licenseRepo.GetByKey w key = (.ok lic, afterRead w) := by
  obtain ⟨hf, hk⟩ := (GetByKey_ok_iff w key lic).1 h
  have hf2 : w.getByKeyFaults.head?.getD false = false := by simpa using hf
  simp [licenseRepo.GetByKey, hf2, hk, afterRead]

theorem GetByID_ok_iff (w : World) (id : UUID) (lic : License) :
    (licenseRepo.GetByID w id).1 = .ok lic ↔
      w.getByIDFaults.headD false = false ∧ findByID w.licenses id = some lic := by
  unfold licenseRepo.GetByID
  cases hf : w.getByIDFaults.headD false <;> cases hk : findByID w.licenses id <;> simp

theorem TypeGetByID_ok_iff (w : World) (id : UUID) (lt : LicenseType) :
    (licenseTypeRepo.GetByID w id).1 = .ok lt ↔
      w.typeFaults.headD false = false ∧ findType w.licenseTypes id = some lt := by
  unfold licenseTypeRepo.GetByID
  cases hf : w.typeFaults.headD false <;> cases hk : findType w.licenseTypes id <;> simp

theorem findByID_id (ls : List License) (id : UUID) (lic : License)
    (h : findByID ls id = some lic) : lic.ID = id := by
  simpa using List.find?_some h

theorem findByKey_key (ls : List License) (key : String) (lic : License)
    (h : findByKey ls key = some lic) : lic.LicenseKey = key := by
  simpa using List.find?_some h

theorem Update_eq (w : World) (lic : License) :
    licenseRepo.Update w lic =
      if w.updateFaults.headD false then
        (.error (.wrap "failed to update license: " .driver ""),
          { w with updateFaults := w.updateFaults.tail })
      else
        (.ok lic,
          { w with updateFaults := w.updateFaults.tail, licenses := saved w.licenses lic }) := by
  unfold licenseRepo.Update
  split <;> rfl

namespace licenseRepo

@[simp] theorem Update_licenses (w : World) (lic : License) :
    (Update w lic).2.licenses =
      if w.updateFaults.headD false then w.licenses else saved w.licenses lic := by
  rw [Update_eq]; split <;> rfl

@[simp] theorem Update_updateFaults (w : World) (lic : License) :
    (Update w lic).2.updateFaults = w.updateFaults.tail := by
  rw [Update_eq]; split <;> rfl

@[simp] theorem Update_activities (w : World) (lic : License) :
    (Update w lic).2.activities = w.activities := by
  rw [Update_eq]; split <;> rfl

@[simp] theorem Update_licenseTypes (w : World) (lic : License) :
    (Update w lic).2.licenseTypes = w.licenseTypes := by
  rw [Update_eq]; split <;> rfl

@[simp] theorem Update_getByKeyFaults (w : World) (lic : License) :
    (Update w lic).2.getByKeyFaults = w.getByKeyFaults := by
  rw [Update_eq]; split <;> rfl

@[simp] theorem Update_activityFaults (w : World) (lic : License) :
    (Update w lic).2.activityFaults = w.activityFaults := by
  rw [Update_eq]; split <;> rfl

@[simp] theorem Update_now (w : World) (lic : License) : (Update w lic).2.now = w.now := by
  rw [Update_eq]; split <;> rfl

@[simp] theorem Update_later (w : World) (lic : License) :
    (Update w lic).2.later = w.later := by
  rw [Update_eq]; split <;> rfl

@[simp] theorem CreateActivity_licenses (w : World) (a : LicenseActivity) :
    (CreateActivity w a).2.licenses = w.licenses := by
  unfold CreateActivity; dsimp only; split_ifs <;> rfl

@[simp] theorem CreateActivity_licenseTypes (w : World) (a : LicenseActivity) :
    (CreateActivity w a).2.licenseTypes = w.licenseTypes := by
  unfold CreateActivity; dsimp only; split_ifs <;> rfl

@[simp] theorem CreateActivity_updateFaults (w : World) (a : LicenseActivity) :
    (CreateActivity w a).2.updateFaults = w.updateFaults := by
  unfold CreateActivity; dsimp only; split_ifs <;> rfl

@[simp] theorem CreateActivity_getByKeyFaults (w : World) (a : LicenseActivity) :
    (CreateActivity w a).2.getByKeyFaults = w.getByKeyFaults := by
  unfold CreateActivity; dsimp only; split_ifs <;> rfl

end licenseRepo

namespace service

@[simp] theorem RecordActivity_licenses (w : World) (a : LicenseActivity) :
    (RecordActivity w a).2.licenses = w.licenses := by
  unfold RecordActivity; split <;> simp

@[simp] theorem RecordActivity_licenseTypes (w : World) (a : LicenseActivity) :
    (RecordActivity w a).2.licenseTypes = w.licenseTypes := by
  unfold RecordActivity; split <;> simp

@[simp] theorem RecordActivity_updateFaults (w : World) (a : LicenseActivity) :
    (RecordActivity w a).2.updateFaults = w.updateFaults := by
  unfold RecordActivity; split <;> simp

@[simp] theorem RecordActivity_getByKeyFaults (w : World) (a : LicenseActivity) :
    (RecordActivity w a).2.getByKeyFaults = w.getByKeyFaults := by
  unfold RecordActivity; split <;> simp

end service

/-! ## The license table after `Save` -/

theorem mem_saved (ls : List License) (lic l : License) (h : l ∈ saved ls lic) :
    l ∈ ls ∨ l = lic := by
  unfold saved at h
  split at h
  · rw [List.mem_map] at h
    obtain ⟨a, ha, hl⟩ := h
    split at hl
    · exact Or.inr hl.symm
    · exact Or.inl (hl ▸ ha)
  · rw [List.mem_append] at h
    rcases h with h | h
    · exact Or.inl h
    · exact Or.inr (by simpa using h)

theorem find?_map_replace (p q : License → Bool) (r : License) (hr : p r = true) :
    ∀ (ls : List License) (x : License), ls.find? p = some x → q x = true →
      (ls.map (fun l => if q l then r else l)).find? p = some r
  | [], x, h, _ => by simp at h
  | a :: t, x, h, hq => by
    rw [List.map_cons, List.find?_cons]
    cases hqa : q a
    · have hpa : p a = false := by
        cases hpa : p a
        · rfl
        · rw [List.find?_cons, hpa] at h
          have : a = x := by simpa using h
          rw [this, hq] at hqa
          exact absurd hqa (by simp)
      rw [List.find?_cons, hpa] at h
      simp only [Bool.false_eq_true, if_false, hpa]
      exact find?_map_replace p q r hr t x h hq
    · simp only [if_true, hr]

theorem findByID_saved (ls : List License) (lic : License) :
    findByID (saved ls lic) lic.ID = some lic := by
  unfold saved findByID
  split
  · rename_i hany
    obtain ⟨x, hx, hx2⟩ := List.any_eq_true.1 hany
    cases hfind : ls.find? (fun l => l.ID == lic.ID) with
    | none =>
      rw [List.find?_eq_none] at hfind
      exact absurd hx2 (hfind x hx)
    | some y =>
      have hy : (y.ID == lic.ID) = true := by
        simpa using List.find?_some hfind
      exact find?_map_replace (fun l => l.ID == lic.ID) (fun l => l.ID == lic.ID) lic
        (by simp) ls y hfind hy
  · rename_i hany
    rw [List.find?_append]
    have : ls.find? (fun l => l.ID == lic.ID) = none := by
      rw [List.find?_eq_none]
      intro x hx hx2
      exact hany (List.any_eq_true.2 ⟨x, hx, hx2⟩)
    simp [this]

theorem findByKey_saved (ls : List License) (key : String) (lic lic2 : License)
    (h : findByKey ls key = some lic) (hid : lic2.ID = lic.ID) (hkey : lic2.LicenseKey = key) :
    findByKey (saved ls lic2) key = some lic2 := by
  unfold findByKey at h
  have hmem : lic ∈ ls := List.mem_of_find?_eq_some h
  have hany : ls.any (fun l => l.ID == lic2.ID) = true :=
    List.any_eq_true.2 ⟨lic, hmem, by simp [hid]⟩
  unfold saved findByKey
  rw [if_pos hany]
  exact find?_map_replace (fun l => l.LicenseKey == key) (fun l => l.ID == lic2.ID) lic2
    (by simp [hkey]) ls lic h (by simp [hid])

theorem repoCreate_written (w : World) (lic l : License)
    (h : l ∈ (licenseRepo.Create w lic).2.licenses) :
    l ∈ w.licenses ∨
      l = licenseRepo.tableRow (licenseRepo.withDefaults w.licenses lic) := by
  unfold licenseRepo.Create at h
  dsimp only at h
  split_ifs at h
  all_goals first
    | exact Or.inl h
    | (simp only [List.mem_append, List.mem_singleton] at h
       exact h)

/-! ## `Validate`, branch by branch -/

theorem Validate_revoked (w : World) (key : String) (lic : License)
    (hf : w.getByKeyFaults.headD false = false) (hk : findByKey w.licenses key = some lic)
    (hr : lic.IsRevoked = true) :
    (service.Validate w key).1 =
      (some { Valid := false, Message := "License has been revoked",
              ExpiresAt := lic.ExpiryDate, Features := GoMap.make },
       some .ErrLicenseRevoked) := by
  have hf2 : w.getByKeyFaults.head?.getD false = false := by simpa using hf
  simp [service.Validate, licenseRepo.GetByKey, hf2, hk, hr]

theorem Validate_expired (w : World) (key : String) (lic : License)
    (hf : w.getByKeyFaults.headD false = false) (hk : findByKey w.licenses key = some lic)
    (hr : lic.IsRevoked = false) (he : lic.ExpiryDate < w.now) :
    (service.Validate w key).1 =
      (some { Valid := false, Message := "License has expired",
              ExpiresAt := lic.ExpiryDate, Features := GoMap.make },
       some .ErrLicenseExpired) := by
  have hf2 : w.getByKeyFaults.head?.getD false = false := by simpa using hf
  simp [service.Validate, licenseRepo.GetByKey, hf2, hk, hr, Time.After, he]

theorem Validate_inactive (w : World) (key : String) (lic : License)
    (hf : w.getByKeyFaults.headD false = false) (hk : findByKey w.licenses key = some lic)
    (hr : lic.IsRevoked = false) (he : w.now ≤ lic.ExpiryDate) (ha : lic.IsActive = false) :
    (service.Validate w key).1 =
      (some { Valid := false, Message := "License is not active",
              ExpiresAt := lic.ExpiryDate, Features := GoMap.make },
       some .ErrLicenseInvalid) := by
  have hf2 : w.getByKeyFaults.head?.getD false = false := by simpa using hf
  have hn : ¬ lic.ExpiryDate < w.now := not_lt.mpr he
  simp [service.Validate, licenseRepo.GetByKey, hf2, hk, hr, Time.After, hn, ha]

theorem Validate_active (w : World) (key : String) (lic : License) (lt : LicenseType)
    (hf : w.getByKeyFaults.headD false = false) (hk : findByKey w.licenses key = some lic)
    (hr : lic.IsRevoked = false) (he : w.now ≤ lic.ExpiryDate) (ha : lic.IsActive = true)
    (htf : w.typeFaults.headD false = false)
    (ht : findType w.licenseTypes lic.LicenseTypeID = some lt) :
    (service.Validate w key).1 =
      (some { Valid := true, Message := "", ExpiresAt := lic.ExpiryDate,
              Features := lt.Features }, none) := by
  have hf2 : w.getByKeyFaults.head?.getD false = false := by simpa using hf
  have htf2 : w.typeFaults.head?.getD false = false := by simpa using htf
  have hn : ¬ lic.ExpiryDate < w.now := not_lt.mpr he
  simp [service.Validate, licenseRepo.GetByKey, hf2, hk, hr, Time.After, hn, ha,
    licenseTypeRepo.GetByID, htf2, ht]

theorem Validate_err_frame (w : World) (key : String) (e : GoError)
    (h : (service.Validate w key).1.2 = some e) :
    (service.Validate w key).2.licenses = w.licenses ∧
    (service.Validate w key).2.activities = w.activities ∧
    (service.Validate w key).2.licenseTypes = w.licenseTypes := by
  unfold service.Validate licenseRepo.GetByKey licenseTypeRepo.GetByID at *
  cases hf : w.getByKeyFaults.head?.getD false <;> simp [hf] at h ⊢
  cases hk : findByKey w.licenses key with
  | none => simp [hk] at h ⊢
  | some lic =>
    simp [hk] at h ⊢
    cases hr : lic.IsRevoked <;> simp [hr] at h ⊢
    by_cases he : Time.After w.now lic.ExpiryDate <;> simp [he] at h ⊢
    cases ha : lic.IsActive <;> simp [ha] at h ⊢
    cases hf : w.typeFaults.head?.getD false <;> simp [hf] at h ⊢
    cases hk : findType w.licenseTypes lic.LicenseTypeID <;> simp [hk] at h ⊢

theorem Validate_ok (w : World) (key : String)
    (h : (service.Validate w key).1.2 = none) :
    ∃ lic lt t,
      w.getByKeyFaults.headD false = false ∧ findByKey w.licenses key = some lic ∧
      lic.IsRevoked = false ∧ ¬ lic.ExpiryDate < w.now ∧ lic.IsActive = true ∧
      w.typeFaults.headD false = false ∧
      findType w.licenseTypes lic.LicenseTypeID = some lt ∧
      (service.Validate w key).1.1 =
        some { Valid := true, Message := "", ExpiresAt := lic.ExpiryDate,
               Features := lt.Features } ∧
      (service.Validate w key).2.licenses =
        (if w.updateFaults.headD false then w.licenses
         else saved w.licenses { lic with LastCheck := some t }) ∧
      (service.Validate w key).2.updateFaults = w.updateFaults.tail ∧
      (service.Validate w key).2.getByKeyFaults = w.getByKeyFaults.tail ∧
      (service.Validate w key).2.licenseTypes = w.licenseTypes := by
  unfold service.Validate licenseRepo.GetByKey licenseTypeRepo.GetByID at *
  cases hf : w.getByKeyFaults.head?.getD false <;> simp [hf] at h ⊢
  cases hk : findByKey w.licenses key with
  | none => simp [hk] at h
  | some lic =>
    simp [hk] at h ⊢
    cases hr : lic.IsRevoked <;> simp [hr] at h ⊢
    by_cases he : Time.After w.now lic.ExpiryDate <;> simp [he] at h ⊢
    cases ha : lic.IsActive <;> simp [ha] at h ⊢
    cases hf : w.typeFaults.head?.getD false <;> simp [hf] at h ⊢
    cases hk : findType w.licenseTypes lic.LicenseTypeID <;> simp [hk] at h ⊢
    refine ⟨by simpa [Time.After] using he, ?_⟩
    exact ⟨_, rfl⟩

theorem Validate_fst_congr (w w2 : World) (key : String)
    (h1 : w2.getByKeyFaults.headD false = w.getByKeyFaults.headD false)
    (h2 : w2.licenses = w.licenses) (h3 : w2.now = w.now)
    (h4 : w2.typeFaults.headD false = w.typeFaults.headD false)
    (h5 : w2.licenseTypes = w.licenseTypes) :
    (service.Validate w2 key).1 = (service.Validate w key).1 := by
  have h1b : w2.getByKeyFaults.head?.getD false = w.getByKeyFaults.head?.getD false := by
    simpa using h1
  have h4b : w2.typeFaults.head?.getD false = w.typeFaults.head?.getD false := by
    simpa using h4
  unfold service.Validate licenseRepo.GetByKey licenseTypeRepo.GetByID
  simp only [List.headD_eq_head?_getD, h1b, h2]
  cases hf : w.getByKeyFaults.head?.getD false <;> simp [hf]
  cases hk : findByKey w.licenses key with
  | none => simp [hk]
  | some lic =>
    simp [hk, h3]
    cases hr : lic.IsRevoked <;> simp [hr]
    by_cases he : Time.After w.now lic.ExpiryDate <;> simp [he]
    cases ha : lic.IsActive <;> simp [ha]
    simp only [h4b, h5]
    cases hf : w.typeFaults.head?.getD false <;> simp [hf]
    cases hk : findType w.licenseTypes lic.LicenseTypeID <;> simp [hk]

theorem Validate_afterRead (w : World) (key : String) (h : noFault w.getByKeyFaults) :
    (service.Validate (afterRead w) key).1 = (service.Validate w key).1 := by
  apply Validate_fst_congr
  · rw [afterRead_getByKeyFaults, noFault_head _ h, noFault_head _ (noFault_tail _ h)]
  · rfl
  · rfl
  · rfl
  · rfl

/-! ## `CheckUsage`, case by case -/

theorem CheckUsage_read_fault (w : World) (key : String) (usage : List (String × Value))
    (hf : w.getByKeyFaults.headD false = true) :
    service.CheckUsage w key usage =
      (.returned (some (.wrap "failed to get license by key: " .driver "")), afterRead w) := by
  have hf2 : w.getByKeyFaults.head?.getD false = true := by simpa using hf
  simp [service.CheckUsage, service.GetByKey, licenseRepo.GetByKey, hf2, afterRead]

theorem CheckUsage_absent (w : World) (key : String) (usage : List (String × Value))
    (hf : w.getByKeyFaults.headD false = false) (hk : findByKey w.licenses key = none) :
    service.CheckUsage w key usage = (.returned (some .ErrNotFound), afterRead w) := by
  have hf2 : w.getByKeyFaults.head?.getD false = false := by simpa using hf
  simp [service.CheckUsage, service.GetByKey, licenseRepo.GetByKey, hf2, hk, afterRead]

theorem CheckUsage_validate_err (w : World) (key : String) (usage : List (String × Value))
    (lic : License) (e : GoError)
    (hf : w.getByKeyFaults.headD false = false) (hk : findByKey w.licenses key = some lic)
    (hv : (service.Validate (afterRead w) key).1.2 = some e) :
    service.CheckUsage w key usage =
      (.returned (some e), (service.Validate (afterRead w) key).2) := by
  have hf2 : w.getByKeyFaults.head?.getD false = false := by simpa using hf
  rcases hx : service.Validate (afterRead w) key with ⟨⟨r, e2⟩, w2⟩
  rw [hx] at hv
  simp only at hv
  subst hv
  unfold afterRead at hx
  simp [service.CheckUsage, service.GetByKey, licenseRepo.GetByKey, hf2, hk, hx]

theorem CheckUsage_loop_failed (w : World) (key : String) (usage : List (String × Value))
    (lic : License) (e : GoError)
    (hf : w.getByKeyFaults.headD false = false) (hk : findByKey w.licenses key = some lic)
    (hv : (service.Validate (afterRead w) key).1.2 = none)
    (hl : service.usageLoop lic.UsageLimits lic.CurrentUsage usage = .failed e) :
    service.CheckUsage w key usage =
      (.returned (some e), (service.Validate (afterRead w) key).2) := by
  have hf2 : w.getByKeyFaults.head?.getD false = false := by simpa using hf
  rcases hx : service.Validate (afterRead w) key with ⟨⟨r, e2⟩, w2⟩
  rw [hx] at hv
  simp only at hv
  subst hv
  unfold afterRead at hx
  simp [service.CheckUsage, service.GetByKey, licenseRepo.GetByKey, hf2, hk, hx, hl]

theorem CheckUsage_loop_panicked (w : World) (key : String) (usage : List (String × Value))
    (lic : License)
    (hf : w.getByKeyFaults.headD false = false) (hk : findByKey w.licenses key = some lic)
    (hv : (service.Validate (afterRead w) key).1.2 = none)
    (hl : service.usageLoop lic.UsageLimits lic.CurrentUsage usage = .panicked) :
    service.CheckUsage w key usage =
      (.panicked, (service.Validate (afterRead w) key).2) := by
  have hf2 : w.getByKeyFaults.head?.getD false = false := by simpa using hf
  rcases hx : service.Validate (afterRead w) key with ⟨⟨r, e2⟩, w2⟩
  rw [hx] at hv
  simp only at hv
  subst hv
  unfold afterRead at hx
  simp [service.CheckUsage, service.GetByKey, licenseRepo.GetByKey, hf2, hk, hx, hl]

theorem CheckUsage_loop_done (w : World) (key : String) (usage : List (String × Value))
    (lic : License) (cur : GoMap)
    (hf : w.getByKeyFaults.headD false = false) (hk : findByKey w.licenses key = some lic)
    (hv : (service.Validate (afterRead w) key).1.2 = none)
    (hl : service.usageLoop lic.UsageLimits lic.CurrentUsage usage = .done cur) :
    service.CheckUsage w key usage =
      if (service.Validate (afterRead w) key).2.updateFaults.headD false then
        (.returned (some (.wrap "failed to update license: " .driver "")),
          { (service.Validate (afterRead w) key).2 with
            updateFaults := (service.Validate (afterRead w) key).2.updateFaults.tail })
      else
        (.returned none,
          { (service.Validate (afterRead w) key).2 with
            updateFaults := (service.Validate (afterRead w) key).2.updateFaults.tail
            licenses := saved (service.Validate (afterRead w) key).2.licenses
              { lic with CurrentUsage := cur } }) := by
  have hf2 : w.getByKeyFaults.head?.getD false = false := by simpa using hf
  rcases hx : service.Validate (afterRead w) key with ⟨⟨r, e2⟩, w2⟩
  rw [hx] at hv
  simp only at hv
  subst hv
  unfold afterRead at hx
  cases hu : w2.updateFaults.head?.getD false <;>
    simp [service.CheckUsage, service.GetByKey, licenseRepo.GetByKey, hf2, hk, hx, hl,
      Update_eq, hu]

/-! ## The records an operation writes -/

theorem Revoke_written (w : World) (id : UUID) (reason : String) (l : License)
    (h : l ∈ (service.Revoke w id reason).2.licenses) :
    l ∈ w.licenses ∨ (l.IsRevoked = true ∧ l.IsActive = false) := by
  unfold service.Revoke licenseRepo.GetByID at h
  cases hf : w.getByIDFaults.head?.getD false <;> simp [hf] at h
  · cases hk : findByID w.licenses id with
    | none => simp [hk] at h; exact Or.inl h
    | some lic =>
      simp [hk, Update_eq] at h
      cases hu : w.updateFaults.head?.getD false <;> simp [hu] at h
      · rcases mem_saved _ _ _ h with h | h
        · exact Or.inl h
        · exact Or.inr (by simp [h])
      · exact Or.inl h
  · exact Or.inl h

theorem Validate_written (w : World) (key : String) (l : License)
    (h : l ∈ (service.Validate w key).2.licenses) :
    l ∈ w.licenses ∨ (l.IsRevoked = false ∧ l.IsActive = true) := by
  cases he : (service.Validate w key).1.2 with
  | some e =>
    rw [(Validate_err_frame w key e he).1] at h
    exact Or.inl h
  | none =>
    obtain ⟨lic, lt, t, -, -, hr, -, ha, -, -, -, hl, -⟩ := Validate_ok w key he
    rw [hl] at h
    split at h
    · exact Or.inl h
    · rcases mem_saved _ _ _ h with h | h
      · exact Or.inl h
      · exact Or.inr (by simp [h, hr, ha])

theorem CheckUsage_written (w : World) (key : String) (usage : List (String × Value))
    (l : License) (h : l ∈ (service.CheckUsage w key usage).2.licenses) :
    l ∈ w.licenses ∨ (l.IsRevoked = false ∧ l.IsActive = true) := by
  cases hf : w.getByKeyFaults.headD false with
  | true => rw [CheckUsage_read_fault w key usage hf] at h; exact Or.inl h
  | false =>
    cases hk : findByKey w.licenses key with
    | none => rw [CheckUsage_absent w key usage hf hk] at h; exact Or.inl h
    | some lic =>
      have hV := Validate_written (afterRead w) key l
      rw [afterRead_licenses] at hV
      cases hv : (service.Validate (afterRead w) key).1.2 with
      | some e =>
        rw [CheckUsage_validate_err w key usage lic e hf hk hv] at h
        exact hV h
      | none =>
        obtain ⟨lic2, lt, t, -, hk2, hr, -, ha, -⟩ := Validate_ok (afterRead w) key hv
        rw [afterRead_licenses, hk] at hk2
        cases hk2
        cases hl : service.usageLoop lic.UsageLimits lic.CurrentUsage usage with
        | failed e =>
          rw [CheckUsage_loop_failed w key usage lic e hf hk hv hl] at h
          exact hV h
        | panicked =>
          rw [CheckUsage_loop_panicked w key usage lic hf hk hv hl] at h
          exact hV h
        | done cur =>
          rw [CheckUsage_loop_done w key usage lic cur hf hk hv hl] at h
          split at h
          · exact hV h
          · rcases mem_saved _ _ _ h with h | h
            · exact hV h
            · exact Or.inr (by simp [h, hr, ha])

theorem Update_written (w : World) (input l : License)
    (h : l ∈ (service.Update w input).2.licenses) :
    l ∈ w.licenses ∨ (l.IsRevoked = input.IsRevoked ∧ l.IsActive = input.IsActive) := by
  unfold service.Update licenseRepo.GetByID at h
  cases hv : service.validateLicense input with
  | some e => simp [hv] at h; exact Or.inl h
  | none =>
    simp only [hv] at h
    cases hf : w.getByIDFaults.head?.getD false <;> simp [hf] at h
    · cases hk : findByID w.licenses input.ID with
      | none => simp [hk] at h; exact Or.inl h
      | some lic =>
        simp [hk] at h
        cases hu : w.updateFaults.head?.getD false <;> simp [hu] at h
        · rcases mem_saved _ _ _ h with h | h
          · exact Or.inl h
          · exact Or.inr (by simp [h])
        · exact Or.inl h
    · exact Or.inl h

theorem Create_written (lib : Lib) (w : World) (input l : License)
    (h : l ∈ (service.Create lib w input).2.licenses) :
    l ∈ w.licenses ∨ (l.IsRevoked = input.IsRevoked ∧ l.IsActive = true) := by
  unfold service.Create licenseTypeRepo.GetByID at h
  cases hv : service.validateLicense input with
  | some e => simp [hv] at h; exact Or.inl h
  | none =>
    simp only [hv] at h
    cases hf : w.typeFaults.head?.getD false <;> simp [hf] at h
    · cases hk : findType w.licenseTypes input.LicenseTypeID with
      | none => simp [hk] at h; exact Or.inl h
      | some lt =>
        simp only [hk, service.generateLicenseKey] at h
        rcases repoCreate_written _ _ _ h with h | h
        · exact Or.inl (by simpa using h)
        · refine Or.inr ?_
          subst h
          unfold licenseRepo.tableRow licenseRepo.withDefaults
          constructor
          · split <;> rfl
          · cases input.IsActive <;> simp
    · exact Or.inl h

/-! ## Maps -/

namespace Entries

theorem lookup_cons_self (k : String) (v : Value) (t : Entries) :
    List.lookup k ((k, v) :: t) = some v := by
  simp [List.lookup]

theorem lookup_cons_ne (k a : String) (b : Value) (t : Entries) (h : k ≠ a) :
    List.lookup k ((a, b) :: t) = List.lookup k t := by
  have : (k == a) = false := by simpa using h
  simp [List.lookup, this]

theorem lookup_map_set (k : String) (v : Value) :
    ∀ es : Entries, List.any es (fun e => e.1 == k) = true →
      List.lookup k (List.map (fun e => if e.1 == k then (k, v) else e) es) = some v
  | [], h => by simp at h
  | (a, b) :: t, h => by
    rw [List.map_cons]
    by_cases hak : a = k
    · have : (if ((a, b) : String × Value).1 == k then (k, v) else (a, b)) = (k, v) := by
        simp [hak]
      rw [this, lookup_cons_self]
    · have : (if ((a, b) : String × Value).1 == k then (k, v) else (a, b)) = (a, b) := by
        simp [hak]
      rw [this, lookup_cons_ne k a b _ (fun h2 => hak h2.symm)]
      have ht : List.any t (fun e => e.1 == k) = true := by simpa [hak] using h
      exact lookup_map_set k v t ht

theorem lookup_map_set_ne (k k2 : String) (v : Value) (hne : k2 ≠ k) :
    ∀ es : Entries,
      List.lookup k2 (List.map (fun e => if e.1 == k then (k, v) else e) es) =
        List.lookup k2 es
  | [] => rfl
  | (a, b) :: t => by
    rw [List.map_cons]
    by_cases hak : a = k
    · have : (if ((a, b) : String × Value).1 == k then (k, v) else (a, b)) = (k, v) := by
        simp [hak]
      rw [this, lookup_cons_ne k2 k v _ hne, lookup_cons_ne k2 a b _ (hak ▸ hne)]
      exact lookup_map_set_ne k k2 v hne t
    · have : (if ((a, b) : String × Value).1 == k then (k, v) else (a, b)) = (a, b) := by
        simp [hak]
      rw [this]
      by_cases h2 : k2 = a
      · subst h2
        rw [lookup_cons_self, lookup_cons_self]
      · rw [lookup_cons_ne k2 a b _ h2, lookup_cons_ne k2 a b _ h2]
        exact lookup_map_set_ne k k2 v hne t

theorem lookup_eq_none_of_not_any (k : String) :
    ∀ es : Entries, List.any es (fun e => e.1 == k) = false → List.lookup k es = none
  | [], _ => rfl
  | (a, b) :: t, h => by
    have hak : ¬ a = k := by
      intro h2
      simp [h2] at h
    have ht : List.any t (fun e => e.1 == k) = false := by
      rw [List.any_cons] at h
      simpa [hak] using h
    rw [lookup_cons_ne k a b _ (fun h2 => hak h2.symm)]
    exact lookup_eq_none_of_not_any k t ht

theorem lookup_set_self (es : Entries) (k : String) (v : Value) :
    List.lookup k (set es k v) = some v := by
  unfold set
  split
  · rename_i h
    exact lookup_map_set k v es h
  · rename_i h
    have h2 : List.any es (fun e => e.1 == k) = false := by
      cases h3 : List.any es (fun e => e.1 == k)
      · rfl
      · exact absurd h3 h
    rw [List.lookup_append, lookup_eq_none_of_not_any k es h2]
    simp [List.lookup]

theorem lookup_set_ne (es : Entries) (k k2 : String) (v : Value) (hne : k2 ≠ k) :
    List.lookup k2 (set es k v) = List.lookup k2 es := by
  unfold set
  split
  · exact lookup_map_set_ne k k2 v hne es
  · have h1 : (k2 == k) = false := by simpa using hne
    rw [List.lookup_append]
    simp [List.lookup, h1]

end Entries

theorem Value.asFloat64_eq_some (v : Value) (a : Float64) (h : v.asFloat64 = some a) :
    v = .num a := by
  cases v <;> simp [Value.asFloat64] at h
  rw [h]

/-! ## The loop over the submitted metrics -/

namespace service

theorem usageLoop_cons (limits cur : GoMap) (metric : String) (value : Value)
    (rest : List (String × Value)) :
    usageLoop limits cur ((metric, value) :: rest) =
      match limits.get metric with
      | none => usageLoop limits cur rest
      | some limit =>
        match value.asFloat64 with
        | none => .failed (invalidUsageValue metric)
        | some currentValue =>
          match limit.asFloat64 with
          | none => .failed (invalidLimitValue metric)
          | some limitValue =>
            if currentValue.gt limitValue then
              .failed (usageLimitExceeded metric)
            else
              match cur with
              | none => .panicked
              | some es => usageLoop limits (some (es.set metric (.num currentValue))) rest := by
  rw [usageLoop]

theorem usageLoop_cons_unlimited (limits cur : GoMap) (m : String) (v : Value)
    (rest : List (String × Value)) (h : limits.get m = none) :
    usageLoop limits cur ((m, v) :: rest) = usageLoop limits cur rest := by
  simp [usageLoop, h]

theorem usageLoop_cons_exceeds (limits cur : GoMap) (m : String) (a b : Float64)
    (rest : List (String × Value)) (h : limits.get m = some (.num b)) (hgt : a.gt b = true) :
    usageLoop limits cur ((m, .num a) :: rest) = .failed (usageLimitExceeded m) := by
  simp [usageLoop, h, Value.asFloat64, hgt]

theorem usageLoop_cons_within (limits : GoMap) (es : Entries) (m : String) (a b : Float64)
    (rest : List (String × Value)) (h : limits.get m = some (.num b)) (hgt : a.gt b = false) :
    usageLoop limits (some es) ((m, .num a) :: rest) =
      usageLoop limits (some (es.set m (.num a))) rest := by
  simp [usageLoop, h, Value.asFloat64, hgt]

theorem usageLoop_append (limits : GoMap) :
    ∀ (pre : List (String × Value)) (cur : GoMap) (rest : List (String × Value)),
      usageLoop limits cur (pre ++ rest) =
        match usageLoop limits cur pre with
        | .done c => usageLoop limits c rest
        | r => r
  | [], cur, rest => by simp [usageLoop]
  | (m, v) :: pre, cur, rest => by
    rw [List.cons_append, usageLoop_cons limits cur m v (pre ++ rest),
      usageLoop_cons limits cur m v pre]
    cases hl : limits.get m with
    | none => simpa using usageLoop_append limits pre cur rest
    | some limit =>
      cases hv : v.asFloat64 with
      | none => simp
      | some a =>
        cases hb : limit.asFloat64 with
        | none => simp [hb]
        | some b =>
          cases hgt : a.gt b with
          | true => simp [hb, hgt]
          | false =>
            cases cur with
            | none => simp [hb, hgt]
            | some es => simpa [hb, hgt] using usageLoop_append limits pre _ rest

theorem usageLoop_unlimited (limits cur : GoMap) :
    ∀ usage : List (String × Value), (∀ e ∈ usage, limits.get e.1 = none) →
      usageLoop limits cur usage = .done cur
  | [], _ => by simp [usageLoop]
  | (m, v) :: rest, h => by
    rw [usageLoop_cons_unlimited limits cur m v rest (h (m, v) (List.mem_cons_self _ _))]
    exact usageLoop_unlimited limits cur rest
      (fun e he => h e (List.mem_cons_of_mem _ he))

theorem usageLoop_not_done (limits : GoMap) (m : String) (a b : Float64)
    (hl : limits.get m = some (.num b)) (hgt : a.gt b = true) :
    ∀ (usage : List (String × Value)) (cur c : GoMap), (m, Value.num a) ∈ usage →
      usageLoop limits cur usage ≠ .done c
  | [], _, _, h => by simp at h
  | (m2, v2) :: rest, cur, c, h => by
    rcases List.mem_cons.1 h with h | h
    · cases h
      rw [usageLoop_cons_exceeds limits cur m a b rest hl hgt]
      simp
    · rw [usageLoop_cons]
      cases hl2 : limits.get m2 with
      | none => simpa using usageLoop_not_done limits m a b hl hgt rest cur c h
      | some limit =>
        cases hv : v2.asFloat64 with
        | none => simp
        | some a2 =>
          cases hb : limit.asFloat64 with
          | none => simp [hb]
          | some b2 =>
            cases hgt2 : a2.gt b2 with
            | true => simp [hb, hgt2]
            | false =>
              cases cur with
              | none => simp [hb, hgt2]
              | some es =>
                simpa [hb, hgt2] using usageLoop_not_done limits m a b hl hgt rest _ c h

theorem usageLoop_done_step (limits cur c : GoMap) (m : String) (v : Value)
    (rest : List (String × Value)) (limit : Value) (hl : limits.get m = some limit)
    (h : usageLoop limits cur ((m, v) :: rest) = .done c) :
    ∃ es a, cur = some es ∧ v = .num a ∧
      usageLoop limits (some (es.set m (.num a))) rest = .done c := by
  rw [usageLoop_cons, hl] at h
  cases hv : v.asFloat64 with
  | none => simp [hv] at h
  | some a =>
    cases hb : limit.asFloat64 with
    | none => simp [hv, hb] at h
    | some b =>
      cases hgt : a.gt b with
      | true => simp [hv, hb, hgt] at h
      | false =>
        cases cur with
        | none => simp [hv, hb, hgt] at h
        | some es =>
          refine ⟨es, a, rfl, Value.asFloat64_eq_some v a hv, ?_⟩
          simpa [hv, hb, hgt] using h

theorem usageLoop_done_frame (limits : GoMap) (k : String) :
    ∀ (usage : List (String × Value)) (cur c : GoMap),
      usageLoop limits cur usage = .done c →
      (∀ v, (k, v) ∈ usage → limits.get k = none) → c.get k = cur.get k
  | [], cur, c, h, _ => by
    have : cur = c := by simpa [usageLoop] using h
    rw [this]
  | (m, v) :: rest, cur, c, h, hk => by
    have hk2 : ∀ v2, (k, v2) ∈ rest → limits.get k = none :=
      fun v2 h2 => hk v2 (List.mem_cons_of_mem _ h2)
    cases hl : limits.get m with
    | none =>
      rw [usageLoop_cons_unlimited limits cur m v rest hl] at h
      exact usageLoop_done_frame limits k rest cur c h hk2
    | some limit =>
      obtain ⟨es, a, hcur, -, h2⟩ := usageLoop_done_step limits cur c m v rest limit hl h
      have hne : k ≠ m := by
        intro hkm
        have := hk v (hkm ▸ List.mem_cons_self _ _)
        rw [hkm, hl] at this
        exact absurd this (by simp)
      rw [usageLoop_done_frame limits k rest _ c h2 hk2, hcur]
      exact Entries.lookup_set_ne es m k (.num a) hne

theorem usageLoop_done_set (limits : GoMap) :
    ∀ (usage : List (String × Value)) (cur c : GoMap),
      usageLoop limits cur usage = .done c → (usage.map Prod.fst).Nodup →
      ∀ m v, (m, v) ∈ usage → limits.get m ≠ none → c.get m = some v
  | [], _, _, _, _, m, v, hmem, _ => by simp at hmem
  | (m2, v2) :: rest, cur, c, h, hnd, m, v, hmem, hlim => by
    rw [List.map_cons, List.nodup_cons] at hnd
    rcases List.mem_cons.1 hmem with heq | hmem2
    · have hm : m = m2 := (Prod.mk.inj heq).1
      have hv0 : v = v2 := (Prod.mk.inj heq).2
      subst hm hv0
      cases hl : limits.get m with
      | none => exact absurd hl hlim
      | some limit =>
        obtain ⟨es, a, -, hv, h2⟩ := usageLoop_done_step limits cur c m v rest limit hl h
        have hfr := usageLoop_done_frame limits m rest _ c h2
          (fun v3 h3 => absurd (List.mem_map_of_mem Prod.fst h3) hnd.1)
        rw [hfr, hv]
        exact Entries.lookup_set_self es m (.num a)
    · cases hl : limits.get m2 with
      | none =>
        rw [usageLoop_cons_unlimited limits cur m2 v2 rest hl] at h
        exact usageLoop_done_set limits rest cur c h hnd.2 m v hmem2 hlim
      | some limit =>
        obtain ⟨es, a, -, -, h2⟩ := usageLoop_done_step limits cur c m2 v2 rest limit hl h
        exact usageLoop_done_set limits rest _ c h2 hnd.2 m v hmem2 hlim

theorem usageLoop_within (limits : GoMap) :
    ∀ (usage : List (String × Value)) (es : Entries),
      (∀ m v, (m, v) ∈ usage → ∀ l, limits.get m = some l →
        ∃ a b, v = .num a ∧ l = .num b ∧ a.gt b = false) →
      ∃ es2, usageLoop limits (some es) usage = .done (some es2)
  | [], es, _ => ⟨es, by simp [usageLoop]⟩
  | (m, v) :: rest, es, h => by
    have h2 : ∀ m2 v2, (m2, v2) ∈ rest → ∀ l, limits.get m2 = some l →
        ∃ a b, v2 = .num a ∧ l = .num b ∧ a.gt b = false :=
      fun m2 v2 hm => h m2 v2 (List.mem_cons_of_mem _ hm)
    cases hl : limits.get m with
    | none =>
      rw [usageLoop_cons_unlimited limits _ m v rest hl]
      exact usageLoop_within limits rest es h2
    | some limit =>
      obtain ⟨a, b, hv, hb, hgt⟩ := h m v (List.mem_cons_self _ _) limit hl
      subst hv hb
      rw [usageLoop_cons_within limits es m a b rest hl hgt]
      exact usageLoop_within limits rest _ h2

end service

/-! ## Validation -/

/-- C1. For a stored license that is revoked, `Validate` returns a result with
`Valid = false` together with `ErrLicenseRevoked`, at every clock reading and whatever the
active flag and the expiry date of the license are. -/
theorem C1_validate_revoked (w : World) (key : String) (lic : License)
    (hs : (licenseRepo.GetByKey w key).1 = .ok lic) (hr : lic.IsRevoked = true) :
    (service.Validate w key).1 =
      (some { Valid := false, Message := "License has been revoked",
              ExpiresAt := lic.ExpiryDate, Features := GoMap.make },
       some .ErrLicenseRevoked) := by
  obtain ⟨hf, hk⟩ := (GetByKey_ok_iff w key lic).1 hs
  exact Validate_revoked w key lic hf hk hr

/-- C1 at a license that is revoked, still flagged active and past its expiry date. -/
theorem C1_validate_revoked_witness :
    (service.Validate
        { sampleWorld with
          licenses := [{ sampleLicense with IsRevoked := true, ExpiryDate := 1200 }] }
        "k1").1 =
      (some { Valid := false, Message := "License has been revoked",
              ExpiresAt := 1200, Features := GoMap.make },
       some .ErrLicenseRevoked) :=
  C1_validate_revoked
    { sampleWorld with
      licenses := [{ sampleLicense with IsRevoked := true, ExpiryDate := 1200 }] }
    "k1" { sampleLicense with IsRevoked := true, ExpiryDate := 1200 }
    rfl rfl

/-- C2. For a stored license that is not revoked: when the clock reads strictly after the
expiry date, `Validate` returns `Valid = false` with `ErrLicenseExpired`, active or not; when
the clock reads at or before the expiry date and the license is not active, `Validate`
returns `Valid = false` with `ErrLicenseInvalid`. -/
theorem C2_validate_expired_inactive (w : World) (key : String) (lic : License)
    (hs : (licenseRepo.GetByKey w key).1 = .ok lic) (hr : lic.IsRevoked = false) :
    (lic.ExpiryDate < w.now →
      (service.Validate w key).1 =
        (some { Valid := false, Message := "License has expired",
                ExpiresAt := lic.ExpiryDate, Features := GoMap.make },
         some .ErrLicenseExpired)) ∧
    (w.now ≤ lic.ExpiryDate → lic.IsActive = false →
      (service.Validate w key).1 =
        (some { Valid := false, Message := "License is not active",
                ExpiresAt := lic.ExpiryDate, Features := GoMap.make },
         some .ErrLicenseInvalid)) := by
  obtain ⟨hf, hk⟩ := (GetByKey_ok_iff w key lic).1 hs
  exact ⟨fun he => Validate_expired w key lic hf hk hr he,
    fun he ha => Validate_inactive w key lic hf hk hr he ha⟩

/-- C2 at an inactive license: read after its expiry date it is reported expired, read at
the very instant of its expiry date it is reported invalid. -/
theorem C2_validate_expired_inactive_witness :
    (service.Validate
        { sampleWorld with licenses := [{ sampleLicense with IsActive := false }], now := 2001 }
        "k1").1 =
      (some { Valid := false, Message := "License has expired",
              ExpiresAt := 2000, Features := GoMap.make },
       some .ErrLicenseExpired) ∧
    (service.Validate
        { sampleWorld with licenses := [{ sampleLicense with IsActive := false }], now := 2000 }
        "k1").1 =
      (some { Valid := false, Message := "License is not active",
              ExpiresAt := 2000, Features := GoMap.make },
       some .ErrLicenseInvalid) :=
  ⟨(C2_validate_expired_inactive
      { sampleWorld with licenses := [{ sampleLicense with IsActive := false }], now := 2001 }
      "k1" { sampleLicense with IsActive := false } rfl rfl).1 (by decide),
   (C2_validate_expired_inactive
      { sampleWorld with licenses := [{ sampleLicense with IsActive := false }], now := 2000 }
      "k1" { sampleLicense with IsActive := false } rfl rfl).2
      (by decide) rfl⟩

/-- C3. For a stored license that is not revoked, not expired and active, and whose license
type can be fetched, `Validate` returns a nil error and a result with `Valid = true`, the
expiry date of the license and the feature map of its type, whether or not the write of the
last check and the write of the activity fail. -/
theorem C3_validate_active (w : World) (key : String) (lic : License) (lt : LicenseType)
    (hs : (licenseRepo.GetByKey w key).1 = .ok lic) (hr : lic.IsRevoked = false)
    (he : w.now ≤ lic.ExpiryDate) (ha : lic.IsActive = true)
    (ht : (licenseTypeRepo.GetByID w lic.LicenseTypeID).1 = .ok lt) :
    (service.Validate w key).1 =
      (some { Valid := true, Message := "", ExpiresAt := lic.ExpiryDate,
              Features := lt.Features }, none) := by
  obtain ⟨hf, hk⟩ := (GetByKey_ok_iff w key lic).1 hs
  obtain ⟨htf, htk⟩ := (TypeGetByID_ok_iff w lic.LicenseTypeID lt).1 ht
  exact Validate_active w key lic lt hf hk hr he ha htf htk

/-- C3 in a store whose next `Update` and next `CreateActivity` both fail. -/
theorem C3_validate_active_witness :
    (service.Validate { sampleWorld with updateFaults := [true], activityFaults := [true] }
        "k1").1 =
      (some { Valid := true, Message := "", ExpiresAt := 2000,
              Features := some [("seats", .num (.fin 10))] }, none) :=
  C3_validate_active { sampleWorld with updateFaults := [true], activityFaults := [true] }
    "k1" sampleLicense sampleType rfl rfl (by decide) rfl rfl

/-! ## Revocation -/

/-- C4. For a stored license, whatever its flags, and every reason: `Revoke` succeeds when
the writes of the store succeed, and a `Revoke` that succeeds leaves the license stored with
`IsRevoked = true`, `IsActive = false` and the given reason, its other fields unchanged, and
has appended one activity of that license, of type "revocation", whose metadata map
"reason" to the given reason. -/
theorem C4_revoke_persists (w : World) (id : UUID) (reason : String) (lic : License)
    (hs : (licenseRepo.GetByID w id).1 = .ok lic) :
    (w.updateFaults.headD false = false → w.activityFaults.headD false = false →
      (service.Revoke w id reason).1 = none) ∧
    ((service.Revoke w id reason).1 = none →
      findByID (service.Revoke w id reason).2.licenses id =
        some { lic with IsRevoked := true, IsActive := false,
                        RevocationReason := some reason } ∧
      ∃ act, (service.Revoke w id reason).2.activities = w.activities ++ [act] ∧
        act.LicenseID = id ∧ act.ActivityType = "revocation" ∧
        act.Metadata.get "reason" = some (.str reason)) := by
  obtain ⟨hf, hk⟩ := (GetByID_ok_iff w id lic).1 hs
  have hf2 : w.getByIDFaults.head?.getD false = false := by simpa using hf
  have hid := findByID_id _ _ _ hk
  have hsv := findByID_saved w.licenses
    { lic with IsRevoked := true, IsActive := false, RevocationReason := some reason }
  subst hid
  cases hu : w.updateFaults.head?.getD false <;>
    cases ha : w.activityFaults.head?.getD false <;>
    simp [service.Revoke, licenseRepo.GetByID, hf2, hk, Update_eq, hu, ha,
      service.RecordActivity, Time.IsZero, licenseRepo.CreateActivity, uuid.Nil, GoMap.get,
      hsv]

/-- C4 at a license that is already revoked for another reason: the reason is overwritten. -/
theorem C4_revoke_persists_witness :
    findByID
        (service.Revoke
          { sampleWorld with
            licenses := [{ sampleLicense with IsRevoked := true, IsActive := false,
                                              RevocationReason := some "fraud" }] }
          3 "non-payment").2.licenses 3 =
      some { sampleLicense with IsRevoked := true, IsActive := false,
                                RevocationReason := some "non-payment" } :=
  ((C4_revoke_persists
      { sampleWorld with
        licenses := [{ sampleLicense with IsRevoked := true, IsActive := false,
                                          RevocationReason := some "fraud" }] }
      3 "non-payment"
      { sampleLicense with IsRevoked := true, IsActive := false,
                           RevocationReason := some "fraud" }
      rfl).2 (by decide)).1

/-! ## Revoked implies inactive -/

/-- C5, counterexample. `Update` with a caller's record that is flagged both revoked and
active writes that record: the license table then holds a revoked license that is active. -/
theorem C5_counterexample :
    ¬ ∀ l ∈ (service.Update sampleWorld
        { sampleLicense with IsRevoked := true, IsActive := true }).2.licenses,
      RevokedInactive l := by
  decide

/-- C5, amended. Every license record that `Revoke`, `Validate` or `CheckUsage` writes to
the store is inactive when it is revoked. A record that `Update` writes carries the revoked
and active flags of the caller's input; a record that `Create` writes carries the revoked
flag of the caller's input and is active. -/
theorem C5_written_records (w : World) (l : License) :
    (∀ id reason, l ∈ (service.Revoke w id reason).2.licenses →
      l ∈ w.licenses ∨ RevokedInactive l) ∧
    (∀ key, l ∈ (service.Validate w key).2.licenses →
      l ∈ w.licenses ∨ RevokedInactive l) ∧
    (∀ key usage, l ∈ (service.CheckUsage w key usage).2.licenses →
      l ∈ w.licenses ∨ RevokedInactive l) ∧
    (∀ lib input, l ∈ (service.Create lib w input).2.licenses →
      l ∈ w.licenses ∨ (l.IsRevoked = input.IsRevoked ∧ l.IsActive = true)) ∧
    (∀ input, l ∈ (service.Update w input).2.licenses →
      l ∈ w.licenses ∨ (l.IsRevoked = input.IsRevoked ∧ l.IsActive = input.IsActive)) := by
  refine ⟨?_, ?_, ?_, ?_, ?_⟩
  · intro id reason h
    exact (Revoke_written w id reason l h).imp_right (fun h2 _ => h2.2)
  · intro key h
    refine (Validate_written w key l h).imp_right (fun h2 hr => ?_)
    rw [h2.1] at hr
    exact absurd hr (by simp)
  · intro key usage h
    refine (CheckUsage_written w key usage l h).imp_right (fun h2 hr => ?_)
    rw [h2.1] at hr
    exact absurd hr (by simp)
  · intro lib input h
    exact Create_written lib w input l h
  · intro input h
    exact Update_written w input l h

/-- C5, amended, at the revocation of an active license: the record `Revoke` writes is
revoked and inactive. -/
theorem C5_written_records_witness :
    ({ sampleLicense with IsRevoked := true, IsActive := false,
                          RevocationReason := some "non-payment" } : License) ∈
        sampleWorld.licenses ∨
      RevokedInactive { sampleLicense with IsRevoked := true, IsActive := false,
                                           RevocationReason := some "non-payment" } :=
  (C5_written_records sampleWorld
    { sampleLicense with IsRevoked := true, IsActive := false,
                         RevocationReason := some "non-payment" }).1
    3 "non-payment" (by decide)

/-! ## Usage metering -/

theorem Validate_findByKey (w : World) (key : String) (lic : License)
    (hk : findByKey w.licenses key = some lic) :
    ∃ lic2, findByKey (service.Validate w key).2.licenses key = some lic2 ∧
      (lic2 = lic ∨ ∃ t, lic2 = { lic with LastCheck := some t }) := by
  cases he : (service.Validate w key).1.2 with
  | some e =>
    rw [(Validate_err_frame w key e he).1]
    exact ⟨lic, hk, Or.inl rfl⟩
  | none =>
    obtain ⟨lic0, lt, t, -, hk0, -, -, -, -, -, -, hl, -⟩ := Validate_ok w key he
    rw [hk] at hk0
    cases hk0
    rw [hl]
    split
    · exact ⟨lic, hk, Or.inl rfl⟩
    · exact ⟨_, findByKey_saved w.licenses key lic _ hk rfl (findByKey_key _ _ lic hk),
        Or.inr ⟨t, rfl⟩⟩

theorem Validate_afterRead_ok (w : World) (key : String) (lic : License) (lt : LicenseType)
    (hst : Stored w key lic) (hr : lic.IsRevoked = false) (he : w.now ≤ lic.ExpiryDate)
    (ha : lic.IsActive = true)
    (ht : (licenseTypeRepo.GetByID w lic.LicenseTypeID).1 = .ok lt) :
    (service.Validate (afterRead w) key).1.2 = none := by
  obtain ⟨htf, htk⟩ := (TypeGetByID_ok_iff w lic.LicenseTypeID lt).1 ht
  rw [Validate_afterRead w key hst.1,
    Validate_active w key lic lt (noFault_head _ hst.1) hst.2 hr he ha htf htk]

/-- C6, counterexample. A submitted map in which "seats" is over its limit and "api_calls",
visited first, carries a string: `CheckUsage` fails with the invalid-input error of
"api_calls", not with the usage-limit-exceeded error naming "seats". -/
theorem C6_counterexample :
    Stored sampleWorld "k1" sampleLicense ∧
    sampleLicense.UsageLimits.get "seats" = some (.num (.fin 10)) ∧
    Float64.gt (.fin 11) (.fin 10) = true ∧
    (service.CheckUsage sampleWorld "k1"
        [("api_calls", .str "many"), ("seats", .num (.fin 11))]).1 =
      .returned (some (service.invalidUsageValue "api_calls")) ∧
    (service.CheckUsage sampleWorld "k1"
        [("api_calls", .str "many"), ("seats", .num (.fin 11))]).1 ≠
      .returned (some (service.usageLimitExceeded "seats")) := by
  decide

/-- C6, amended. For an active stored license and a submitted map in which some metric has
a numeric limit and a numeric value strictly greater than it: `CheckUsage` does not
succeed, and the stored license keeps its current usage; when the license type can be
fetched and the loop reaches that metric (no metric visited before it stops the loop), the
error is the usage-limit-exceeded error naming that metric. -/
theorem C6_usage_over_limit (w : World) (key : String) (lic : License)
    (usage : List (String × Value)) (m : String) (a b : Float64)
    (hst : Stored w key lic) (hr : lic.IsRevoked = false) (he : w.now ≤ lic.ExpiryDate)
    (ha : lic.IsActive = true)
    (hm : (m, Value.num a) ∈ usage) (hl : lic.UsageLimits.get m = some (.num b))
    (hgt : a.gt b = true) :
    (service.CheckUsage w key usage).1 ≠ .returned none ∧
    (∃ lic2, findByKey (service.CheckUsage w key usage).2.licenses key = some lic2 ∧
      lic2.CurrentUsage = lic.CurrentUsage) ∧
    (∀ lt pre post c, (licenseTypeRepo.GetByID w lic.LicenseTypeID).1 = .ok lt →
      usage = pre ++ (m, Value.num a) :: post →
      service.usageLoop lic.UsageLimits lic.CurrentUsage pre = .done c →
      (service.CheckUsage w key usage).1 =
        .returned (some (service.usageLimitExceeded m))) := by
  have hf := noFault_head _ hst.1
  have hk := hst.2
  obtain ⟨lic2, hk2, hlic2⟩ := Validate_findByKey (afterRead w) key lic hk
  have hcur : lic2.CurrentUsage = lic.CurrentUsage := by
    rcases hlic2 with h | ⟨t, h⟩ <;> rw [h]
  refine ⟨?_, ?_, ?_⟩
  · cases hv : (service.Validate (afterRead w) key).1.2 with
    | some e =>
      rw [CheckUsage_validate_err w key usage lic e hf hk hv]
      simp
    | none =>
      cases hloop : service.usageLoop lic.UsageLimits lic.CurrentUsage usage with
      | failed e =>
        rw [CheckUsage_loop_failed w key usage lic e hf hk hv hloop]
        simp
      | panicked =>
        rw [CheckUsage_loop_panicked w key usage lic hf hk hv hloop]
        simp
      | done c =>
        exact absurd hloop (service.usageLoop_not_done _ m a b hl hgt usage _ c hm)
  · cases hv : (service.Validate (afterRead w) key).1.2 with
    | some e =>
      rw [CheckUsage_validate_err w key usage lic e hf hk hv]
      exact ⟨lic2, hk2, hcur⟩
    | none =>
      cases hloop : service.usageLoop lic.UsageLimits lic.CurrentUsage usage with
      | failed e =>
        rw [CheckUsage_loop_failed w key usage lic e hf hk hv hloop]
        exact ⟨lic2, hk2, hcur⟩
      | panicked =>
        rw [CheckUsage_loop_panicked w key usage lic hf hk hv hloop]
        exact ⟨lic2, hk2, hcur⟩
      | done c =>
        exact absurd hloop (service.usageLoop_not_done _ m a b hl hgt usage _ c hm)
  · intro lt pre post c ht hu hpre
    have hv := Validate_afterRead_ok w key lic lt hst hr he ha ht
    have hloop : service.usageLoop lic.UsageLimits lic.CurrentUsage usage =
        .failed (service.usageLimitExceeded m) := by
      rw [hu, service.usageLoop_append, hpre]
      exact service.usageLoop_cons_exceeds _ _ m a b post hl hgt
    rw [CheckUsage_loop_failed w key usage lic _ hf hk hv hloop]

/-- C6, amended, at a call that submits five API calls and eleven seats of ten: it fails
with the usage-limit-exceeded error naming "seats". -/
theorem C6_usage_over_limit_witness :
    (service.CheckUsage sampleWorld "k1"
        [("api_calls", .num (.fin 5)), ("seats", .num (.fin 11))]).1 =
      .returned (some (service.usageLimitExceeded "seats")) :=
  (C6_usage_over_limit sampleWorld "k1" sampleLicense
    [("api_calls", .num (.fin 5)), ("seats", .num (.fin 11))] "seats" (.fin 11) (.fin 10)
    (by decide) rfl (by decide) rfl (by decide) rfl rfl).2.2
    sampleType [("api_calls", .num (.fin 5))] [] (some [("api_calls", .num (.fin 5))])
    rfl rfl rfl

theorem CheckUsage_success (w : World) (key : String) (lic : License)
    (usage : List (String × Value)) (hst : Stored w key lic)
    (h : (service.CheckUsage w key usage).1 = .returned none) :
    ∃ cur, service.usageLoop lic.UsageLimits lic.CurrentUsage usage = .done cur ∧
      findByKey (service.CheckUsage w key usage).2.licenses key =
        some { lic with CurrentUsage := cur } := by
  have hf := noFault_head _ hst.1
  have hk := hst.2
  cases hv : (service.Validate (afterRead w) key).1.2 with
  | some e =>
    rw [CheckUsage_validate_err w key usage lic e hf hk hv] at h
    simp at h
  | none =>
    cases hloop : service.usageLoop lic.UsageLimits lic.CurrentUsage usage with
    | failed e =>
      rw [CheckUsage_loop_failed w key usage lic e hf hk hv hloop] at h
      simp at h
    | panicked =>
      rw [CheckUsage_loop_panicked w key usage lic hf hk hv hloop] at h
      simp at h
    | done cur =>
      refine ⟨cur, rfl, ?_⟩
      rw [CheckUsage_loop_done w key usage lic cur hf hk hv hloop] at h ⊢
      split at h
      · simp at h
      · rename_i hu
        rw [if_neg hu]
        obtain ⟨lic2, hk2, hlic2⟩ := Validate_findByKey (afterRead w) key lic hk
        have hid : lic.ID = lic2.ID := by
          rcases hlic2 with h2 | ⟨t, h2⟩ <;> rw [h2]
        exact findByKey_saved _ key lic2 { lic with CurrentUsage := cur } hk2 hid
          (findByKey_key _ _ lic hk)

/-- C7. For a stored license and a submitted map (one entry per metric): when the license
is active, its type can be fetched, the writes of the store succeed and every limited
metric carries a numeric value not greater than its numeric limit, `CheckUsage` succeeds;
and after a `CheckUsage` that succeeds the stored current usage maps every submitted
limited metric to exactly the submitted value, its other entries unchanged. -/
theorem C7_usage_recorded (w : World) (key : String) (lic : License)
    (usage : List (String × Value)) (hst : Stored w key lic)
    (hnd : (usage.map Prod.fst).Nodup) :
    (∀ lt es, lic.IsRevoked = false → w.now ≤ lic.ExpiryDate → lic.IsActive = true →
      (licenseTypeRepo.GetByID w lic.LicenseTypeID).1 = .ok lt → noFault w.updateFaults →
      lic.CurrentUsage = some es →
      (∀ m v, (m, v) ∈ usage → ∀ l, lic.UsageLimits.get m = some l →
        ∃ a b, v = .num a ∧ l = .num b ∧ a.gt b = false) →
      (service.CheckUsage w key usage).1 = .returned none) ∧
    ((service.CheckUsage w key usage).1 = .returned none →
      ∃ lic2, findByKey (service.CheckUsage w key usage).2.licenses key = some lic2 ∧
        (∀ m v, (m, v) ∈ usage → lic.UsageLimits.get m ≠ none →
          lic2.CurrentUsage.get m = some v) ∧
        (∀ k, (∀ v, (k, v) ∈ usage → lic.UsageLimits.get k = none) →
          lic2.CurrentUsage.get k = lic.CurrentUsage.get k)) := by
  constructor
  · intro lt es hr he ha ht hu hcur hwithin
    have hv := Validate_afterRead_ok w key lic lt hst hr he ha ht
    obtain ⟨es2, hloop⟩ := service.usageLoop_within lic.UsageLimits usage es hwithin
    rw [← hcur] at hloop
    obtain ⟨-, -, -, -, -, -, -, -, -, -, -, -, hfaults, -⟩ :=
      Validate_ok (afterRead w) key hv
    rw [CheckUsage_loop_done w key usage lic _ (noFault_head _ hst.1) hst.2 hv hloop,
      hfaults, afterRead_updateFaults, noFault_head _ (noFault_tail _ hu)]
    rfl
  · intro h
    obtain ⟨cur, hloop, hfind⟩ := CheckUsage_success w key lic usage hst h
    exact ⟨_, hfind, service.usageLoop_done_set _ usage _ cur hloop hnd,
      fun k => service.usageLoop_done_frame _ k usage _ cur hloop⟩

/-- C7 at a license limited to ten seats that has three in use: submitting five seats
succeeds and leaves five seats in the stored current usage, a following submission of
eleven seats is rejected, and a submission of ten seats, the limit itself, succeeds. -/
theorem C7_usage_recorded_witness :
    (service.CheckUsage
        { sampleWorld with
          licenses := [{ sampleLicense with CurrentUsage := some [("seats", .num (.fin 3))] }] }
        "k1" [("seats", .num (.fin 5))]).1 = .returned none ∧
    findByKey
        (service.CheckUsage
          { sampleWorld with
            licenses := [{ sampleLicense with
                           CurrentUsage := some [("seats", .num (.fin 3))] }] }
          "k1" [("seats", .num (.fin 5))]).2.licenses "k1" =
      some { sampleLicense with CurrentUsage := some [("seats", .num (.fin 5))] } ∧
    (service.CheckUsage
        (service.CheckUsage
          { sampleWorld with
            licenses := [{ sampleLicense with
                           CurrentUsage := some [("seats", .num (.fin 3))] }] }
          "k1" [("seats", .num (.fin 5))]).2
        "k1" [("seats", .num (.fin 11))]).1 =
      .returned (some (service.usageLimitExceeded "seats")) ∧
    (service.CheckUsage sampleWorld "k1" [("seats", .num (.fin 10))]).1 = .returned none :=
  ⟨(C7_usage_recorded
      { sampleWorld with
        licenses := [{ sampleLicense with CurrentUsage := some [("seats", .num (.fin 3))] }] }
      "k1" { sampleLicense with CurrentUsage := some [("seats", .num (.fin 3))] }
      [("seats", .num (.fin 5))] (by decide) (by decide)).1
      sampleType [("seats", .num (.fin 3))] rfl (by decide) rfl rfl (by decide) rfl
      (by
        intro m v hm l hl
        simp only [List.mem_singleton, Prod.mk.injEq] at hm
        obtain ⟨rfl, rfl⟩ := hm
        exact ⟨.fin 5, .fin 10, rfl, (Option.some.inj hl).symm, rfl⟩),
   by decide, by decide,
   (C7_usage_recorded sampleWorld "k1" sampleLicense [("seats", .num (.fin 10))]
      (by decide) (by decide)).1
      sampleType [] rfl (by decide) rfl rfl (by decide) rfl
      (by
        intro m v hm l hl
        simp only [List.mem_singleton, Prod.mk.injEq] at hm
        obtain ⟨rfl, rfl⟩ := hm
        exact ⟨.fin 10, .fin 10, rfl, (Option.some.inj hl).symm, rfl⟩)⟩

theorem CheckUsage_of_validate_err (w : World) (key : String) (lic : License)
    (usage : List (String × Value)) (r : Option ValidationResult) (e : GoError)
    (hst : Stored w key lic) (hv : (service.Validate w key).1 = (r, some e)) :
    (service.CheckUsage w key usage).1 = .returned (some e) ∧
    (service.CheckUsage w key usage).2.licenses = w.licenses ∧
    (service.CheckUsage w key usage).2.activities = w.activities := by
  have hv2 : (service.Validate (afterRead w) key).1.2 = some e := by
    rw [Validate_afterRead w key hst.1, hv]
  rw [CheckUsage_validate_err w key usage lic e (noFault_head _ hst.1) hst.2 hv2]
  obtain ⟨h1, h2, -⟩ := Validate_err_frame (afterRead w) key e hv2
  exact ⟨rfl, h1, h2⟩

/-- C8. For a stored license that is revoked, expired or inactive and every submitted map,
`CheckUsage` fails with `ErrLicenseRevoked`, `ErrLicenseExpired` or `ErrLicenseInvalid`
respectively, and leaves the license table and the activity table as they were. -/
theorem C8_checkUsage_not_active (w : World) (key : String) (lic : License)
    (usage : List (String × Value)) (hst : Stored w key lic) :
    (lic.IsRevoked = true →
      (service.CheckUsage w key usage).1 = .returned (some .ErrLicenseRevoked)) ∧
    (lic.IsRevoked = false → lic.ExpiryDate < w.now →
      (service.CheckUsage w key usage).1 = .returned (some .ErrLicenseExpired)) ∧
    (lic.IsRevoked = false → w.now ≤ lic.ExpiryDate → lic.IsActive = false →
      (service.CheckUsage w key usage).1 = .returned (some .ErrLicenseInvalid)) ∧
    (lic.IsRevoked = true ∨ lic.ExpiryDate < w.now ∨ lic.IsActive = false →
      (service.CheckUsage w key usage).2.licenses = w.licenses ∧
      (service.CheckUsage w key usage).2.activities = w.activities) := by
  have hf := noFault_head _ hst.1
  have hrev := fun hr =>
    CheckUsage_of_validate_err w key lic usage _ _ hst (Validate_revoked w key lic hf hst.2 hr)
  have hexp := fun hr he =>
    CheckUsage_of_validate_err w key lic usage _ _ hst
      (Validate_expired w key lic hf hst.2 hr he)
  have hina := fun hr he ha =>
    CheckUsage_of_validate_err w key lic usage _ _ hst
      (Validate_inactive w key lic hf hst.2 hr he ha)
  refine ⟨fun hr => (hrev hr).1, fun hr he => (hexp hr he).1,
    fun hr he ha => (hina hr he ha).1, fun _ => ?_⟩
  cases hr : lic.IsRevoked with
  | true => exact (hrev hr).2
  | false =>
    rcases lt_or_le lic.ExpiryDate w.now with he | he
    · exact (hexp hr he).2
    · cases ha : lic.IsActive with
      | false => exact (hina hr he ha).2
      | true =>
        rename_i h
        rcases h with h | h | h
        · rw [hr] at h; exact absurd h (by simp)
        · exact absurd h (not_lt.mpr he)
        · rw [ha] at h; exact absurd h (by simp)

/-- C8 at a revoked license and a submission within the limits: the call fails with
`ErrLicenseRevoked` and the license table is as before. -/
theorem C8_checkUsage_not_active_witness :
    (service.CheckUsage
        { sampleWorld with
          licenses := [{ sampleLicense with IsRevoked := true, IsActive := false }] }
        "k1" [("seats", .num (.fin 5))]).1 = .returned (some .ErrLicenseRevoked) :=
  (C8_checkUsage_not_active
    { sampleWorld with
      licenses := [{ sampleLicense with IsRevoked := true, IsActive := false }] }
    "k1" { sampleLicense with IsRevoked := true, IsActive := false }
    [("seats", .num (.fin 5))] (by decide)).1 rfl

/-- C9, counterexample. For a key the store does not hold, `Validate` fails with
`ErrLicenseInvalid` and `CheckUsage` fails with `ErrNotFound`, which is another error. -/
theorem C9_counterexample :
    (service.Validate sampleWorld "missing").1 = (none, some .ErrLicenseInvalid) ∧
    (service.CheckUsage sampleWorld "missing" [("seats", .num (.fin 5))]).1 =
      .returned (some .ErrNotFound) ∧
    GoError.Is .ErrNotFound .ErrLicenseInvalid = false := by
  decide

/-- C9, amended. When reads of the license table succeed: for a key the store holds,
whenever `Validate` fails with an error, `CheckUsage` fails with that same error; for a key
the store does not hold, `Validate` fails with `ErrLicenseInvalid` and `CheckUsage` fails
with `ErrNotFound`. -/
theorem C9_checkUsage_propagates (w : World) (key : String) (usage : List (String × Value))
    (hf : noFault w.getByKeyFaults) :
    (∀ lic e, findByKey w.licenses key = some lic →
      (service.Validate w key).1.2 = some e →
      (service.CheckUsage w key usage).1 = .returned (some e)) ∧
    (findByKey w.licenses key = none →
      (service.Validate w key).1 = (none, some .ErrLicenseInvalid) ∧
      (service.CheckUsage w key usage).1 = .returned (some .ErrNotFound)) := by
  constructor
  · intro lic e hk hv
    exact (CheckUsage_of_validate_err w key lic usage (service.Validate w key).1.1 e
      ⟨hf, hk⟩ (by rw [← hv])).1
  · intro hk
    have hf2 : w.getByKeyFaults.head?.getD false = false := by
      simpa using noFault_head _ hf
    constructor
    · simp [service.Validate, licenseRepo.GetByKey, hf2, hk]
    · rw [CheckUsage_absent w key usage (noFault_head _ hf) hk]

/-- C9, amended, at an expired license: `Validate` fails with `ErrLicenseExpired`, and so
does `CheckUsage`. -/
theorem C9_checkUsage_propagates_witness :
    (service.CheckUsage { sampleWorld with now := 2001 } "k1" [("seats", .num (.fin 5))]).1 =
      .returned (some .ErrLicenseExpired) :=
  (C9_checkUsage_propagates { sampleWorld with now := 2001 } "k1" [("seats", .num (.fin 5))]
    (by decide)).1 sampleLicense .ErrLicenseExpired rfl rfl

/-- C10. For an active stored license whose type can be fetched, in a store whose writes
succeed, and a submitted map none of whose metrics has a limit: `CheckUsage` succeeds,
whatever the submitted values are, and the stored current usage is as before. -/
theorem C10_unlimited_metrics (w : World) (key : String) (lic : License) (lt : LicenseType)
    (usage : List (String × Value)) (hst : Stored w key lic)
    (hr : lic.IsRevoked = false) (he : w.now ≤ lic.ExpiryDate) (ha : lic.IsActive = true)
    (ht : (licenseTypeRepo.GetByID w lic.LicenseTypeID).1 = .ok lt)
    (hu : noFault w.updateFaults)
    (hunl : ∀ e ∈ usage, lic.UsageLimits.get e.1 = none) :
    (service.CheckUsage w key usage).1 = .returned none ∧
    ∃ lic2, findByKey (service.CheckUsage w key usage).2.licenses key = some lic2 ∧
      lic2.CurrentUsage = lic.CurrentUsage := by
  have hv := Validate_afterRead_ok w key lic lt hst hr he ha ht
  have hloop := service.usageLoop_unlimited lic.UsageLimits lic.CurrentUsage usage hunl
  obtain ⟨-, -, -, -, -, -, -, -, -, -, -, -, hfaults, -⟩ :=
    Validate_ok (afterRead w) key hv
  have hok : (service.CheckUsage w key usage).1 = .returned none := by
    rw [CheckUsage_loop_done w key usage lic _ (noFault_head _ hst.1) hst.2 hv hloop,
      hfaults, afterRead_updateFaults, noFault_head _ (noFault_tail _ hu)]
    rfl
  obtain ⟨cur, hloop2, hfind⟩ := CheckUsage_success w key lic usage hst hok
  rw [hloop] at hloop2
  cases hloop2
  exact ⟨hok, _, hfind, rfl⟩

/-- C10 at a submission of a large number, a string and a NaN for metrics without limit. -/
theorem C10_unlimited_metrics_witness :
    (service.CheckUsage sampleWorld "k1"
        [("unmetered_metric", .num (.fin 999)), ("label", .str "x"),
         ("ratio", .num .nan)]).1 = .returned none :=
  (C10_unlimited_metrics sampleWorld "k1" sampleLicense sampleType
    [("unmetered_metric", .num (.fin 999)), ("label", .str "x"), ("ratio", .num .nan)]
    (by decide) rfl (by decide) rfl rfl (by decide) (by decide)).1

/-! ## Non-numeric usage values -/

theorem CheckUsage_loop_not_done (w : World) (key : String) (lic : License)
    (usage : List (String × Value)) (hst : Stored w key lic)
    (hnot : ∀ c, service.usageLoop lic.UsageLimits lic.CurrentUsage usage ≠ .done c) :
    (service.CheckUsage w key usage).1 ≠ .returned none ∧
    ∃ lic2, findByKey (service.CheckUsage w key usage).2.licenses key = some lic2 ∧
      lic2.CurrentUsage = lic.CurrentUsage := by
  have hf := noFault_head _ hst.1
  have hk := hst.2
  obtain ⟨lic2, hk2, hlic2⟩ := Validate_findByKey (afterRead w) key lic hk
  have hcur : lic2.CurrentUsage = lic.CurrentUsage := by
    rcases hlic2 with h | ⟨t, h⟩ <;> rw [h]
  cases hv : (service.Validate (afterRead w) key).1.2 with
  | some e =>
    rw [CheckUsage_validate_err w key usage lic e hf hk hv]
    exact ⟨by simp, lic2, hk2, hcur⟩
  | none =>
    cases hloop : service.usageLoop lic.UsageLimits lic.CurrentUsage usage with
    | failed e =>
      rw [CheckUsage_loop_failed w key usage lic e hf hk hv hloop]
      exact ⟨by simp, lic2, hk2, hcur⟩
    | panicked =>
      rw [CheckUsage_loop_panicked w key usage lic hf hk hv hloop]
      exact ⟨by simp, lic2, hk2, hcur⟩
    | done c => exact absurd hloop (hnot c)

namespace service

theorem usageLoop_cons_invalid (limits cur : GoMap) (m : String) (v l : Value)
    (rest : List (String × Value)) (hl : limits.get m = some l) (hv : v.asFloat64 = none) :
    usageLoop limits cur ((m, v) :: rest) = .failed (invalidUsageValue m) := by
  simp [usageLoop, hl, hv]

theorem usageLoop_not_done_invalid (limits : GoMap) (m : String) (v l : Value)
    (hl : limits.get m = some l) (hv : v.asFloat64 = none) :
    ∀ (usage : List (String × Value)) (cur c : GoMap), (m, v) ∈ usage →
      usageLoop limits cur usage ≠ .done c
  | [], _, _, h => by simp at h
  | (m2, v2) :: rest, cur, c, h => by
    rcases List.mem_cons.1 h with h | h
    · cases h
      rw [usageLoop_cons_invalid limits cur m v l rest hl hv]
      simp
    · rw [usageLoop_cons]
      cases hl2 : limits.get m2 with
      | none => simpa using usageLoop_not_done_invalid limits m v l hl hv rest cur c h
      | some limit =>
        cases hv2 : v2.asFloat64 with
        | none => simp
        | some a2 =>
          cases hb : limit.asFloat64 with
          | none => simp [hb]
          | some b2 =>
            cases hgt2 : a2.gt b2 with
            | true => simp [hb, hgt2]
            | false =>
              cases cur with
              | none => simp [hb, hgt2]
              | some es =>
                simpa [hb, hgt2] using
                  usageLoop_not_done_invalid limits m v l hl hv rest _ c h

theorem usageLoop_invalid (limits : GoMap) (m : String) (v l : Value)
    (hl : limits.get m = some l) (hv : v.asFloat64 = none) :
    ∀ (usage : List (String × Value)) (es : Entries), (m, v) ∈ usage →
      (∀ m2 v2, (m2, v2) ∈ usage → (m2, v2) ≠ (m, v) → ∀ l2, limits.get m2 = some l2 →
        ∃ a b, v2 = .num a ∧ l2 = .num b ∧ a.gt b = false) →
      usageLoop limits (some es) usage = .failed (invalidUsageValue m)
  | [], _, h, _ => by simp at h
  | (m2, v2) :: rest, es, h, hothers => by
    by_cases heq : (m2, v2) = (m, v)
    · cases heq
      exact usageLoop_cons_invalid limits _ m v l rest hl hv
    · have hmem : (m, v) ∈ rest := by
        rcases List.mem_cons.1 h with h2 | h2
        · exact absurd h2.symm heq
        · exact h2
      have hrest : ∀ m3 v3, (m3, v3) ∈ rest → (m3, v3) ≠ (m, v) → ∀ l3,
          limits.get m3 = some l3 → ∃ a b, v3 = .num a ∧ l3 = .num b ∧ a.gt b = false :=
        fun m3 v3 h3 => hothers m3 v3 (List.mem_cons_of_mem _ h3)
      cases hl2 : limits.get m2 with
      | none =>
        rw [usageLoop_cons_unlimited limits _ m2 v2 rest hl2]
        exact usageLoop_invalid limits m v l hl hv rest es hmem hrest
      | some limit =>
        obtain ⟨a, b, hv2, hb, hgt⟩ := hothers m2 v2 (List.mem_cons_self _ _) heq limit hl2
        subst hv2 hb
        rw [usageLoop_cons_within limits es m2 a b rest hl2 hgt]
        exact usageLoop_invalid limits m v l hl hv rest _ hmem hrest

end service

/-- What `CheckUsage` needs besides the license to reach the invalid value of "seats": in a
store that does not hold the type of the license it fails with the error of the type lookup,
and for a license whose current-usage map is nil, with five API calls visited first, it does
not return. -/
theorem CheckUsage_invalid_value_boundary :
    Stored { sampleWorld with licenseTypes := [] } "k1" sampleLicense ∧
    (service.CheckUsage { sampleWorld with licenseTypes := [] } "k1"
        [("seats", .str "five")]).1 =
      .returned (some (.wrap "failed to get license type: " .RepoErrNotFound "")) ∧
    Stored { sampleWorld with licenses := [{ sampleLicense with CurrentUsage := none }] } "k1"
      { sampleLicense with CurrentUsage := none } ∧
    (service.CheckUsage
        { sampleWorld with licenses := [{ sampleLicense with CurrentUsage := none }] } "k1"
        [("api_calls", .num (.fin 5)), ("seats", .str "five")]).1 = .panicked := by
  decide

/-- C11. For a stored license and a submitted map in which a metric that has a limit carries
a value that is not a `float64`: `CheckUsage` does not succeed and the stored license keeps
its current usage; when the license is active (not revoked, not expired, flagged active, its
type fetched by `Validate`), its current-usage map is not nil and no other submitted metric
is at fault (each is without limit, or numeric and within its numeric limit), the error is
the one for an invalid usage value: `ErrInvalidInput` wrapped with the message that names the
metric. -/
theorem C11_invalid_usage_value (w : World) (key : String) (lic : License)
    (usage : List (String × Value)) (m : String) (v l : Value)
    (hst : Stored w key lic) (hm : (m, v) ∈ usage) (hv : v.asFloat64 = none)
    (hl : lic.UsageLimits.get m = some l) :
    (service.CheckUsage w key usage).1 ≠ .returned none ∧
    (∃ lic2, findByKey (service.CheckUsage w key usage).2.licenses key = some lic2 ∧
      lic2.CurrentUsage = lic.CurrentUsage) ∧
    (∀ lt es, lic.IsRevoked = false → w.now ≤ lic.ExpiryDate → lic.IsActive = true →
      (licenseTypeRepo.GetByID w lic.LicenseTypeID).1 = .ok lt →
      lic.CurrentUsage = some es →
      (∀ m2 v2, (m2, v2) ∈ usage → (m2, v2) ≠ (m, v) → ∀ l2,
        lic.UsageLimits.get m2 = some l2 →
        ∃ a b, v2 = .num a ∧ l2 = .num b ∧ a.gt b = false) →
      (service.CheckUsage w key usage).1 =
          .returned (some (.wrap "" .ErrInvalidInput
            (": invalid usage value type for metric " ++ m))) ∧
        GoError.Is (.wrap "" .ErrInvalidInput (": invalid usage value type for metric " ++ m))
          .ErrInvalidInput = true) := by
  obtain ⟨h1, h2⟩ := CheckUsage_loop_not_done w key lic usage hst
    (fun c => service.usageLoop_not_done_invalid _ m v l hl hv usage _ c hm)
  refine ⟨h1, h2, ?_⟩
  intro lt es hr he ha ht hcur hothers
  have hval := Validate_afterRead_ok w key lic lt hst hr he ha ht
  have hloop := service.usageLoop_invalid lic.UsageLimits m v l hl hv usage es hm hothers
  rw [← hcur] at hloop
  rw [CheckUsage_loop_failed w key usage lic _ (noFault_head _ hst.1) hst.2 hval hloop]
  exact ⟨rfl, by simp [GoError.Is]⟩

/-- C11 at a submission of five API calls and of a string for "seats". -/
theorem C11_invalid_usage_value_witness :
    (service.CheckUsage sampleWorld "k1"
        [("api_calls", .num (.fin 5)), ("seats", .str "five")]).1 =
      .returned (some (.wrap "" .ErrInvalidInput
        ": invalid usage value type for metric seats")) :=
  ((C11_invalid_usage_value sampleWorld "k1" sampleLicense
      [("api_calls", .num (.fin 5)), ("seats", .str "five")] "seats" (.str "five")
      (.num (.fin 10)) (by decide) (by decide) rfl rfl).2.2
    sampleType [] rfl (by decide) rfl rfl rfl
    (by
      intro m2 v2 hm2 hne l2 hl2
      simp only [List.mem_cons, Prod.mk.injEq, List.mem_singleton, List.not_mem_nil,
        or_false] at hm2
      rcases hm2 with ⟨rfl, rfl⟩ | ⟨rfl, rfl⟩
      · exact ⟨.fin 5, .fin 100, rfl, (Option.some.inj hl2).symm, rfl⟩
      · exact absurd rfl hne)).1

/-! ## `Create`, step by step -/

theorem timeNow_typeFaults_congr (w : World) (fs : List Bool) :
    ({ w with typeFaults := fs } : World).timeNow =
      (w.timeNow.1, { w.timeNow.2 with typeFaults := fs }) := by
  obtain ⟨ls, lts, acts, now, later, f1, f2, f3, f4, f5, f6⟩ := w
  cases later <;> rfl

@[simp] theorem beforeInsert_licenses (w : World) : (beforeInsert w).licenses = w.licenses := by
  simp [beforeInsert]

@[simp] theorem beforeInsert_activities (w : World) :
    (beforeInsert w).activities = w.activities := by
  simp [beforeInsert]

@[simp] theorem beforeInsert_createFaults (w : World) :
    (beforeInsert w).createFaults = w.createFaults := by
  simp [beforeInsert]

theorem Create_invalid (lib : Lib) (w : World) (input : License) (e : GoError)
    (hv : service.validateLicense input = some e) :
    service.Create lib w input = (.error e, w) := by
  simp [service.Create, hv]

theorem generateLicenseKey_eq (lib : Lib) (license : License) (t : Time) :
    service.generateLicenseKey lib license t =
      ((service.generateLicenseKey lib license t).1, none) := by
  unfold service.generateLicenseKey
  dsimp only

theorem Create_eq (lib : Lib) (w : World) (input : License) (lt : LicenseType)
    (hv : service.validateLicense input = none) (htf : w.typeFaults.headD false = false)
    (ht : findType w.licenseTypes input.LicenseTypeID = some lt) :
    service.Create lib w input =
      licenseRepo.Create (beforeInsert w) (createdRecord lib w input lt) := by
  unfold service.Create licenseTypeRepo.GetByID
  rw [hv]
  dsimp only
  rw [htf, ht]
  simp only [Bool.false_eq_true, if_false]
  rw [generateLicenseKey_eq]
  dsimp only
  unfold beforeInsert createdRecord secondReading
  simp only [Bool.false_eq_true, if_false, timeNow_typeFaults_congr]
  cases hu : input.UsageLimits <;> simp

theorem Create_type_fault (lib : Lib) (w : World) (input : License)
    (hv : service.validateLicense input = none) (htf : w.typeFaults.headD false = true) :
    service.Create lib w input =
      (.error (.wrap "failed to get license type: "
          (.wrap "failed to get license type: " .driver "") ""),
        { w with typeFaults := w.typeFaults.tail }) := by
  unfold service.Create licenseTypeRepo.GetByID
  rw [hv]
  dsimp only
  rw [htf]
  simp only [if_true]

theorem Create_type_missing (lib : Lib) (w : World) (input : License)
    (hv : service.validateLicense input = none) (htf : w.typeFaults.headD false = false)
    (ht : findType w.licenseTypes input.LicenseTypeID = none) :
    service.Create lib w input =
      (.error (.wrap "failed to get license type: " .RepoErrNotFound ""),
        { w with typeFaults := w.typeFaults.tail }) := by
  unfold service.Create licenseTypeRepo.GetByID
  rw [hv]
  dsimp only
  rw [htf, ht]
  simp only [Bool.false_eq_true, if_false]

theorem repoCreate_ok (w : World) (rec lic : License)
    (h : (licenseRepo.Create w rec).1 = .ok lic) :
    w.createFaults.headD false = false ∧ lic = licenseRepo.withDefaults w.licenses rec ∧
    (∀ l ∈ w.licenses, l.ID ≠ lic.ID ∧ l.LicenseKey ≠ lic.LicenseKey) ∧
    licenseRepo.Create w rec =
      (.ok lic, { w with createFaults := w.createFaults.tail,
                         licenses := w.licenses ++ [licenseRepo.tableRow lic] }) := by
  unfold licenseRepo.Create at h ⊢
  dsimp only at h ⊢
  cases hf : w.createFaults.headD false with
  | true => rw [hf] at h; simp at h
  | false =>
    rw [hf] at h
    simp only [Bool.false_eq_true, if_false] at h ⊢
    split at h
    · simp at h
    · rename_i hdup
      have hlic : licenseRepo.withDefaults w.licenses rec = lic := by simpa using h
      subst hlic
      rw [if_neg hdup]
      refine ⟨trivial, rfl, ?_, rfl⟩
      intro l hl
      have := fun hh => hdup (List.any_eq_true.2 ⟨l, hl, hh⟩)
      simp only [Bool.or_eq_true, beq_iff_eq] at this
      exact ⟨fun h1 => this (Or.inl h1), fun h2 => this (Or.inr h2)⟩

theorem Create_ok (lib : Lib) (w : World) (input lic : License)
    (h : (service.Create lib w input).1 = .ok lic) :
    ∃ lt, service.validateLicense input = none ∧ w.typeFaults.headD false = false ∧
      findType w.licenseTypes input.LicenseTypeID = some lt ∧
      lic = licenseRepo.withDefaults w.licenses (createdRecord lib w input lt) ∧
      (∀ l ∈ w.licenses, l.ID ≠ lic.ID ∧ l.LicenseKey ≠ lic.LicenseKey) ∧
      service.Create lib w input =
        (.ok lic, { beforeInsert w with
                    createFaults := w.createFaults.tail,
                    licenses := w.licenses ++ [licenseRepo.tableRow lic] }) := by
  cases hv : service.validateLicense input with
  | some e => rw [Create_invalid lib w input e hv] at h; simp at h
  | none =>
    cases htf : w.typeFaults.headD false with
    | true => rw [Create_type_fault lib w input hv htf] at h; simp at h
    | false =>
      cases ht : findType w.licenseTypes input.LicenseTypeID with
      | none => rw [Create_type_missing lib w input hv htf ht] at h; simp at h
      | some lt =>
        rw [Create_eq lib w input lt hv htf ht] at h ⊢
        obtain ⟨-, h2, h3, h4⟩ := repoCreate_ok _ _ _ h
        rw [beforeInsert_licenses] at h2 h3
        refine ⟨lt, rfl, rfl, rfl, h2, h3, ?_⟩
        rw [h4, beforeInsert_licenses, beforeInsert_createFaults]

theorem created_StartDate (ls : List License) (lib : Lib) (w : World) (input : License)
    (lt : LicenseType) :
    (licenseRepo.withDefaults ls (createdRecord lib w input lt)).StartDate = w.now := rfl

theorem created_ExpiryDate (ls : List License) (lib : Lib) (w : World) (input : License)
    (lt : LicenseType) :
    (licenseRepo.withDefaults ls (createdRecord lib w input lt)).ExpiryDate =
      Time.AddDate w.now lt.DurationDays := rfl

set_option maxRecDepth 100000 in
theorem Create_sample :
    (service.Create goLib emptyWorld (triadInput 1 7 2)).1 = .ok createdSample := by
  rfl

/-! ## Creation -/

namespace Time

theorem wrap64_of_range (x : Int) (h1 : -(2 ^ 63) ≤ x) (h2 : x < 2 ^ 63) : wrap64 x = x := by
  unfold wrap64
  omega

theorem AddDate_of_noWrap (t : Time) (days : Int) (h : NoWrap t days) :
    AddDate t days = t + days * nanosPerDay := by
  unfold AddDate
  rw [wrap64_of_range _ h.1 h.2]
  show (_ : Int) = _
  simp only [nanosPerDay, unixToInternal]
  have := Int.ediv_add_emod t 1000000000
  omega

theorem noWrap_aux (t days : Int) (h1 : 0 ≤ t) (h2 : t < 2 ^ 62)
    (h3 : -100000000000000 ≤ days) (h4 : days ≤ 100000000000000) :
    -(2 ^ 63) ≤ t / 1000000000 + 62135596800 + days * 86400 ∧
      t / 1000000000 + 62135596800 + days * 86400 < 2 ^ 63 := by
  constructor <;> omega

theorem noWrap_of_bounds (t : Time) (days : Int) (h1 : 0 ≤ t) (h2 : t < 2 ^ 62)
    (h3 : -100000000000000 ≤ days) (h4 : days ≤ 100000000000000) : NoWrap t days :=
  noWrap_aux t days h1 h2 h3 h4

theorem floor_aux (t : Int) :
    t - t % (86400 * 1000000000) ≤ t ∧ t < t - t % (86400 * 1000000000) + 86400 * 1000000000 := by
  constructor <;> omega

theorem dateOnly_le (t : Time) : dateOnly t ≤ t := (floor_aux t).1

theorem lt_dateOnly_add (t : Time) : t < dateOnly t + nanosPerDay := (floor_aux t).2

theorem dateOnly_add_days (t : Time) (days : Int) :
    dateOnly (t + days * nanosPerDay) = dateOnly t + days * nanosPerDay := by
  simp only [dateOnly]
  rw [Int.add_mul_emod_self]
  ring
end Time

theorem findByKey_created (ls : List License) (lic : License)
    (h : ∀ l ∈ ls, l.ID ≠ lic.ID ∧ l.LicenseKey ≠ lic.LicenseKey) :
    findByKey (ls ++ [licenseRepo.tableRow lic]) lic.LicenseKey =
      some (licenseRepo.tableRow lic) := by
  unfold findByKey
  rw [List.find?_append]
  have : ls.find? (fun l => l.LicenseKey == lic.LicenseKey) = none := by
    rw [List.find?_eq_none]
    intro x hx hx2
    exact (h x hx).2 (by simpa using hx2)
  rw [this]
  simp [licenseRepo.tableRow]

set_option maxRecDepth 100000 in
/-- C12, counterexample. With a license type of zero days, `Create` succeeds and returns a
license whose expiry date is its start date, not a later one. With a license type of
`2 ^ 63 - 1` days, a positive number, the seconds of the date wrap around: `Create` succeeds
and returns a license whose expiry date is one day before its start date. -/
theorem C12_counterexample :
    (service.Create goLib
        { emptyWorld with licenseTypes := [{ sampleType with DurationDays := 0 }] }
        (triadInput 1 7 2)).1.toOption.map (fun l => (l.StartDate, l.ExpiryDate)) =
      some (1500, 1500) ∧
    (service.Create goLib
        { emptyWorld with licenseTypes := [{ sampleType with DurationDays := 2 ^ 63 - 1 }] }
        (triadInput 1 7 2)).1.toOption.map (fun l => (l.StartDate, l.ExpiryDate)) =
      some (1500, 1500 - Time.nanosPerDay) := by
  decide!

/-- C12, amended. For a license that a successful `Create` returns and the license type it
references: the start date is the clock reading of the creation and the expiry date is
`AddDate` of it by the duration of the type; the license table holds under its key the
record with the two dates cut to their day. When the seconds of `AddDate` do not wrap
around, the expiry date minus the start date is the duration of the type in days of 24
hours, for the record returned and for the row stored, and the expiry date is strictly after
the start date exactly when that duration is positive. They do not wrap around for a
duration of at most `10 ^ 14` days, in either direction, at a reading of the clock between
the Unix epoch and `2 ^ 62` nanoseconds after it. -/
theorem C12_dates (lib : Lib) (w : World) (input lic : License) (lt : LicenseType)
    (h : (service.Create lib w input).1 = .ok lic)
    (ht : findType w.licenseTypes input.LicenseTypeID = some lt) :
    lic.StartDate = w.now ∧
    lic.ExpiryDate = Time.AddDate w.now lt.DurationDays ∧
    findByKey (service.Create lib w input).2.licenses lic.LicenseKey =
      some (licenseRepo.tableRow lic) ∧
    (licenseRepo.tableRow lic).StartDate = Time.dateOnly w.now ∧
    (Time.NoWrap w.now lt.DurationDays →
      lic.ExpiryDate - lic.StartDate = lt.DurationDays * Time.nanosPerDay ∧
      (lic.StartDate < lic.ExpiryDate ↔ 0 < lt.DurationDays) ∧
      (licenseRepo.tableRow lic).ExpiryDate - (licenseRepo.tableRow lic).StartDate =
        lt.DurationDays * Time.nanosPerDay) ∧
    (0 ≤ w.now → w.now < 2 ^ 62 → -100000000000000 ≤ lt.DurationDays →
      lt.DurationDays ≤ 100000000000000 → Time.NoWrap w.now lt.DurationDays) := by
  obtain ⟨lt2, -, -, ht2, hlic, hnew, hw⟩ := Create_ok lib w input lic h
  rw [ht] at ht2
  cases ht2
  have hs : lic.StartDate = w.now := by rw [hlic, created_StartDate]
  have he : lic.ExpiryDate = Time.AddDate w.now lt.DurationDays := by
    rw [hlic, created_ExpiryDate]
  refine ⟨hs, he, ?_, ?_, ?_, Time.noWrap_of_bounds w.now lt.DurationDays⟩
  · rw [hw]
    exact findByKey_created w.licenses lic hnew
  · show Time.dateOnly lic.StartDate = Time.dateOnly w.now
    rw [hs]
  · intro hnw
    have hadd := Time.AddDate_of_noWrap w.now lt.DurationDays hnw
    have hpos : (0 : Int) < Time.nanosPerDay := by decide
    have hrow : (licenseRepo.tableRow lic).ExpiryDate -
        (licenseRepo.tableRow lic).StartDate = lt.DurationDays * Time.nanosPerDay := by
      show Time.dateOnly lic.ExpiryDate - Time.dateOnly lic.StartDate = _
      rw [he, hs, hadd, Time.dateOnly_add_days]
      ring
    rw [he, hs, hadd]
    refine ⟨by ring, ?_, hrow⟩
    constructor
    · intro h2
      have h3 : 0 < lt.DurationDays * Time.nanosPerDay := by linarith
      exact (pos_iff_pos_of_mul_pos h3).2 hpos
    · intro h2
      have := mul_pos h2 hpos
      linarith

/-- C12, amended, at a creation at time 1500 with the type of thirty days. -/
theorem C12_dates_witness :
    createdSample.ExpiryDate - createdSample.StartDate = 30 * Time.nanosPerDay ∧
    (createdSample.StartDate < createdSample.ExpiryDate ↔ (0 : Int) < 30) ∧
    (licenseRepo.tableRow createdSample).ExpiryDate -
        (licenseRepo.tableRow createdSample).StartDate = 30 * Time.nanosPerDay :=
  (C12_dates goLib emptyWorld (triadInput 1 7 2) createdSample sampleType Create_sample
    rfl).2.2.2.2.1 (by decide)

theorem created_CurrentUsage (ls : List License) (lib : Lib) (w : World) (input : License)
    (lt : LicenseType) :
    (licenseRepo.withDefaults ls (createdRecord lib w input lt)).CurrentUsage = GoMap.make :=
  rfl

theorem created_UsageLimits (ls : List License) (lib : Lib) (w : World) (input : License)
    (lt : LicenseType) :
    (licenseRepo.withDefaults ls (createdRecord lib w input lt)).UsageLimits =
      if (if input.UsageLimits = none then lt.Features else input.UsageLimits) = none then
        GoMap.make
      else (if input.UsageLimits = none then lt.Features else input.UsageLimits) := rfl

theorem findByKey_append_new (ls : List License) (lic : License)
    (h : ∀ l ∈ ls, l.LicenseKey ≠ lic.LicenseKey) :
    findByKey (ls ++ [lic]) lic.LicenseKey = some lic := by
  unfold findByKey
  rw [List.find?_append]
  have : ls.find? (fun l => l.LicenseKey == lic.LicenseKey) = none := by
    rw [List.find?_eq_none]
    intro x hx hx2
    exact h x hx (by simpa using hx2)
  simp [this]

/-- C13. For a license that a successful `Create` returns: the store then holds under its
key the row of that record, which has its usage limits and its current usage; its usage
limits are the caller's override when one is supplied (a non-nil map), and otherwise the
feature map of the license type (the empty map when that one is nil); its current usage is
the empty map, whatever the caller supplied. -/
theorem C13_created_usage (lib : Lib) (w : World) (input lic : License) (lt : LicenseType)
    (h : (service.Create lib w input).1 = .ok lic)
    (ht : findType w.licenseTypes input.LicenseTypeID = some lt) :
    findByKey (service.Create lib w input).2.licenses lic.LicenseKey =
      some (licenseRepo.tableRow lic) ∧
    (licenseRepo.tableRow lic).UsageLimits = lic.UsageLimits ∧
    (licenseRepo.tableRow lic).CurrentUsage = lic.CurrentUsage ∧
    (input.UsageLimits ≠ none → lic.UsageLimits = input.UsageLimits) ∧
    (input.UsageLimits = none →
      (lt.Features ≠ none → lic.UsageLimits = lt.Features) ∧
      ∀ k, lic.UsageLimits.get k = lt.Features.get k) ∧
    lic.CurrentUsage = GoMap.make := by
  obtain ⟨lt2, -, -, ht2, hlic, hnew, hw⟩ := Create_ok lib w input lic h
  rw [ht] at ht2
  cases ht2
  refine ⟨?_, rfl, rfl, ?_, ?_, ?_⟩
  · rw [hw]
    exact findByKey_created w.licenses lic hnew
  · intro ho
    rw [hlic, created_UsageLimits, if_neg ho, if_neg ho]
  · intro ho
    rw [hlic, created_UsageLimits, if_pos ho]
    constructor
    · intro hf
      rw [if_neg hf]
    · intro k
      cases hf : lt.Features with
      | none => rfl
      | some f => rfl
  · rw [hlic, created_CurrentUsage]

set_option maxRecDepth 100000 in
/-- C13 at a creation with an override of three seats, the caller also supplying a current
usage of 99 seats: the stored limits are the override and the stored current usage is
empty. -/
theorem C13_created_usage_witness :
    ({ createdSample with UsageLimits := some [("seats", .num (.fin 3))] } : License).UsageLimits =
        some [("seats", .num (.fin 3))] ∧
      ({ createdSample with UsageLimits := some [("seats", .num (.fin 3))] } :
        License).CurrentUsage = GoMap.make :=
  ⟨(C13_created_usage goLib emptyWorld
      { triadInput 1 7 2 with UsageLimits := some [("seats", .num (.fin 3))],
                              CurrentUsage := some [("seats", .num (.fin 99))] }
      { createdSample with UsageLimits := some [("seats", .num (.fin 3))] } sampleType
      (by rfl) rfl).2.2.2.1 (by decide),
   (C13_created_usage goLib emptyWorld
      { triadInput 1 7 2 with UsageLimits := some [("seats", .num (.fin 3))],
                              CurrentUsage := some [("seats", .num (.fin 99))] }
      { createdSample with UsageLimits := some [("seats", .num (.fin 3))] } sampleType
      (by rfl) rfl).2.2.2.2.2⟩

/-- C14. When the application, the license type or the client of the input is the nil
identifier, `Create` fails with `ErrInvalidInput` wrapped with a message, and it leaves the
world exactly as it was: no repository call is made and the clock is not read. When the
three are not nil, the validation of the input does not fail. -/
theorem C14_create_invalid_input (lib : Lib) (w : World) (input : License) :
    (input.ApplicationID = uuid.Nil ∨ input.LicenseTypeID = uuid.Nil ∨
        input.ClientID = uuid.Nil →
      (service.Create lib w input).2 = w ∧
      ∃ msg, (service.Create lib w input).1 = .error (.wrap "" .ErrInvalidInput msg) ∧
        GoError.Is (.wrap "" .ErrInvalidInput msg) .ErrInvalidInput = true) ∧
    (input.ApplicationID ≠ uuid.Nil → input.LicenseTypeID ≠ uuid.Nil →
        input.ClientID ≠ uuid.Nil → service.validateLicense input = none) := by
  constructor
  · intro h
    have hv : ∃ msg, service.validateLicense input = some (.wrap "" .ErrInvalidInput msg) := by
      unfold service.validateLicense
      by_cases h1 : input.ApplicationID = uuid.Nil
      · exact ⟨_, by rw [if_pos h1]⟩
      · by_cases h2 : input.LicenseTypeID = uuid.Nil
        · exact ⟨_, by rw [if_neg h1, if_pos h2]⟩
        · have h3 : input.ClientID = uuid.Nil := by
            rcases h with h | h | h
            · exact absurd h h1
            · exact absurd h h2
            · exact h
          exact ⟨_, by rw [if_neg h1, if_neg h2, if_pos h3]⟩
    obtain ⟨msg, hmsg⟩ := hv
    rw [Create_invalid lib w input _ hmsg]
    exact ⟨rfl, msg, rfl, by simp [GoError.Is]⟩
  · intro h1 h2 h3
    unfold service.validateLicense
    rw [if_neg h1, if_neg h2, if_neg h3]

/-- C14 at an input without client, in a store whose every pending call would fail. -/
theorem C14_create_invalid_input_witness :
    (service.Create goLib
        { emptyWorld with typeFaults := [true], createFaults := [true] } (triadInput 1 7 0)).2 =
      { emptyWorld with typeFaults := [true], createFaults := [true] } :=
  ((C14_create_invalid_input goLib
      { emptyWorld with typeFaults := [true], createFaults := [true] } (triadInput 1 7 0)).1
    (Or.inr (Or.inr rfl))).1

namespace sha256

theorem isLowerHex_hexDigit (n : Nat) : isLowerHex (hexDigit n) = true := by
  unfold hexDigit
  have h : n % 16 < 16 := Nat.mod_lt _ (by decide)
  generalize n % 16 = r at h
  interval_cases r <;> decide

theorem mem_hexWord (x : Nat) (c : Char) (h : c ∈ hexWord x) : isLowerHex c = true := by
  unfold hexWord at h
  simp only [List.mem_cons, List.mem_singleton, List.not_mem_nil, or_false] at h
  rcases h with h | h | h | h | h | h | h | h <;> rw [h] <;> exact isLowerHex_hexDigit _

theorem length_hexWord (x : Nat) : (hexWord x).length = 8 := rfl

theorem sum_hexDigest : HexDigest sum := by
  intro s
  constructor
  · show (hex (digest (bytes s))).data.length = 64
    unfold hex
    simp only [List.length_append, length_hexWord]
  · intro c hc
    unfold sum hex at hc
    simp only [List.mem_append] at hc
    rcases hc with ((((((hc | hc) | hc) | hc) | hc) | hc) | hc) | hc <;>
      exact mem_hexWord _ c hc

set_option maxRecDepth 100000 in
/-- The test vectors of FIPS 180-4 for the message "abc" and for the empty message. -/
theorem sum_test_vectors :
    sum "abc" = "ba7816bf8f01cfea414140de5dae2223b00361a396177a9cb410ff61f20015ad" ∧
    sum "" = "e3b0c44298fc1c149afbf4c8996fb92427ae41e4649b934ca495991b7852b855" := by
  decide!

end sha256

theorem generateLicenseKey_fst (lib : Lib) (license : License) (t : Time) :
    (service.generateLicenseKey lib license t).1 =
      (lib.sha256Hex
        (lib.uuidString license.ApplicationID ++ "-" ++ lib.uuidString license.ClientID ++
          "-" ++ lib.uuidString license.LicenseTypeID ++ "-" ++
          toString t.UnixNano)).take 32 := by
  unfold service.generateLicenseKey
  dsimp only

theorem generateLicenseKey_snd (lib : Lib) (license : License) (t : Time) :
    (service.generateLicenseKey lib license t).2 = none := by
  unfold service.generateLicenseKey
  dsimp only

/-- C17. With a digest function that returns 64 lowercase hexadecimal digits, as SHA-256
with `hex.EncodeToString` does, `generateLicenseKey` returns, for every license and every
reading of the clock, no error and a key of exactly 32 characters, each a lowercase
hexadecimal digit: the first 32 digits of the digest of the application, the client and the
license type identifiers and the nanosecond reading, joined by "-". -/
theorem C17_key_format (lib : Lib) (hlib : HexDigest lib.sha256Hex) (license : License)
    (t : Time) :
    (service.generateLicenseKey lib license t).2 = none ∧
    (service.generateLicenseKey lib license t).1.length = 32 ∧
    (∀ c ∈ (service.generateLicenseKey lib license t).1.data, isLowerHex c = true) ∧
    (service.generateLicenseKey lib license t).1 =
      (lib.sha256Hex
        (lib.uuidString license.ApplicationID ++ "-" ++ lib.uuidString license.ClientID ++
          "-" ++ lib.uuidString license.LicenseTypeID ++ "-" ++
          toString t.UnixNano)).take 32 := by
  have hd := hlib (lib.uuidString license.ApplicationID ++ "-" ++
    lib.uuidString license.ClientID ++ "-" ++ lib.uuidString license.LicenseTypeID ++ "-" ++
    toString t.UnixNano)
  have hk := generateLicenseKey_fst lib license t
  have he := generateLicenseKey_snd lib license t
  refine ⟨he, ?_, ?_, hk⟩
  · rw [hk, ← String.length_data, String.data_take, List.length_take]
    have := hd.1
    rw [← String.length_data] at this
    omega
  · intro c hc
    rw [hk, String.data_take] at hc
    exact hd.2 c (List.mem_of_mem_take hc)

set_option maxRecDepth 100000 in
/-- C17 with the library functions of Go, for the triad (1, 7, 2) at the reading 1600. -/
theorem C17_key_format_witness :
    (service.generateLicenseKey goLib (triadInput 1 7 2) 1600).1.length = 32 ∧
    (service.generateLicenseKey goLib (triadInput 1 7 2) 1600).1 =
      "1421910d9e4dcd8f48a6f59135d92c28" ∧
    sha256.sum ("00000000-0000-0000-0000-000000000001-00000000-0000-0000-0000-000000000002-" ++
        "00000000-0000-0000-0000-000000000007-1600") =
      "1421910d9e4dcd8f48a6f59135d92c2877fb0136edb0b91b76052b4cb1c733f5" :=
  ⟨(C17_key_format goLib sha256.sum_hexDigest (triadInput 1 7 2) 1600).2.1, by decide!,
    by decide!⟩

/-! ## The string the key generator hashes -/

theorem repoCreate_collision (w : World) (rec : License)
    (h : ∃ l ∈ w.licenses, l.LicenseKey = rec.LicenseKey) :
    licenseRepo.Create w rec =
      (.error (.wrap "failed to create license: " .driver ""),
        { w with createFaults := w.createFaults.tail }) := by
  obtain ⟨l, hl, hk⟩ := h
  have hany : w.licenses.any (fun l =>
      l.ID == (licenseRepo.withDefaults w.licenses rec).ID ||
        l.LicenseKey == (licenseRepo.withDefaults w.licenses rec).LicenseKey) = true := by
    rw [List.any_eq_true]
    refine ⟨l, hl, ?_⟩
    have : (licenseRepo.withDefaults w.licenses rec).LicenseKey = rec.LicenseKey := rfl
    rw [this, hk]
    simp
  unfold licenseRepo.Create
  dsimp only
  rw [hany]
  cases w.createFaults.headD false <;> rfl

set_option maxRecDepth 100000 in
/-- C18 fails as stated. The store holds a license under the key generated for the triad
(1, 7, 2) at the reading 1600, and the key generated at the next reading, 1700, is free.
`Create` fails with the error of the one insert: the clock has been read twice (once for the
dates, once for the key), one insert has been attempted, and the store holds the licenses it
held. -/
theorem C18_counterexample :
    (service.Create goLib collidingWorld (triadInput 1 7 2)).1 =
      .error (.wrap "failed to create license: " .driver "") ∧
    (service.Create goLib collidingWorld (triadInput 1 7 2)).2.licenses =
      collidingWorld.licenses ∧
    (service.Create goLib collidingWorld (triadInput 1 7 2)).2.createFaults = [false] ∧
    (service.Create goLib collidingWorld (triadInput 1 7 2)).2.now = 1700 ∧
    (service.Create goLib collidingWorld (triadInput 1 7 2)).2.later = [] ∧
    findByKey collidingWorld.licenses
      (service.generateLicenseKey goLib (triadInput 1 7 2) 1700).1 = none :=
  ⟨by rfl, by rfl, by rfl, by rfl, by rfl, by rfl⟩

/-- C18, amended. When the key generated for a new license is the key of a license the store
holds, `Create` fails with the storage error of that one insert, "failed to create license: "
wrapping the error of the database: no other key is generated and no second insert is
attempted (the clock has been read twice and one entry of the insert schedule is used), and
the tables are unchanged. -/
theorem C18_no_retry (lib : Lib) (w : World) (input : License) (lt : LicenseType)
    (hv : service.validateLicense input = none) (htf : w.typeFaults.headD false = false)
    (ht : findType w.licenseTypes input.LicenseTypeID = some lt)
    (hcol : ∃ l ∈ w.licenses, l.LicenseKey = (createdRecord lib w input lt).LicenseKey) :
    service.Create lib w input =
      (.error (.wrap "failed to create license: " .driver ""),
        { beforeInsert w with createFaults := w.createFaults.tail }) ∧
    (service.Create lib w input).2.licenses = w.licenses ∧
    (service.Create lib w input).2.activities = w.activities := by
  have h := Create_eq lib w input lt hv htf ht
  have hcol2 : ∃ l ∈ (beforeInsert w).licenses,
      l.LicenseKey = (createdRecord lib w input lt).LicenseKey := by
    rw [beforeInsert_licenses]
    exact hcol
  rw [repoCreate_collision (beforeInsert w) _ hcol2, beforeInsert_createFaults] at h
  rw [h]
  exact ⟨rfl, beforeInsert_licenses w, beforeInsert_activities w⟩

set_option maxRecDepth 100000 in
/-- C18, amended, in the store that holds the key generated at the reading 1600. -/
theorem C18_no_retry_witness :
    service.Create goLib collidingWorld (triadInput 1 7 2) =
      (.error (.wrap "failed to create license: " .driver ""),
        { beforeInsert collidingWorld with createFaults := [false] }) :=
  (C18_no_retry goLib collidingWorld (triadInput 1 7 2) sampleType (by rfl) (by rfl) (by rfl)
    ⟨{ sampleLicense with LicenseKey := "1421910d9e4dcd8f48a6f59135d92c28" },
      List.mem_singleton.mpr rfl, by rfl⟩).1

/-! ## A key the store does not hold -/

theorem Validate_absent (w : World) (key : String)
    (hf : w.getByKeyFaults.headD false = false) (hk : findByKey w.licenses key = none) :
    service.Validate w key = ((none, some .ErrLicenseInvalid), afterRead w) := by
  have hf2 : w.getByKeyFaults.head?.getD false = false := by simpa using hf
  simp [service.Validate, licenseRepo.GetByKey, hf2, hk, afterRead]

theorem Validate_absent_payload (w : World) (key : String)
    (hk : findByKey w.licenses key = none) : (service.Validate w key).1.1 = none := by
  unfold service.Validate licenseRepo.GetByKey
  cases hf : w.getByKeyFaults.head?.getD false <;> simp [hf, hk]

theorem Validate_failure_payload (w : World) (key : String) (lic : License) (e : GoError)
    (hk : findByKey w.licenses key = some lic)
    (he : (service.Validate w key).1.2 = some e)
    (hkind : e.Is .ErrLicenseInvalid = true ∨ e.Is .ErrLicenseExpired = true ∨
      e.Is .ErrLicenseRevoked = true) :
    ∃ r, (service.Validate w key).1.1 = some r ∧ r.Valid = false ∧
      r.ExpiresAt = lic.ExpiryDate := by
  unfold service.Validate licenseRepo.GetByKey licenseTypeRepo.GetByID at *
  cases hf : w.getByKeyFaults.head?.getD false
  · simp [hf, hk] at he ⊢
    cases hr : lic.IsRevoked
    · simp [hr] at he ⊢
      by_cases hx : Time.After w.now lic.ExpiryDate
      · simp [hx]
      · simp [hx] at he ⊢
        cases ha : lic.IsActive
        · simp [ha]
        · simp [ha] at he ⊢
          cases htf : w.typeFaults.head?.getD false
          · simp [htf] at he ⊢
            cases ht : findType w.licenseTypes lic.LicenseTypeID with
            | none =>
              simp [ht] at he
              subst he
              simp [GoError.Is] at hkind
            | some lt => simp [ht] at he
          · simp [htf] at he
            subst he
            simp [GoError.Is] at hkind
    · simp [hr]
  · simp [hf] at he
    subst he
    simp [GoError.Is] at hkind

/-- C19. When reads by key do not fail and the store holds no license under the key,
`Validate` fails with `ErrLicenseInvalid`, an error that is neither the `ErrNotFound` of the
services nor that of the repositories, with no result; the tables of licenses, of license
types and of activities are as before, the read being all that happened. -/
theorem C19_absent_key (w : World) (key : String)
    (hf : w.getByKeyFaults.headD false = false) (hk : findByKey w.licenses key = none) :
    (service.Validate w key).1 = (none, some .ErrLicenseInvalid) ∧
    GoError.Is .ErrLicenseInvalid .ErrNotFound = false ∧
    GoError.Is .ErrLicenseInvalid .RepoErrNotFound = false ∧
    (service.Validate w key).2 = afterRead w ∧
    (service.Validate w key).2.licenses = w.licenses ∧
    (service.Validate w key).2.licenseTypes = w.licenseTypes ∧
    (service.Validate w key).2.activities = w.activities := by
  rw [Validate_absent w key hf hk]
  exact ⟨rfl, by decide, by decide, rfl, rfl, rfl, rfl⟩

/-- C19 at the key "missing", which `sampleWorld` does not hold. -/
theorem C19_absent_key_witness :
    (service.Validate sampleWorld "missing").1 = (none, some .ErrLicenseInvalid) ∧
    (service.Validate sampleWorld "missing").2.licenses = [sampleLicense] ∧
    (service.Validate sampleWorld "missing").2.activities = [] :=
  have h := C19_absent_key sampleWorld "missing" (by decide) (by decide)
  ⟨h.1, h.2.2.2.2.1, h.2.2.2.2.2.2⟩

/-- C20 fails as stated. For the key "absent", which `sampleWorld` does not hold, `Validate`
fails with `ErrLicenseInvalid` and returns no result at all (Go `nil`), so no payload whose
valid field is false. -/
theorem C20_counterexample :
    (service.Validate sampleWorld "absent").1.2 = some .ErrLicenseInvalid ∧
    (service.Validate sampleWorld "absent").1.1 = none ∧
    ¬ ∃ r, (service.Validate sampleWorld "absent").1.1 = some r ∧ r.Valid = false := by
  decide

/-- C20, amended. Whenever `Validate` fails with an error that is `ErrLicenseInvalid`,
`ErrLicenseExpired` or `ErrLicenseRevoked`: for a key the store holds, it also returns a
result whose valid field is false (and whose expiry is that of the stored license); for a key
the store does not hold, it returns no result, and the error is `ErrLicenseInvalid`. -/
theorem C20_failure_payload (w : World) (key : String) (e : GoError)
    (he : (service.Validate w key).1.2 = some e)
    (hkind : e.Is .ErrLicenseInvalid = true ∨ e.Is .ErrLicenseExpired = true ∨
      e.Is .ErrLicenseRevoked = true) :
    (∀ lic, findByKey w.licenses key = some lic →
      ∃ r, (service.Validate w key).1.1 = some r ∧ r.Valid = false ∧
        r.ExpiresAt = lic.ExpiryDate) ∧
    (findByKey w.licenses key = none →
      (service.Validate w key).1.1 = none ∧ e = .ErrLicenseInvalid) := by
  refine ⟨fun lic hk => Validate_failure_payload w key lic e hk he hkind, fun hk => ?_⟩
  refine ⟨Validate_absent_payload w key hk, ?_⟩
  cases hf : w.getByKeyFaults.headD false with
  | false =>
    rw [Validate_absent w key hf hk] at he
    exact (Option.some.inj he).symm
  | true =>
    have hf2 : w.getByKeyFaults.head?.getD false = true := by simpa using hf
    simp [service.Validate, licenseRepo.GetByKey, hf2] at he
    subst he
    simp [GoError.Is] at hkind

/-- C20, amended, at a stored license past its expiry date and at a key the store does not
hold. -/
theorem C20_failure_payload_witness :
    (∃ r, (service.Validate
        { sampleWorld with licenses := [{ sampleLicense with ExpiryDate := 1200 }] } "k1").1.1 =
          some r ∧ r.Valid = false ∧ r.ExpiresAt = 1200) ∧
    (service.Validate sampleWorld "absent").1.1 = none :=
  ⟨(C20_failure_payload
      { sampleWorld with licenses := [{ sampleLicense with ExpiryDate := 1200 }] } "k1"
      .ErrLicenseExpired (by decide) (by decide)).1
      { sampleLicense with ExpiryDate := 1200 } (by decide),
    ((C20_failure_payload sampleWorld "absent" .ErrLicenseInvalid (by decide) (by decide)).2
      (by decide)).1⟩

/-! ## What a successful `Validate` leaves -/

theorem IsZero_zero : Time.IsZero Time.zero = true := by decide

theorem timeNow_getByKeyFaults_congr (w : World) (fs : List Bool) :
    ({ w with getByKeyFaults := fs } : World).timeNow =
      (w.timeNow.1, { w.timeNow.2 with getByKeyFaults := fs }) := by
  obtain ⟨ls, lts, acts, now, later, f1, f2, f3, f4, f5, f6⟩ := w
  cases later <;> rfl

theorem Validate_active_world (w : World) (key : String) (lic : License) (lt : LicenseType)
    (hf : w.getByKeyFaults.headD false = false) (hk : findByKey w.licenses key = some lic)
    (hr : lic.IsRevoked = false) (he : w.now ≤ lic.ExpiryDate) (ha : lic.IsActive = true)
    (htf : w.typeFaults.headD false = false)
    (ht : findType w.licenseTypes lic.LicenseTypeID = some lt) :
    (service.Validate w key).2.licenses =
      (if w.updateFaults.headD false then w.licenses
       else saved w.licenses { lic with LastCheck := some w.timeNow.2.now }) ∧
    (service.Validate w key).2.typeFaults = w.typeFaults.tail ∧
    (service.Validate w key).2.getByKeyFaults = w.getByKeyFaults.tail ∧
    (service.Validate w key).2.licenseTypes = w.licenseTypes ∧
    (w.activityFaults.headD false = true →
      (service.Validate w key).2.activities = w.activities) ∧
    (w.activityFaults.headD false = false →
      ∃ act, (service.Validate w key).2.activities = w.activities ++ [act] ∧
        act.LicenseID = lic.ID ∧ act.ActivityType = "validation") := by
  have hf2 : w.getByKeyFaults.head?.getD false = false := by simpa using hf
  have htf2 : w.typeFaults.head?.getD false = false := by simpa using htf
  have hn : ¬ lic.ExpiryDate < w.now := not_lt.mpr he
  cases hu : w.updateFaults.head?.getD false <;>
    cases hact : w.activityFaults.head?.getD false <;>
    simp [service.Validate, licenseRepo.GetByKey, hf2, hk, hr, Time.After, hn, ha,
      licenseTypeRepo.GetByID, htf2, ht, Update_eq, service.RecordActivity,
      licenseRepo.CreateActivity, IsZero_zero, hu, hact, timeNow_getByKeyFaults_congr]

theorem findByKey_saved_lastCheck (ls : List License) (key : String) (lic : License)
    (t : Option Time) (hk : findByKey ls key = some lic) :
    findByKey (saved ls { lic with LastCheck := t }) key = some { lic with LastCheck := t } :=
  findByKey_saved ls key lic { lic with LastCheck := t } hk rfl (findByKey_key ls key lic hk)

/-- C21. For a stored license that is not revoked, not expired and active, and whose license
type can be fetched: the license table `Validate` leaves is the one it found, with the
record of the license saved with its last check set to the reading of the clock (or the
table it found, when that write fails); the record then stored under the key has the fields
of the loaded one apart from the last check; and a second `Validate` that follows, the type
still fetched and the clock still not after the expiry date, returns `Valid = true` with a
nil error again. -/
theorem C21_validate_frame (w : World) (key : String) (lic : License) (lt : LicenseType)
    (hst : Stored w key lic) (hr : lic.IsRevoked = false) (he : w.now ≤ lic.ExpiryDate)
    (ha : lic.IsActive = true)
    (ht : (licenseTypeRepo.GetByID w lic.LicenseTypeID).1 = .ok lt) :
    (service.Validate w key).2.licenses =
      (if w.updateFaults.headD false then w.licenses
       else saved w.licenses { lic with LastCheck := some w.timeNow.2.now }) ∧
    (∃ lic2, findByKey (service.Validate w key).2.licenses key = some lic2 ∧
      lic2 = { lic with LastCheck := lic2.LastCheck } ∧
      (w.updateFaults.headD false = false → lic2.LastCheck = some w.timeNow.2.now)) ∧
    (noFault w.typeFaults → (service.Validate w key).2.now ≤ lic.ExpiryDate →
      (service.Validate (service.Validate w key).2 key).1 =
        (some { Valid := true, Message := "", ExpiresAt := lic.ExpiryDate,
                Features := lt.Features }, none)) := by
  obtain ⟨htf, htk⟩ := (TypeGetByID_ok_iff w lic.LicenseTypeID lt).1 ht
  obtain ⟨hl, htf2, hkf, hlt, -, -⟩ :=
    Validate_active_world w key lic lt (noFault_head _ hst.1) hst.2 hr he ha htf htk
  have hstored : ∃ lic2, findByKey (service.Validate w key).2.licenses key = some lic2 ∧
      lic2 = { lic with LastCheck := lic2.LastCheck } ∧
      (w.updateFaults.headD false = false → lic2.LastCheck = some w.timeNow.2.now) := by
    rw [hl]
    cases hu : w.updateFaults.headD false
    · exact ⟨_, findByKey_saved_lastCheck w.licenses key lic _ hst.2, rfl, fun _ => rfl⟩
    · exact ⟨lic, hst.2, rfl, fun h => absurd h (by simp)⟩
  refine ⟨hl, hstored, ?_⟩
  intro hnf hclock
  obtain ⟨lic2, hk2, heq, -⟩ := hstored
  have e1 : lic2.ExpiryDate = lic.ExpiryDate := by rw [heq]
  have e2 : lic2.IsRevoked = false := by rw [heq]; exact hr
  have e3 : lic2.IsActive = true := by rw [heq]; exact ha
  have e4 : lic2.LicenseTypeID = lic.LicenseTypeID := by rw [heq]
  rw [← e1]
  apply Validate_active _ key lic2 lt _ hk2 e2 (by rw [e1]; exact hclock) e3
  · rw [htf2]
    exact noFault_head _ (noFault_tail _ hnf)
  · rw [hlt, e4]
    exact htk
  · rw [hkf]
    exact noFault_head _ (noFault_tail _ hst.1)

/-- C21 on `sampleWorld` with a clock that moves on to 1600 and 1700. -/
theorem C21_validate_frame_witness :
    findByKey (service.Validate { sampleWorld with later := [1600, 1700] } "k1").2.licenses
        "k1" = some { sampleLicense with LastCheck := some 1600 } ∧
    (service.Validate (service.Validate { sampleWorld with later := [1600, 1700] } "k1").2
        "k1").1 =
      (some { Valid := true, Message := "", ExpiresAt := 2000,
              Features := some [("seats", .num (.fin 10))] }, none) :=
  have h := C21_validate_frame { sampleWorld with later := [1600, 1700] } "k1" sampleLicense
    sampleType (by decide) rfl (by decide) rfl rfl
  ⟨by decide, h.2.2 (by decide) (by decide)⟩

/-! ## The activities `Validate` records -/

/-- C22, counterexample. `Validate` finds a revoked license, an expired one and an inactive
one, fails with the error of each outcome, and the activity table is as empty as before. -/
theorem C22_counterexample :
    ((service.Validate
        { sampleWorld with licenses := [{ sampleLicense with IsRevoked := true }] } "k1").1.2 =
        some .ErrLicenseRevoked ∧
      (service.Validate
        { sampleWorld with licenses := [{ sampleLicense with IsRevoked := true }] }
        "k1").2.activities = []) ∧
    ((service.Validate { sampleWorld with now := 2500 } "k1").1.2 = some .ErrLicenseExpired ∧
      (service.Validate { sampleWorld with now := 2500 } "k1").2.activities = []) ∧
    ((service.Validate
        { sampleWorld with licenses := [{ sampleLicense with IsActive := false }] } "k1").1.2 =
        some .ErrLicenseInvalid ∧
      (service.Validate
        { sampleWorld with licenses := [{ sampleLicense with IsActive := false }] }
        "k1").2.activities = []) := by
  decide

/-- C22, amended. A `Validate` call that finds the license records an activity of that
license, of type "validation", exactly when it succeeds (the license is active, not revoked
and not expired, and its type is fetched) and the write of the activity does not fail; a call
that fails, whatever the outcome, leaves the activity table as it was, and so does a call
that succeeds while the write of the activity fails. -/
theorem C22_activity_when_valid (w : World) (key : String) (lic : License)
    (hst : Stored w key lic) :
    (∀ e, (service.Validate w key).1.2 = some e →
      (service.Validate w key).2.activities = w.activities) ∧
    ((service.Validate w key).1.2 = none → w.activityFaults.headD false = false →
      ∃ act, (service.Validate w key).2.activities = w.activities ++ [act] ∧
        act.LicenseID = lic.ID ∧ act.ActivityType = "validation") ∧
    ((service.Validate w key).1.2 = none → w.activityFaults.headD false = true →
      (service.Validate w key).2.activities = w.activities) := by
  have hok : (service.Validate w key).1.2 = none →
      (w.activityFaults.headD false = true →
        (service.Validate w key).2.activities = w.activities) ∧
      (w.activityFaults.headD false = false →
        ∃ act, (service.Validate w key).2.activities = w.activities ++ [act] ∧
          act.LicenseID = lic.ID ∧ act.ActivityType = "validation") := by
    intro h
    obtain ⟨lic0, lt, t, hf, hk, hr, he, ha, htf, ht, -⟩ := Validate_ok w key h
    rw [hst.2] at hk
    cases hk
    exact (Validate_active_world w key lic lt hf hst.2 hr (not_lt.mp he) ha htf ht).2.2.2.2
  exact ⟨fun e h => (Validate_err_frame w key e h).2.1, fun h => (hok h).2,
    fun h => (hok h).1⟩

/-- C22, amended, on `sampleWorld`: the validation of the active license appends one
activity of the license. -/
theorem C22_activity_when_valid_witness :
    ∃ act, (service.Validate sampleWorld "k1").2.activities = [] ++ [act] ∧
      act.LicenseID = 3 ∧ act.ActivityType = "validation" :=
  (C22_activity_when_valid sampleWorld "k1" sampleLicense (by decide)).2.1
    (by decide) (by decide)

/-! ## Revocation and its activity -/

/-- C23. For a stored license: when the write of the revocation activity fails, `Revoke`
returns an error; it is the error of that write when the update of the license succeeded,
and the license is then stored revoked all the same (the revocation is reported, not rolled
back) with the activity table as before. Whenever `Revoke` returns nil, the license is stored
revoked and inactive with the reason, and one activity of the license, of type "revocation"
and carrying the reason in its metadata, has been appended. -/
theorem C23_revoke_activity_fatal (w : World) (id : UUID) (reason : String) (lic : License)
    (hs : (licenseRepo.GetByID w id).1 = .ok lic) :
    (w.activityFaults.headD false = true → (service.Revoke w id reason).1 ≠ none) ∧
    (w.updateFaults.headD false = false → w.activityFaults.headD false = true →
      (service.Revoke w id reason).1 =
        some (.wrap "failed to create license activity: " .driver "") ∧
      findByID (service.Revoke w id reason).2.licenses id =
        some { lic with IsRevoked := true, IsActive := false,
                        RevocationReason := some reason } ∧
      (service.Revoke w id reason).2.activities = w.activities) ∧
    ((service.Revoke w id reason).1 = none →
      w.updateFaults.headD false = false ∧ w.activityFaults.headD false = false ∧
      findByID (service.Revoke w id reason).2.licenses id =
        some { lic with IsRevoked := true, IsActive := false,
                        RevocationReason := some reason } ∧
      ∃ act, (service.Revoke w id reason).2.activities = w.activities ++ [act] ∧
        act.LicenseID = id ∧ act.ActivityType = "revocation" ∧
        act.Metadata.get "reason" = some (.str reason)) := by
  obtain ⟨hf, hk⟩ := (GetByID_ok_iff w id lic).1 hs
  have hf2 : w.getByIDFaults.head?.getD false = false := by simpa using hf
  have hid := findByID_id _ _ _ hk
  have hsv := findByID_saved w.licenses
    { lic with IsRevoked := true, IsActive := false, RevocationReason := some reason }
  subst hid
  cases hu : w.updateFaults.head?.getD false <;>
    cases ha : w.activityFaults.head?.getD false <;>
    simp [service.Revoke, licenseRepo.GetByID, hf2, hk, Update_eq, hu, ha,
      service.RecordActivity, Time.IsZero, licenseRepo.CreateActivity, uuid.Nil, GoMap.get,
      hsv]

/-- C23 in a store whose next write of an activity fails: `Revoke` returns the error of
that write. -/
theorem C23_revoke_activity_fatal_witness :
    (service.Revoke { sampleWorld with activityFaults := [true] } 3 "fraud").1 =
        some (.wrap "failed to create license activity: " .driver "") ∧
      findByID (service.Revoke { sampleWorld with activityFaults := [true] } 3
          "fraud").2.licenses 3 =
        some { sampleLicense with IsRevoked := true, IsActive := false,
                                  RevocationReason := some "fraud" } ∧
      (service.Revoke { sampleWorld with activityFaults := [true] } 3 "fraud").2.activities =
        [] :=
  (C23_revoke_activity_fatal { sampleWorld with activityFaults := [true] } 3 "fraud"
    sampleLicense rfl).2.1 (by decide) (by decide)

/-- C24. For an identifier the store holds no license under, reads of the license table
succeeding, and every reason: `Revoke` fails with the `ErrNotFound` of the services, and the
world it leaves is the one it found after that one read: no license is updated and no
activity is recorded. -/
theorem C24_revoke_absent (w : World) (id : UUID) (reason : String)
    (hf : w.getByIDFaults.headD false = false) (hk : findByID w.licenses id = none) :
    service.Revoke w id reason =
      (some .ErrNotFound, { w with getByIDFaults := w.getByIDFaults.tail }) ∧
    (service.Revoke w id reason).2.licenses = w.licenses ∧
    (service.Revoke w id reason).2.activities = w.activities ∧
    (service.Revoke w id reason).2.updateFaults = w.updateFaults ∧
    (service.Revoke w id reason).2.activityFaults = w.activityFaults := by
  have hf2 : w.getByIDFaults.head?.getD false = false := by simpa using hf
  simp [service.Revoke, licenseRepo.GetByID, hf2, hk]

/-- C24 at the identifier 9, which `sampleWorld` does not hold. -/
theorem C24_revoke_absent_witness :
    (service.Revoke sampleWorld 9 "fraud").1 = some .ErrNotFound ∧
    (service.Revoke sampleWorld 9 "fraud").2.licenses = [sampleLicense] ∧
    (service.Revoke sampleWorld 9 "fraud").2.activities = [] :=
  have h := C24_revoke_absent sampleWorld 9 "fraud" (by decide) (by decide)
  ⟨congrArg Prod.fst h.1, h.2.1, h.2.2.1⟩

/-! ## Revoked licenses stay revoked -/

theorem findByID_mem (ls : List License) (id : UUID) (l : License)
    (h : findByID ls id = some l) : l ∈ ls :=
  List.mem_of_find?_eq_some h

theorem UniqueIDs_eq (ls : List License) (h : UniqueIDs ls) (a b : License)
    (ha : a ∈ ls) (hb : b ∈ ls) (hab : a.ID = b.ID) : a = b :=
  List.inj_on_of_nodup_map h ha hb hab

theorem saved_of_mem (ls : List License) (rec old : License) (hold : old ∈ ls)
    (hid : old.ID = rec.ID) :
    saved ls rec = ls.map (fun l => if l.ID == rec.ID then rec else l) := by
  unfold saved
  rw [if_pos (List.any_eq_true.2 ⟨old, hold, by simp [hid]⟩)]

theorem map_ID_replace (rec : License) (ls : List License) :
    (ls.map (fun l => if l.ID == rec.ID then rec else l)).map (fun l => l.ID) =
      ls.map (fun l => l.ID) := by
  rw [List.map_map]
  apply List.map_congr_left
  intro a _
  simp only [Function.comp]
  split
  · rename_i h
    exact (by simpa using h : a.ID = rec.ID).symm
  · rfl

theorem find?_replace_ne (rec : License) (id : UUID) (hne : rec.ID ≠ id) :
    ∀ ls : List License,
      (ls.map (fun l => if l.ID == rec.ID then rec else l)).find? (fun l => l.ID == id) =
        ls.find? (fun l => l.ID == id)
  | [] => rfl
  | a :: t => by
    rw [List.map_cons, List.find?_cons, List.find?_cons, find?_replace_ne rec id hne t]
    by_cases h : a.ID = rec.ID
    · have h1 : (a.ID == rec.ID) = true := by simp [h]
      have h2 : (rec.ID == id) = false := by simp [hne]
      have h3 : (a.ID == id) = false := by simp [h, hne]
      simp only [h1, if_true, h2, h3]
    · have h1 : (a.ID == rec.ID) = false := by simp [h]
      simp only [h1, Bool.false_eq_true, if_false]

theorem saved_keeps (ls : List License) (rec old : License) (id : UUID)
    (hu : UniqueIDs ls) (hr : RevokedAt ls id) (hold : old ∈ ls) (hid : old.ID = rec.ID)
    (hrev : old.ID = id → old.IsRevoked = true → rec.IsRevoked = true) :
    UniqueIDs (saved ls rec) ∧ RevokedAt (saved ls rec) id := by
  constructor
  · unfold UniqueIDs
    rw [saved_of_mem ls rec old hold hid, map_ID_replace]
    exact hu
  · obtain ⟨l, hl, hlr⟩ := hr
    by_cases h : rec.ID = id
    · have hlo : l = old :=
        UniqueIDs_eq ls hu l old (findByID_mem ls id l hl) hold
          (by rw [findByID_id ls id l hl, hid, h])
      subst hlo
      refine ⟨rec, ?_, hrev (hid.trans h) hlr⟩
      rw [← h]
      exact findByID_saved ls rec
    · refine ⟨l, ?_, hlr⟩
      rw [saved_of_mem ls rec old hold hid]
      unfold findByID at hl ⊢
      rw [find?_replace_ne rec id h ls]
      exact hl

theorem append_keeps (ls : List License) (row : License) (id : UUID)
    (hu : UniqueIDs ls) (hr : RevokedAt ls id) (hnew : ∀ l ∈ ls, l.ID ≠ row.ID) :
    UniqueIDs (ls ++ [row]) ∧ RevokedAt (ls ++ [row]) id := by
  constructor
  · unfold UniqueIDs at hu ⊢
    rw [List.map_append, List.nodup_append]
    refine ⟨hu, by simp, ?_⟩
    intro a ha hb
    simp only [List.map_cons, List.map_nil, List.mem_singleton] at hb
    obtain ⟨l, hl, hla⟩ := List.mem_map.1 ha
    exact hnew l hl (hla.trans hb)
  · obtain ⟨l, hl, hlr⟩ := hr
    refine ⟨l, ?_, hlr⟩
    unfold findByID at hl ⊢
    rw [List.find?_append, hl]
    rfl
theorem Revoke_licenses (w : World) (id : UUID) (reason : String) :
    (service.Revoke w id reason).2.licenses = w.licenses ∨
    ∃ lic, findByID w.licenses id = some lic ∧
      (service.Revoke w id reason).2.licenses =
        saved w.licenses { lic with IsRevoked := true, RevocationReason := some reason,
                                    IsActive := false } := by
  unfold service.Revoke licenseRepo.GetByID
  cases hf : w.getByIDFaults.head?.getD false <;> simp [hf]
  cases hk : findByID w.licenses id with
  | none => simp [hk]
  | some lic =>
    simp [hk, Update_eq]
    cases hu : w.updateFaults.head?.getD false <;> simp [hu]

theorem Update_table (w : World) (input : License) :
    (service.Update w input).2.licenses = w.licenses ∨
    ∃ existing, findByID w.licenses input.ID = some existing ∧
      (service.Update w input).2.licenses =
        saved w.licenses { input with LicenseKey := existing.LicenseKey,
                                      StartDate := existing.StartDate,
                                      ExpiryDate := existing.ExpiryDate,
                                      CurrentUsage := existing.CurrentUsage } := by
  unfold service.Update licenseRepo.GetByID
  cases hv : service.validateLicense input with
  | some e => simp [hv]
  | none =>
    simp only [hv]
    cases hf : w.getByIDFaults.head?.getD false <;> simp [hf]
    cases hk : findByID w.licenses input.ID with
    | none => simp [hk]
    | some lic =>
      simp [hk]
      cases hu : w.updateFaults.head?.getD false <;> simp [hu]

theorem repoCreate_table (w : World) (rec : License) :
    (licenseRepo.Create w rec).2.licenses = w.licenses ∨
    ((∀ l ∈ w.licenses, l.ID ≠ (licenseRepo.withDefaults w.licenses rec).ID) ∧
      (licenseRepo.Create w rec).2.licenses =
        w.licenses ++ [licenseRepo.tableRow (licenseRepo.withDefaults w.licenses rec)]) := by
  unfold licenseRepo.Create
  dsimp only
  cases hf : w.createFaults.headD false
  · simp only [Bool.false_eq_true, if_false]
    split
    · exact Or.inl rfl
    · rename_i hany
      right
      constructor
      · intro l hl hid
        exact hany (List.any_eq_true.2 ⟨l, hl, by rw [hid]; simp⟩)
      · rfl
  · exact Or.inl rfl

theorem Create_table (lib : Lib) (w : World) (input : License) :
    (service.Create lib w input).2.licenses = w.licenses ∨
    ∃ row, (∀ l ∈ w.licenses, l.ID ≠ row.ID) ∧
      (service.Create lib w input).2.licenses = w.licenses ++ [row] := by
  cases hv : service.validateLicense input with
  | some e => rw [Create_invalid lib w input e hv]; exact Or.inl rfl
  | none =>
    cases htf : w.typeFaults.headD false with
    | true => rw [Create_type_fault lib w input hv htf]; exact Or.inl rfl
    | false =>
      cases ht : findType w.licenseTypes input.LicenseTypeID with
      | none => rw [Create_type_missing lib w input hv htf ht]; exact Or.inl rfl
      | some lt =>
        rw [Create_eq lib w input lt hv htf ht]
        rcases repoCreate_table (beforeInsert w) (createdRecord lib w input lt) with h | h
        · rw [h, beforeInsert_licenses]
          exact Or.inl rfl
        · rw [beforeInsert_licenses] at h
          exact Or.inr ⟨licenseRepo.tableRow
            (licenseRepo.withDefaults w.licenses (createdRecord lib w input lt)), h.1, h.2⟩

theorem Validate_table (w : World) (key : String) :
    (service.Validate w key).2.licenses = w.licenses ∨
    ∃ lic t, findByKey w.licenses key = some lic ∧ lic.IsRevoked = false ∧
      (service.Validate w key).1.2 = none ∧
      (service.Validate w key).2.licenses = saved w.licenses { lic with LastCheck := some t } := by
  cases he : (service.Validate w key).1.2 with
  | some e => exact Or.inl (Validate_err_frame w key e he).1
  | none =>
    obtain ⟨lic, lt, t, -, hk, hr, -, -, -, -, -, hl, -⟩ := Validate_ok w key he
    rw [hl]
    split
    · exact Or.inl rfl
    · exact Or.inr ⟨lic, t, hk, hr, rfl, rfl⟩

theorem CheckUsage_table (w : World) (key : String) (usage : List (String × Value)) :
    (service.CheckUsage w key usage).2.licenses = w.licenses ∨
    (service.CheckUsage w key usage).2.licenses =
      (service.Validate (afterRead w) key).2.licenses ∨
    ∃ lic cur, findByKey w.licenses key = some lic ∧ lic.IsRevoked = false ∧
      (service.Validate (afterRead w) key).1.2 = none ∧
      (service.CheckUsage w key usage).2.licenses =
        saved (service.Validate (afterRead w) key).2.licenses
          { lic with CurrentUsage := cur } := by
  cases hf : w.getByKeyFaults.headD false with
  | true => rw [CheckUsage_read_fault w key usage hf]; exact Or.inl rfl
  | false =>
    cases hk : findByKey w.licenses key with
    | none => rw [CheckUsage_absent w key usage hf hk]; exact Or.inl rfl
    | some lic =>
      right
      cases hv : (service.Validate (afterRead w) key).1.2 with
      | some e => rw [CheckUsage_validate_err w key usage lic e hf hk hv]; exact Or.inl rfl
      | none =>
        obtain ⟨lic2, lt, t, -, hk2, hr, -⟩ := Validate_ok (afterRead w) key hv
        rw [afterRead_licenses, hk] at hk2
        cases hk2
        cases hl : service.usageLoop lic.UsageLimits lic.CurrentUsage usage with
        | failed e =>
          rw [CheckUsage_loop_failed w key usage lic e hf hk hv hl]; exact Or.inl rfl
        | panicked =>
          rw [CheckUsage_loop_panicked w key usage lic hf hk hv hl]; exact Or.inl rfl
        | done cur =>
          rw [CheckUsage_loop_done w key usage lic cur hf hk hv hl]
          split
          · exact Or.inl rfl
          · exact Or.inr ⟨lic, cur, rfl, hr, rfl, rfl⟩
theorem findByKey_mem (ls : List License) (key : String) (l : License)
    (h : findByKey ls key = some l) : l ∈ ls :=
  List.mem_of_find?_eq_some h

theorem Validate_keeps (w : World) (key : String) (id : UUID)
    (hu : UniqueIDs w.licenses) (hr : RevokedAt w.licenses id) :
    UniqueIDs (service.Validate w key).2.licenses ∧
      RevokedAt (service.Validate w key).2.licenses id := by
  rcases Validate_table w key with h | ⟨lic, t, hk, hnr, -, h⟩
  · rw [h]
    exact ⟨hu, hr⟩
  · rw [h]
    exact saved_keeps w.licenses _ lic id hu hr (findByKey_mem _ _ _ hk) rfl
      (fun _ h2 => absurd (hnr.symm.trans h2) (by simp))

theorem step_keeps (lib : Lib) (w : World) (op : Op) (id : UUID)
    (hu : UniqueIDs w.licenses) (hr : RevokedAt w.licenses id) (hop : op.keepsRevoked id) :
    UniqueIDs (op.step lib w).licenses ∧ RevokedAt (op.step lib w).licenses id := by
  cases op with
  | create input =>
    show UniqueIDs (service.Create lib w input).2.licenses ∧
      RevokedAt (service.Create lib w input).2.licenses id
    rcases Create_table lib w input with h | ⟨row, hnew, h⟩
    · rw [h]
      exact ⟨hu, hr⟩
    · rw [h]
      exact append_keeps w.licenses row id hu hr hnew
  | update input =>
    show UniqueIDs (service.Update w input).2.licenses ∧
      RevokedAt (service.Update w input).2.licenses id
    rcases Update_table w input with h | ⟨existing, hk, h⟩
    · rw [h]
      exact ⟨hu, hr⟩
    · rw [h]
      have hid := findByID_id _ _ _ hk
      exact saved_keeps w.licenses _ existing id hu hr (findByID_mem _ _ _ hk) hid
        (fun h1 _ => hop (hid.symm.trans h1))
  | revoke rid reason =>
    show UniqueIDs (service.Revoke w rid reason).2.licenses ∧
      RevokedAt (service.Revoke w rid reason).2.licenses id
    rcases Revoke_licenses w rid reason with h | ⟨lic, hk, h⟩
    · rw [h]
      exact ⟨hu, hr⟩
    · rw [h]
      exact saved_keeps w.licenses _ lic id hu hr (findByID_mem _ _ _ hk) rfl
        (fun _ _ => rfl)
  | validate key => exact Validate_keeps w key id hu hr
  | checkUsage key usage =>
    show UniqueIDs (service.CheckUsage w key usage).2.licenses ∧
      RevokedAt (service.CheckUsage w key usage).2.licenses id
    have hV := Validate_keeps (afterRead w) key id hu hr
    rcases CheckUsage_table w key usage with h | h | ⟨lic, cur, hk, hnr, -, h⟩
    · rw [h]
      exact ⟨hu, hr⟩
    · rw [h]
      exact hV
    · rw [h]
      obtain ⟨lic2, hk2, h2⟩ := Validate_findByKey (afterRead w) key lic hk
      have hid2 : lic2.ID = lic.ID := by
        rcases h2 with h2 | ⟨t, h2⟩ <;> rw [h2]
      have hnr2 : lic2.IsRevoked = false := by
        rcases h2 with h2 | ⟨t, h2⟩ <;> rw [h2] <;> exact hnr
      exact saved_keeps _ _ lic2 id hV.1 hV.2 (findByKey_mem _ _ _ hk2) hid2
        (fun _ h3 => absurd (hnr2.symm.trans h3) (by simp))

theorem run_keeps (lib : Lib) (id : UUID) :
    ∀ (ops : List Op) (w : World), UniqueIDs w.licenses → RevokedAt w.licenses id →
      (∀ op ∈ ops, op.keepsRevoked id) →
      UniqueIDs (run lib w ops).licenses ∧ RevokedAt (run lib w ops).licenses id
  | [], _, hu, hr, _ => ⟨hu, hr⟩
  | op :: ops, w, hu, hr, hops => by
    have h := step_keeps lib w op id hu hr (hops op (List.mem_cons_self _ _))
    exact run_keeps lib id ops (op.step lib w) h.1 h.2
      (fun o ho => hops o (List.mem_cons_of_mem _ ho))

/-- C25, counterexample. The store holds license 3 revoked. An `Update` whose record of
license 3 is flagged not revoked and active succeeds, and the store then holds license 3 not
revoked and active. -/
theorem C25_counterexample :
    RevokedAt revokedWorld.licenses 3 ∧
    (service.Update revokedWorld { sampleLicense with IsRevoked := false, IsActive := true }).1
      = .ok { sampleLicense with IsRevoked := false, IsActive := true } ∧
    findByID (run goLib revokedWorld
        [.update { sampleLicense with IsRevoked := false, IsActive := true }]).licenses 3 =
      some { sampleLicense with IsRevoked := false, IsActive := true } ∧
    ¬ RevokedAt (run goLib revokedWorld
        [.update { sampleLicense with IsRevoked := false, IsActive := true }]).licenses 3 :=
  ⟨by decide, rfl, by decide, by decide⟩

/-- C25, amended. In a license table whose identifiers are pairwise different, once a
license is stored revoked, every sequence of `Create`, `Revoke`, `Validate`, `CheckUsage` and
`Update` calls, with any inputs, in which no `Update` hands in a record of that license
flagged as not revoked, leaves that license stored revoked. -/
theorem C25_revoked_stays (lib : Lib) (w : World) (id : UUID) (ops : List Op)
    (hu : UniqueIDs w.licenses) (hr : RevokedAt w.licenses id)
    (hops : ∀ op ∈ ops, op.keepsRevoked id) :
    RevokedAt (run lib w ops).licenses id :=
  (run_keeps lib id ops w hu hr hops).2

/-- C25, amended, at a validation, a usage report, an update that keeps the flag, a second
revocation and the creation of another license, one after the other. -/
theorem C25_revoked_stays_witness :
    RevokedAt (run goLib revokedWorld
      [.validate "k1", .checkUsage "k1" [("seats", .num (.fin 5))],
       .update { sampleLicense with IsRevoked := true, IsActive := true },
       .revoke 3 "again", .create (triadInput 1 7 2)]).licenses 3 :=
  C25_revoked_stays goLib revokedWorld 3 _ (by decide) (by decide)
    (by
      intro op hop
      simp only [List.mem_cons, List.mem_singleton, List.not_mem_nil, or_false] at hop
      rcases hop with rfl | rfl | rfl | rfl | rfl
      · trivial
      · trivial
      · exact fun _ => rfl
      · trivial
      · trivial)

/-! ## What `Update` keeps of the stored record -/

theorem service_Update_eq (w : World) (input existing : License)
    (hv : service.validateLicense input = none)
    (hf : w.getByIDFaults.headD false = false)
    (hk : findByID w.licenses input.ID = some existing) :
    service.Update w input =
      licenseRepo.Update { w with getByIDFaults := w.getByIDFaults.tail }
        { input with LicenseKey := existing.LicenseKey, StartDate := existing.StartDate,
                     ExpiryDate := existing.ExpiryDate,
                     CurrentUsage := existing.CurrentUsage } := by
  have hf2 : w.getByIDFaults.head?.getD false = false := by simpa using hf
  simp [service.Update, hv, licenseRepo.GetByID, hf2, hk]

/-- C26. For a stored license and a caller's record of its identifier that passes the
validation of the input: when the write succeeds, `Update` returns and stores under that
identifier the caller's record with the license key, the start date, the expiry date and the
current usage of the stored record in place of the caller's; every record `Update` returns
is that one; and when the write fails the license table is as it was. -/
theorem C26_update_preserves (w : World) (input existing : License)
    (hv : service.validateLicense input = none)
    (hs : (licenseRepo.GetByID w input.ID).1 = .ok existing) :
    (w.updateFaults.headD false = false →
      (service.Update w input).1 =
        .ok { input with LicenseKey := existing.LicenseKey, StartDate := existing.StartDate,
                         ExpiryDate := existing.ExpiryDate,
                         CurrentUsage := existing.CurrentUsage } ∧
      findByID (service.Update w input).2.licenses input.ID =
        some { input with LicenseKey := existing.LicenseKey,
                          StartDate := existing.StartDate,
                          ExpiryDate := existing.ExpiryDate,
                          CurrentUsage := existing.CurrentUsage }) ∧
    (∀ rec, (service.Update w input).1 = .ok rec →
      rec.LicenseKey = existing.LicenseKey ∧ rec.StartDate = existing.StartDate ∧
      rec.ExpiryDate = existing.ExpiryDate ∧ rec.CurrentUsage = existing.CurrentUsage ∧
      findByID (service.Update w input).2.licenses input.ID = some rec) ∧
    (w.updateFaults.headD false = true →
      (service.Update w input).2.licenses = w.licenses) := by
  obtain ⟨hf, hk⟩ := (GetByID_ok_iff w input.ID existing).1 hs
  have hsv := findByID_saved w.licenses
    { input with LicenseKey := existing.LicenseKey, StartDate := existing.StartDate,
                 ExpiryDate := existing.ExpiryDate, CurrentUsage := existing.CurrentUsage }
  rw [service_Update_eq w input existing hv hf hk, Update_eq]
  cases hu : w.updateFaults.headD false
  · simp only [Bool.false_eq_true, if_false, true_implies, false_implies, and_true]
    refine ⟨⟨trivial, hsv⟩, ?_⟩
    intro rec hrec
    have hrec2 := Except.ok.inj hrec
    subst hrec2
    exact ⟨rfl, rfl, rfl, rfl, hsv⟩
  · simp only [if_true, Bool.true_eq_false, false_implies, true_implies, true_and]
    refine ⟨?_, trivial⟩
    intro rec hrec
    cases hrec

/-- C26 at an update of license 3 that hands in another key, other dates and another
current usage, and new limits: the stored record keeps its key, dates and current usage and
takes the new limits. -/
theorem C26_update_preserves_witness :
    findByID (service.Update sampleWorld
        { sampleLicense with LicenseKey := "other", StartDate := 1, ExpiryDate := 9000,
                             CurrentUsage := some [("seats", .num (.fin 99))],
                             UsageLimits := some [("seats", .num (.fin 20))] }).2.licenses 3 =
      some { sampleLicense with UsageLimits := some [("seats", .num (.fin 20))] } :=
  ((C26_update_preserves sampleWorld
      { sampleLicense with LicenseKey := "other", StartDate := 1, ExpiryDate := 9000,
                           CurrentUsage := some [("seats", .num (.fin 99))],
                           UsageLimits := some [("seats", .num (.fin 20))] }
      sampleLicense (by decide) rfl).1 (by decide)).2

/-! ## The keys of the current usage -/

namespace service

theorem usageLoop_done_keys (limits : GoMap) (k : String) :
    ∀ (usage : List (String × Value)) (cur c : GoMap),
      usageLoop limits cur usage = .done c → c.get k ≠ none →
      cur.get k ≠ none ∨ limits.get k ≠ none
  | [], cur, c, h, hc => by
    have : cur = c := by simpa [usageLoop] using h
    rw [this]
    exact Or.inl hc
  | (m, v) :: rest, cur, c, h, hc => by
    cases hl : limits.get m with
    | none =>
      rw [usageLoop_cons_unlimited limits cur m v rest hl] at h
      exact usageLoop_done_keys limits k rest cur c h hc
    | some limit =>
      obtain ⟨es, a, hcur, -, h2⟩ := usageLoop_done_step limits cur c m v rest limit hl h
      by_cases hkm : k = m
      · right
        rw [hkm, hl]
        simp
      · rcases usageLoop_done_keys limits k rest _ c h2 hc with h3 | h3
        · left
          rw [hcur]
          have : GoMap.get (some (es.set m (.num a))) k = GoMap.get (some es) k :=
            Entries.lookup_set_ne es m k (.num a) hkm
          rw [← this]
          exact h3
        · exact Or.inr h3

end service

/-- C28. The keys of the current usage are keys of the usage limits for a license that a
successful `Create` returns and for the row it stores under its key; and a `CheckUsage` that succeeds on a
stored license for which this holds leaves the license stored with the same usage limits and
with a current usage whose keys are again keys of the limits, for every submitted map. -/
theorem C28_usage_keys (lib : Lib) (w : World) :
    (∀ input lic, (service.Create lib w input).1 = .ok lic →
      KeysSubset lic.CurrentUsage lic.UsageLimits ∧
      findByKey (service.Create lib w input).2.licenses lic.LicenseKey =
        some (licenseRepo.tableRow lic) ∧
      KeysSubset (licenseRepo.tableRow lic).CurrentUsage
        (licenseRepo.tableRow lic).UsageLimits) ∧
    (∀ key lic usage, Stored w key lic → KeysSubset lic.CurrentUsage lic.UsageLimits →
      (service.CheckUsage w key usage).1 = .returned none →
      ∃ lic2, findByKey (service.CheckUsage w key usage).2.licenses key = some lic2 ∧
        lic2.UsageLimits = lic.UsageLimits ∧
        KeysSubset lic2.CurrentUsage lic2.UsageLimits) := by
  constructor
  · intro input lic h
    obtain ⟨lt, -, -, -, hlic, hnew, hw⟩ := Create_ok lib w input lic h
    have hsub : KeysSubset lic.CurrentUsage lic.UsageLimits := by
      intro k hk
      rw [hlic, created_CurrentUsage] at hk
      exact absurd rfl hk
    refine ⟨hsub, ?_, hsub⟩
    rw [hw]
    exact findByKey_created w.licenses lic hnew
  · intro key lic usage hst hsub h
    obtain ⟨cur, hloop, hk⟩ := CheckUsage_success w key lic usage hst h
    refine ⟨_, hk, rfl, ?_⟩
    intro k hc
    rcases service.usageLoop_done_keys lic.UsageLimits k usage lic.CurrentUsage cur hloop hc
      with h1 | h1
    · exact hsub k h1
    · exact h1

/-- C28 at a report of five seats and of a metric without limit, "users", on
`sampleWorld`: the stored current usage holds the seats only. -/
theorem C28_usage_keys_witness :
    ∃ lic2, findByKey (service.CheckUsage sampleWorld "k1"
        [("seats", .num (.fin 5)), ("users", .num (.fin 7))]).2.licenses "k1" = some lic2 ∧
      lic2.UsageLimits = sampleLicense.UsageLimits ∧
      KeysSubset lic2.CurrentUsage lic2.UsageLimits :=
  (C28_usage_keys goLib sampleWorld).2 "k1" sampleLicense
    [("seats", .num (.fin 5)), ("users", .num (.fin 7))] (by decide)
    (fun _ h => absurd rfl h) (by decide)

/-! ## The errors of a lookup that finds nothing -/

/-- C27: the lookup of the license type. In a store without the license type 9, `Create`
for that type returns an error that wraps `repository.ErrNotFound` and is not the
`ErrNotFound` of the services; so do `Validate` and `CheckUsage` on a stored license whose
type the store does not hold. The lookups of a license map it: `GetByID`, `GetByKey`,
`Update`, `Revoke` and `CheckUsage` return the `ErrNotFound` of the services, `Validate`
returns `ErrLicenseInvalid`. -/
theorem C27_type_lookup_not_found :
    ((service.Create goLib sampleWorld (triadInput 1 9 2)).1 =
        .error (.wrap "failed to get license type: " .RepoErrNotFound "") ∧
      GoError.Is (.wrap "failed to get license type: " .RepoErrNotFound "")
        .RepoErrNotFound = true ∧
      GoError.Is (.wrap "failed to get license type: " .RepoErrNotFound "")
        .ErrNotFound = false) ∧
    (service.Validate { sampleWorld with licenseTypes := [] } "k1").1.2 =
      some (.wrap "failed to get license type: " .RepoErrNotFound "") ∧
    (service.CheckUsage { sampleWorld with licenseTypes := [] } "k1"
        [("seats", .num (.fin 5))]).1 =
      .returned (some (.wrap "failed to get license type: " .RepoErrNotFound "")) ∧
    ((service.GetByID sampleWorld 9).1 = .error .ErrNotFound ∧
      (service.GetByKey sampleWorld "k9").1 = .error .ErrNotFound ∧
      (service.Update sampleWorld { sampleLicense with ID := 9 }).1 = .error .ErrNotFound ∧
      (service.Revoke sampleWorld 9 "fraud").1 = some .ErrNotFound ∧
      (service.CheckUsage sampleWorld "k9" []).1 = .returned (some .ErrNotFound) ∧
      (service.Validate sampleWorld "k9").1.2 = some .ErrLicenseInvalid) :=
  ⟨⟨by rfl, by decide, by decide⟩, by decide, by decide,
    by rfl, by rfl, by rfl, by decide, by decide, by decide⟩

/-! ## The last check after a usage report -/

/-- C29: the last check after `CheckUsage`. On `sampleWorld`, whose license has no last
check, with a clock that moves on to 1600, a report of five seats succeeds. Its `Validate`
step stores the last check 1600 (the store after `Validate` alone holds it), and the final
write of `CheckUsage` stores the record loaded before the validation: the stored license
then has the five seats and no last check. -/
theorem C29_last_check_overwritten :
    (service.CheckUsage { sampleWorld with later := [1600] } "k1"
        [("seats", .num (.fin 5))]).1 = .returned none ∧
    findByKey (service.Validate (afterRead { sampleWorld with later := [1600] })
        "k1").2.licenses "k1" = some { sampleLicense with LastCheck := some 1600 } ∧
    findByKey (service.CheckUsage { sampleWorld with later := [1600] } "k1"
        [("seats", .num (.fin 5))]).2.licenses "k1" =
      some { sampleLicense with CurrentUsage := some [("seats", .num (.fin 5))],
                                LastCheck := none } := by
  decide

/-! ## The deletion of a client -/

theorem activeClientLicenses_pos (ls : List License) (applicationID clientID : UUID) :
    0 < (activeClientLicenses ls applicationID clientID).length ↔
      ∃ l ∈ ls, l.ApplicationID = applicationID ∧ l.ClientID = clientID ∧
        l.IsActive = true ∧ l.IsRevoked = false := by
  unfold activeClientLicenses
  rw [List.length_pos_iff_exists_mem]
  constructor
  · rintro ⟨l, hl⟩
    rw [List.mem_filter] at hl
    refine ⟨l, hl.1, ?_⟩
    simpa [and_assoc] using hl.2
  · rintro ⟨l, hl, h⟩
    refine ⟨l, ?_⟩
    rw [List.mem_filter]
    refine ⟨hl, ?_⟩
    simpa [and_assoc] using h

theorem findClient_savedClient (cs : List Client) (applicationID id : UUID) (c c2 : Client)
    (h : findClient cs applicationID id = some c) (hid : c2.ID = c.ID)
    (happ : c2.ApplicationID = c.ApplicationID) :
    findClient (savedClient cs c2) applicationID id = some c2 := by
  unfold findClient at h
  have hmem : c ∈ cs := List.mem_of_find?_eq_some h
  have hc := List.find?_some h
  have hany : cs.any (fun x => x.ID == c2.ID) = true :=
    List.any_eq_true.2 ⟨c, hmem, by simp [hid]⟩
  have hp2 : (c2.ApplicationID == applicationID && c2.ID == id) = true := by
    rw [hid, happ]
    exact hc
  unfold savedClient findClient
  rw [if_pos hany]
  clear hany hmem
  induction cs with
  | nil => simp at h
  | cons a t ih =>
    rw [List.map_cons, List.find?_cons]
    by_cases ha : a.ID = c2.ID
    · have h1 : (a.ID == c2.ID) = true := by simp [ha]
      simp only [h1, if_true, hp2]
    · have h1 : (a.ID == c2.ID) = false := by simp [ha]
      simp only [h1, Bool.false_eq_true, if_false]
      rw [List.find?_cons] at h
      cases hpa : (a.ApplicationID == applicationID && a.ID == id)
      · rw [hpa] at h
        exact ih h
      · rw [hpa] at h
        have hac : a = c := by simpa using h
        rw [hac, hid] at ha
        exact absurd rfl ha

theorem savedClient_ids (cs : List Client) (c c2 : Client) (hmem : c ∈ cs)
    (hid : c2.ID = c.ID) :
    (savedClient cs c2).map (fun x => x.ID) = cs.map (fun x => x.ID) := by
  unfold savedClient
  rw [if_pos (List.any_eq_true.2 ⟨c, hmem, by simp [hid]⟩), List.map_map]
  apply List.map_congr_left
  intro a _
  simp only [Function.comp]
  split
  · rename_i h
    exact (by simpa using h : a.ID = c2.ID).symm
  · rfl

theorem Delete_guarded (w : ClientWorld) (applicationID id : UUID)
    (hq : w.hasActiveFaults.headD false = false)
    (h : 0 < (activeClientLicenses w.licenses applicationID id).length) :
    clientService.Delete w applicationID id =
      (some .ErrClientHasActiveLicenses,
        { w with hasActiveFaults := w.hasActiveFaults.tail }) := by
  have hq2 : w.hasActiveFaults.head?.getD false = false := by simpa using hq
  simp [clientService.Delete, licenseRepo.HasActiveClientLicenses, hq2, h]

theorem Delete_unguarded (w : ClientWorld) (applicationID id : UUID)
    (hq : w.hasActiveFaults.headD false = false)
    (h : ¬ 0 < (activeClientLicenses w.licenses applicationID id).length) :
    clientService.Delete w applicationID id =
      match clientRepo.GetByID { w with hasActiveFaults := w.hasActiveFaults.tail }
          applicationID id with
      | (.error err, w2) =>
        if err = .RepoErrNotFound then (some .ErrNotFound, w2) else (some err, w2)
      | (.ok client, w2) =>
        match clientRepo.Update w2 { client with IsActive := false } with
        | (.error err, w3) => (some err, w3)
        | (.ok _, w3) => (none, w3) := by
  have hq2 : w.hasActiveFaults.head?.getD false = false := by simpa using hq
  simp [clientService.Delete, licenseRepo.HasActiveClientLicenses, hq2, h]

/-- C30. When the query for the active licenses does not fail: if a license of the
application and the client is flagged active and not revoked, `Delete` fails with
`ErrClientHasActiveLicenses` and the tables are as they were. Otherwise, the read of the
client not failing: when the store holds no client of that application and identifier,
`Delete` fails with the `ErrNotFound` of the services and the tables are as they were; when
it holds one and the write succeeds, `Delete` returns nil, the client table then holds under
that identifier the same record with `IsActive = false`, it has the rows it had (none is
removed) and the license table is as it was; and when the write fails `Delete` returns its
error and the tables are as they were. -/
theorem C30_client_delete (w : ClientWorld) (applicationID id : UUID)
    (hq : w.hasActiveFaults.headD false = false) :
    ((∃ l ∈ w.licenses, l.ApplicationID = applicationID ∧ l.ClientID = id ∧
        l.IsActive = true ∧ l.IsRevoked = false) →
      clientService.Delete w applicationID id =
        (some .ErrClientHasActiveLicenses,
          { w with hasActiveFaults := w.hasActiveFaults.tail })) ∧
    ((¬ ∃ l ∈ w.licenses, l.ApplicationID = applicationID ∧ l.ClientID = id ∧
        l.IsActive = true ∧ l.IsRevoked = false) →
      w.getFaults.headD false = false →
      (findClient w.clients applicationID id = none →
        (clientService.Delete w applicationID id).1 = some .ErrNotFound ∧
        (clientService.Delete w applicationID id).2.clients = w.clients ∧
        (clientService.Delete w applicationID id).2.licenses = w.licenses) ∧
      (∀ c, findClient w.clients applicationID id = some c →
        (w.updateFaults.headD false = false →
          (clientService.Delete w applicationID id).1 = none ∧
          (clientService.Delete w applicationID id).2.clients =
            savedClient w.clients { c with IsActive := false } ∧
          findClient (clientService.Delete w applicationID id).2.clients applicationID id =
            some { c with IsActive := false } ∧
          (clientService.Delete w applicationID id).2.clients.map (fun x => x.ID) =
            w.clients.map (fun x => x.ID) ∧
          (clientService.Delete w applicationID id).2.licenses = w.licenses) ∧
        (w.updateFaults.headD false = true →
          (clientService.Delete w applicationID id).1 =
            some (.wrap "failed to update client: " .driver "") ∧
          (clientService.Delete w applicationID id).2.clients = w.clients ∧
          (clientService.Delete w applicationID id).2.licenses = w.licenses))) := by
  constructor
  · intro h
    exact Delete_guarded w applicationID id hq
      ((activeClientLicenses_pos w.licenses applicationID id).2 h)
  · intro h hg
    have h0 : ¬ 0 < (activeClientLicenses w.licenses applicationID id).length :=
      fun hpos => h ((activeClientLicenses_pos w.licenses applicationID id).1 hpos)
    have hg2 : w.getFaults.head?.getD false = false := by simpa using hg
    rw [Delete_unguarded w applicationID id hq h0]
    constructor
    · intro hk
      simp [clientRepo.GetByID, hg2, hk]
    · intro c hk
      have hsv := findClient_savedClient w.clients applicationID id c
        { c with IsActive := false } hk rfl rfl
      have hids := savedClient_ids w.clients c { c with IsActive := false }
        (List.mem_of_find?_eq_some hk) rfl
      constructor
      · intro hu
        have hu2 : w.updateFaults.head?.getD false = false := by simpa using hu
        simp [clientRepo.GetByID, hg2, hk, clientRepo.Update, hu2, hsv, hids]
      · intro hu
        have hu2 : w.updateFaults.head?.getD false = true := by simpa using hu
        simp [clientRepo.GetByID, hg2, hk, clientRepo.Update, hu2]

/-- C30 on `clientWorld`: client 2 of application 1 has the active license `sampleLicense`
and its deletion is refused; once that license is revoked the deletion succeeds and the
client is stored inactive, next to the other client. -/
theorem C30_client_delete_witness :
    clientService.Delete clientWorld 1 2 =
      (some .ErrClientHasActiveLicenses, clientWorld) ∧
    (clientService.Delete
        { clientWorld with licenses := [{ sampleLicense with IsRevoked := true }] }
        1 2).2.clients =
      [{ sampleClient with ID := 5, Name := "Other" },
       { sampleClient with IsActive := false }] :=
  ⟨(C30_client_delete clientWorld 1 2 (by decide)).1
      ⟨sampleLicense, List.mem_singleton.mpr rfl, rfl, rfl, rfl, rfl⟩,
    ((((C30_client_delete
      { clientWorld with licenses := [{ sampleLicense with IsRevoked := true }] } 1 2
      (by decide)).2 (by decide) (by decide)).2 sampleClient (by decide)).1
      (by decide)).2.1⟩

end GoLicenseManager
